import Mathlib

/-!
# Verification of the `imp` toolchain (compiler / bytecode / VM)

Shallow embedding of the `imp` repository (crates `imp-ast`, `imp-ir`,
`imp-compiler`, `imp-bytecode`, `imp-vm`) and proofs about it.

Modelling conventions:

* Rust `u32`/`usize` values are modelled as `Nat` (with explicit `< 2^32`
  bounds where the bytecode codec requires them).
* Rust `f64` values are modelled by their IEEE-754 binary64 *bit pattern*
  (a `Nat`).  The operations whose exact numeric results no theorem in this
  file depends on (`+ - * /` and decimal rendering) are abstracted into a
  `FloatArith` parameter; the zero test, IEEE equality (`==`) and ordering
  (`<`) — which theorems here do depend on — are modelled exactly on bit
  patterns (`f64IsZero`, `f64Eq`, `f64Lt`).
* Rust `HashMap<String, Value>` (runtime objects, export maps) is modelled
  as a key-sorted association list with unique keys, so that structural
  equality of the representation coincides with the extensional equality
  `HashMap` provides, and `Obj` comparison stays faithful.
* The interpreter and the pre-decoded ("JIT") dispatch loop are partial in
  Rust (a source-level infinite loop loops forever); both are embedded with
  an explicit fuel parameter, threaded identically through both strategies.
* Note on `Instr::ObjSet`: crate `imp-ir` declares the `key` field with type
  `Slot` (and `imp-bytecode` serializes it with `write_slot`), while the
  compiler (`lower_call`), the VM (both dispatch strategies) and the VM's own
  tests all store and consume an inline `String` key.  The crates are
  mutually inconsistent; this embedding follows the compiler/VM (inline
  `String` key), and the bytecode codec below serializes that string key
  length-prefixed where the source writes a slot.
-/

namespace Imp

/-! ## IEEE-754 binary64 bit-pattern model -/

/-- Mask of the non-sign bits of an IEEE-754 binary64 bit pattern. -/
def f64AbsMask : Nat := 0x7FFFFFFFFFFFFFFF

/-- Bit pattern of `0.0`. -/
def f64PosZero : Nat := 0

/-- Bit pattern of `-0.0`. -/
def f64NegZero : Nat := 0x8000000000000000

/-- A quiet-NaN bit pattern (the one Rust's `0.0/0.0` produces). -/
def f64NaN : Nat := 0x7FF8000000000000

/-- Bit pattern of `1.0`. -/
def f64One : Nat := 0x3FF0000000000000

/-- Bit pattern of `2.0`. -/
def f64Two : Nat := 0x4000000000000000

/-- `true` iff the bit pattern denotes a NaN (exponent all ones, non-zero
mantissa). -/
def f64IsNan (bits : Nat) : Bool :=
  (bits / 2 ^ 52) % 2 ^ 11 = 0x7FF && bits % 2 ^ 52 ≠ 0

/-- `true` iff the bit pattern denotes `+0.0` or `-0.0`. -/
def f64IsZero (bits : Nat) : Bool :=
  bits % 2 ^ 63 = 0

/-- IEEE-754 `==` on bit patterns: NaN is not equal to anything (itself
included); `+0.0 == -0.0`; every other value has a unique bit pattern, so
equality of values is equality of patterns. -/
def f64Eq (a b : Nat) : Bool :=
  !f64IsNan a && !f64IsNan b && (a == b || (f64IsZero a && f64IsZero b))

/-- Signed-magnitude ordering key of a non-NaN binary64 bit pattern: the
binary64 encoding is monotone in the value on each sign half. -/
def f64OrdKey (bits : Nat) : Int :=
  if bits < 2 ^ 63 then (bits : Int) else -((bits % 2 ^ 63 : Nat) : Int)

/-- IEEE-754 `<` on bit patterns: false whenever either side is NaN. -/
def f64Lt (a b : Nat) : Bool :=
  !f64IsNan a && !f64IsNan b && f64OrdKey a < f64OrdKey b

/-- The IEEE-754 arithmetic the embedded VM is parameterized by.  No claim
in this development depends on the numeric result of `+ - * /` or on the
decimal rendering of a float, so these stay abstract (every theorem holds
for an arbitrary instance); the observable zero test, equality and ordering
are fixed by `f64IsZero`, `f64Eq` and `f64Lt`. -/
structure FloatArith where
  add : Nat → Nat → Nat
  sub : Nat → Nat → Nat
  mul : Nat → Nat → Nat
  div : Nat → Nat → Nat
  ofNat : Nat → Nat    -- the `usize as f64` cast (used by `StrLen`)
  toText : Nat → String

/-- A trivial `FloatArith` instance used by concrete witness executions. -/
def unitArith : FloatArith :=
  { add := fun _ _ => 0, sub := fun _ _ => 0, mul := fun _ _ => 0,
    div := fun _ _ => 0, ofNat := fun n => n, toText := fun _ => "0" }

/-! ## IR data model (crate `imp-ir`) -/

/-- `imp_ir::Slot`. -/
inductive Slot where
  | loc (i : Nat)      -- `Slot::Local`
  | global (i : Nat)   -- `Slot::Global`
  | arg (i : Nat)      -- `Slot::Arg`
  | ret (i : Nat)      -- `Slot::Ret`
  | err (i : Nat)      -- `Slot::Err`
  deriving DecidableEq, Repr

/-- `imp_ir::ConstValue` (the `Num` payload is an f64 bit pattern). -/
inductive ConstValue where
  | null
  | bool (b : Bool)
  | num (bits : Nat)
  | str (s : String)
  deriving DecidableEq, Repr

/-- `imp_ir::Instr`.  `move`'s fields are named `src`/`dst` because `from`
is a Lean keyword; `objSet.key` is the inline string key the compiler and
VM use (see the header note). -/
inductive Instr where
  | storeConst (slot : Slot) (value : ConstValue)
  | move (src : Slot) (dst : Slot)
  | add (a b out : Slot)
  | sub (a b out : Slot)
  | mul (a b out : Slot)
  | div (a b out : Slot)
  | eq (a b out : Slot)
  | lt (a b out : Slot)
  | jump (target : Nat)
  | branch (cond : Slot) (thenPc elsePc : Nat)
  | invoke (fnSlot : Slot) (args : List Slot) (out : Slot)
  | returnSet (slotId : Nat) (value : Slot)
  | exit
  | throw (code msg : String)
  | tryPush (handlerPc : Nat)
  | tryPop
  | objNew (out : Slot)
  | objSet (obj : Slot) (key : String) (value : Slot) (out : Slot)
  | objGet (obj : Slot) (key : Slot) (out : Slot)
  | objHas (obj : Slot) (key : Slot) (out : Slot)
  | strConcat (a b out : Slot)
  | strLen (value : Slot) (out : Slot)
  | hostPrint (slot : Slot)
  deriving DecidableEq, Repr

/-- `imp_ir::RetShape`. -/
inductive RetShape where
  | scalar
  | either (tags : List String)
  | record (fields : List String)
  | any
  deriving DecidableEq, Repr

/-- `imp_ir::FnMeta`. -/
structure FnMeta where
  name : String
  argCount : Nat
  retCount : Nat
  retshape : RetShape
  deriving DecidableEq, Repr

/-- `imp_ir::CompiledFunction`. -/
structure CompiledFunction where
  id : Nat
  code : List Instr
  localCount : Nat
  argCount : Nat
  retCount : Nat
  errCount : Nat
  meta : FnMeta
  deriving DecidableEq, Repr

mutual
/-- `imp_ir::CompiledModule` (mutually inductive with `ImportBinding`,
mirroring the recursive `imports` field). -/
inductive CompiledModule where
  | mk (name : String) (initFunc : Nat) (functions : List CompiledFunction)
      (functionGlobals : List (Nat × Nat)) (exports : List (String × Nat))
      (imports : List ImportBinding) (globalCount : Nat)

/-- `imp_ir::ImportBinding` (`aliasName` models the `alias` field; `alias`
is a Lean keyword). -/
inductive ImportBinding where
  | mk (path : String) (aliasName : String) (module : CompiledModule)
      (exportToGlobal : List (String × Nat))
end

def CompiledModule.name : CompiledModule → String
  | .mk n _ _ _ _ _ _ => n

def CompiledModule.initFunc : CompiledModule → Nat
  | .mk _ i _ _ _ _ _ => i

def CompiledModule.functions : CompiledModule → List CompiledFunction
  | .mk _ _ f _ _ _ _ => f

def CompiledModule.functionGlobals : CompiledModule → List (Nat × Nat)
  | .mk _ _ _ g _ _ _ => g

def CompiledModule.exports : CompiledModule → List (String × Nat)
  | .mk _ _ _ _ e _ _ => e

def CompiledModule.imports : CompiledModule → List ImportBinding
  | .mk _ _ _ _ _ i _ => i

def CompiledModule.globalCount : CompiledModule → Nat
  | .mk _ _ _ _ _ _ c => c

def ImportBinding.path : ImportBinding → String
  | .mk p _ _ _ => p

def ImportBinding.aliasName : ImportBinding → String
  | .mk _ a _ _ => a

def ImportBinding.module : ImportBinding → CompiledModule
  | .mk _ _ m _ => m

def ImportBinding.exportToGlobal : ImportBinding → List (String × Nat)
  | .mk _ _ _ e => e

/-- `CompiledModule::function`: first function in the list with the given
id. -/
def CompiledModule.function (m : CompiledModule) (id : Nat) :
    Option CompiledFunction :=
  m.functions.find? (fun f => f.id == id)

/-! ## Runtime values (crate `imp-vm`) -/

/-- `imp_vm::Value`.  `obj` carries a key-sorted association list with
unique keys — the canonical representation of Rust's
`HashMap<String, Value>`. -/
inductive Value where
  | null
  | bool (b : Bool)
  | num (bits : Nat)
  | str (s : String)
  | obj (fields : List (String × Value))
  | func (id : Nat)
  | error (code msg : String)

mutual
/-- The `#[derive(PartialEq)]` equality of `imp_vm::Value`: numbers compare
by IEEE-754 `==` on the `f64` payload; objects compare extensionally (which
on the canonical sorted representation is pointwise comparison). -/
def valueEq : Value → Value → Bool
  | .null, .null => true
  | .bool a, .bool b => a == b
  | .num a, .num b => f64Eq a b
  | .str a, .str b => a == b
  | .obj a, .obj b => valueListEq a b
  | .func a, .func b => a == b
  | .error c1 m1, .error c2 m2 => c1 == c2 && m1 == m2
  | _, _ => false

def valueListEq : List (String × Value) → List (String × Value) → Bool
  | [], [] => true
  | (k1, v1) :: r1, (k2, v2) :: r2 => k1 == k2 && valueEq v1 v2 && valueListEq r1 r2
  | _, _ => false
end

/-- Insertion into the canonical sorted-association-list representation of
`HashMap<String, Value>` (replaces an existing binding for the key). -/
def objInsert (k : String) (v : Value) :
    List (String × Value) → List (String × Value)
  | [] => [(k, v)]
  | (k', v') :: rest =>
    if k < k' then (k, v) :: (k', v') :: rest
    else if k = k' then (k, v) :: rest
    else (k', v') :: objInsert k v rest

/-- `HashMap::get` on the canonical representation. -/
def objGet? (k : String) : List (String × Value) → Option Value
  | [] => none
  | (k', v) :: rest => if k' = k then some v else objGet? k rest

/-- `Value::from_const`. -/
def Value.fromConst : ConstValue → Value
  | .null => .null
  | .bool b => .bool b
  | .num bits => .num bits
  | .str s => .str s

/-- `imp_vm::VmError`. -/
inductive VmError where
  | runtime (msg : String)
  | thrown (code msg : String)
  deriving DecidableEq

/-- `Value::as_num` (returns the f64 bit pattern). -/
def Value.asNum : Value → Except VmError Nat
  | .num bits => .ok bits
  | _ => .error (.runtime "expected numeric value")

/-- `Value::as_bool`. -/
def Value.asBool : Value → Bool
  | .null => false
  | .bool b => b
  | .num bits => !f64Eq bits f64PosZero   -- Rust: `*value != 0.0`
  | .str s => !s.isEmpty
  | .obj fields => !fields.isEmpty
  | .func _ => true
  | .error _ _ => true

/-- `value_to_text` (key conversion / string coercion).  The decimal
rendering of a float is the `FloatArith` parameter's `toText`. -/
def valueToText (fa : FloatArith) : Value → Except VmError String
  | .null => .ok "null"
  | .bool b => .ok (if b then "true" else "false")
  | .num bits => .ok (fa.toText bits)
  | .str s => .ok s
  | .error code msg => .ok ("error(" ++ code ++ "): " ++ msg)
  | .obj _ => .error (.runtime "cannot convert complex value to string")
  | .func _ => .error (.runtime "cannot convert complex value to string")

/-- `object_lookup`. -/
def objectLookup (object : Value) (key : String) :
    Except VmError (Option Value) :=
  match object with
  | .obj fields => .ok (objGet? key fields)
  | _ => .error (.runtime "object lookup target is not an object")

/-- `validate_retshape`. -/
def validateRetshape (meta : FnMeta) (values : List Value) :
    Except VmError Unit :=
  match meta.retshape with
  | .scalar =>
    if values.length ≠ 1 then
      .error (.runtime (meta.name ++ " expects scalar return with 1 slot, got "
        ++ toString values.length))
    else .ok ()
  | .either allowed =>
    if values.length ≠ 1 then
      .error (.runtime (meta.name ++ " expects single either slot"))
    else
      match values with
      | [Value.str value] =>
        if allowed.any (fun item => item == value) then .ok ()
        else .error (.runtime (meta.name ++ " return is not in either(...) set"))
      | _ => .error (.runtime (meta.name ++ " return is not in either(...) set"))
  | .record fields =>
    if values.length ≠ 1 then
      .error (.runtime (meta.name ++ " expects single record slot"))
    else
      match values with
      | [Value.obj map] =>
        match fields.find? (fun field => (objGet? field map).isNone) with
        | some field =>
          .error (.runtime (meta.name ++ " missing record field '" ++ field ++ "'"))
        | none => .ok ()
      | _ => .error (.runtime (meta.name ++ " return is not an object for record shape"))
  | .any => .ok ()

/-! ## Frames -/

/-- `imp_vm::Frame`. The try-stack is kept top-first (Rust pushes/pops at
the back of a `Vec`; the head of this list is the innermost handler). -/
structure Frame where
  code : List Instr
  pc : Nat
  locals : List Value
  args : List Value
  ret : List Value
  err : List Value
  tryStack : List Nat
  meta : FnMeta

/-- The argument-filling loop of `Frame::new`: write each supplied value
into the pre-sized vector positionally, stopping at the vector's end. -/
def fillArgs (frameArgs : List Value) (index : Nat) :
    List Value → List Value
  | [] => frameArgs
  | value :: rest =>
    if index ≥ frameArgs.length then frameArgs
    else fillArgs (frameArgs.set index value) (index + 1) rest

/-- `Frame::new`: vectors sized per function metadata (err vector minimum
length 1); the argument vector is sized by the declared `arg_count` and
filled positionally from the supplied values. -/
def Frame.new (function : CompiledFunction) (args : List Value) : Frame :=
  { code := function.code
    pc := 0
    locals := List.replicate function.localCount .null
    args := fillArgs (List.replicate function.argCount Value.null) 0 args
    ret := List.replicate function.retCount .null
    err := List.replicate (max function.errCount 1) .null
    tryStack := []
    meta := function.meta }

/-- `set_vec_slot`: grow with `Null` up to the index, then set. -/
def setVecSlot (vec : List Value) (index : Nat) (value : Value) : List Value :=
  let vec := if index ≥ vec.length
    then vec ++ List.replicate (index + 1 - vec.length) Value.null
    else vec
  vec.set index value

/-- `Frame::get`: out-of-range reads (of any slot kind) are runtime
errors. -/
def Frame.get (f : Frame) (slot : Slot) (globals : List Value) :
    Except VmError Value :=
  match slot with
  | .loc index =>
    match f.locals.get? index with
    | some v => .ok v
    | none => .error (.runtime ("local slot " ++ toString index ++ " out of range"))
  | .global index =>
    match globals.get? index with
    | some v => .ok v
    | none => .error (.runtime ("global slot " ++ toString index ++ " out of range"))
  | .arg index =>
    match f.args.get? index with
    | some v => .ok v
    | none => .error (.runtime ("arg slot " ++ toString index ++ " out of range"))
  | .ret index =>
    match f.ret.get? index with
    | some v => .ok v
    | none => .error (.runtime ("ret slot " ++ toString index ++ " out of range"))
  | .err index =>
    match f.err.get? index with
    | some v => .ok v
    | none => .error (.runtime ("err slot " ++ toString index ++ " out of range"))

/-- `Frame::set`: local/arg/ret/err writes grow the frame vector on
demand; a global write out of range is silently skipped. -/
def Frame.set (f : Frame) (slot : Slot) (value : Value)
    (globals : List Value) : Frame × List Value :=
  match slot with
  | .loc index => ({ f with locals := setVecSlot f.locals index value }, globals)
  | .global index =>
    (f, if index < globals.length then globals.set index value else globals)
  | .arg index => ({ f with args := setVecSlot f.args index value }, globals)
  | .ret index => ({ f with ret := setVecSlot f.ret index value }, globals)
  | .err index => ({ f with err := setVecSlot f.err index value }, globals)

/-- `Frame::set_ret`. -/
def Frame.setRet (f : Frame) (index : Nat) (value : Value) : Frame :=
  { f with ret := setVecSlot f.ret index value }

/-- `Frame::handle_throw`: pop the innermost handler; when present, write
`Error{code,msg}` to `Err(0)` and resume at the handler pc.  Returns the
updated frame and globals together with Rust's `bool` result. -/
def Frame.handleThrow (f : Frame) (code msg : String)
    (globals : List Value) : Frame × List Value × Bool :=
  match f.tryStack with
  | handlerPc :: rest =>
    let f := { f with tryStack := rest }
    let (f, globals) := f.set (.err 0) (.error code msg) globals
    ({ f with pc := handlerPc }, globals, true)
  | [] => (f, globals, false)

/-- `Frame` reads of a list of slots, leftmost error first (the argument
evaluation loop of `Invoke`). -/
def Frame.getMany (f : Frame) (slots : List Slot) (globals : List Value) :
    Except VmError (List Value) :=
  match slots with
  | [] => .ok []
  | s :: rest =>
    match f.get s globals with
    | .error e => .error e
    | .ok v =>
      match f.getMany rest globals with
      | .error e => .error e
      | .ok vs => .ok (v :: vs)

/-! ## VM state and the pre-decoded ("JIT") step form -/

/-- `imp_vm::VmConfig`. -/
structure VmConfig where
  enableHostPrint : Bool
  enableJit : Bool
  deriving DecidableEq

/-- `imp_vm::ForeignFunc`. -/
structure ForeignFunc where
  module : CompiledModule
  funcId : Nat

/-- `imp_vm::BinaryOp`. -/
inductive BinaryOp where
  | add | sub | mul | div | eq | lt
  deriving DecidableEq

/-- `imp_vm::ObjLookupKind`. -/
inductive ObjLookupKind where
  | get | has
  deriving DecidableEq

/-- `imp_vm::StrOpKind`. -/
inductive StrOpKind where
  | concat | len
  deriving DecidableEq

/-- `imp_vm::JitOperands`. -/
inductive JitOperands where
  | none
  | unarySlot (slot : Slot)
  | storeConst (slot : Slot) (value : Value)
  | move (src dst : Slot)
  | binary (kind : BinaryOp) (a b out : Slot)
  | jump (target : Nat)
  | branch (cond : Slot) (thenPc elsePc : Nat)
  | invoke (fnSlot : Slot) (args : List Slot) (out : Slot)
  | returnSet (slotId : Nat) (value : Slot)
  | throw (code msg : String)
  | tryPush (handlerPc : Nat)
  | objSet (obj : Slot) (key : String) (value : Slot) (out : Slot)
  | objLookup (kind : ObjLookupKind) (obj key out : Slot)
  | strOp (kind : StrOpKind) (a b : Option Slot) (out : Slot)

/-- The step function pointers of the pre-decoded dispatch, defunctionalized
as tags (`step_store_const`, `step_move`, …); `jitLoop` below dispatches on
the tag with exactly the corresponding `step_*` body. -/
inductive StepExec where
  | storeConst | move | binary | jump | branch | invoke | returnSet
  | exit | throw | tryPush | tryPop | objNew | objSet | objGet | str
  | hostPrint
  deriving DecidableEq

/-- `imp_vm::JitStep`. -/
structure JitStep where
  exec : StepExec
  operands : JitOperands

/-- `JitStep::from_instr`. -/
def JitStep.fromInstr : Instr → JitStep
  | .storeConst slot value =>
    ⟨.storeConst, .storeConst slot (Value.fromConst value)⟩
  | .move src dst => ⟨.move, .move src dst⟩
  | .add a b out => ⟨.binary, .binary .add a b out⟩
  | .sub a b out => ⟨.binary, .binary .sub a b out⟩
  | .mul a b out => ⟨.binary, .binary .mul a b out⟩
  | .div a b out => ⟨.binary, .binary .div a b out⟩
  | .eq a b out => ⟨.binary, .binary .eq a b out⟩
  | .lt a b out => ⟨.binary, .binary .lt a b out⟩
  | .jump target => ⟨.jump, .jump target⟩
  | .branch cond thenPc elsePc => ⟨.branch, .branch cond thenPc elsePc⟩
  | .invoke fnSlot args out => ⟨.invoke, .invoke fnSlot args out⟩
  | .returnSet slotId value => ⟨.returnSet, .returnSet slotId value⟩
  | .exit => ⟨.exit, .none⟩
  | .throw code msg => ⟨.throw, .throw code msg⟩
  | .tryPush handlerPc => ⟨.tryPush, .tryPush handlerPc⟩
  | .tryPop => ⟨.tryPop, .none⟩
  | .objNew out => ⟨.objNew, .unarySlot out⟩
  | .objSet obj key value out => ⟨.objSet, .objSet obj key value out⟩
  | .objGet obj key out => ⟨.objGet, .objLookup .get obj key out⟩
  | .objHas obj key out => ⟨.objGet, .objLookup .has obj key out⟩
  | .strConcat a b out => ⟨.str, .strOp .concat (some a) (some b) out⟩
  | .strLen value out => ⟨.str, .strOp .len (some value) none out⟩
  | .hostPrint slot => ⟨.hostPrint, .unarySlot slot⟩

/-- `imp_vm::JitFunction`. -/
structure JitFunction where
  steps : List JitStep

/-- `JitFunction::compile`. -/
def JitFunction.compile (function : CompiledFunction) : JitFunction :=
  ⟨function.code.map JitStep.fromInstr⟩

/-- `imp_vm::StepControl`. -/
inductive StepControl where
  | next (pc : Nat)
  | exit

/-- `imp_vm::Vm`.  The two `HashMap` fields are association lists with
head-insertion and first-match lookup (insertion shadows), which is
observationally the map behavior the source relies on. -/
structure Vm where
  cfg : VmConfig
  activeModule : Option CompiledModule
  jitCache : List ((String × Nat) × JitFunction)
  foreignFuncs : List (Nat × ForeignFunc)
  nextForeignFuncId : Nat

/-- First-match association-list lookup (`HashMap::get`). -/
def alookup {κ α : Type} [BEq κ] (l : List (κ × α)) (k : κ) : Option α :=
  (l.find? (fun p => p.1 == k)).map (fun p => p.2)

/-- `Vm::new`. -/
def Vm.new (cfg : VmConfig) : Vm :=
  { cfg, activeModule := none, jitCache := [], foreignFuncs := [],
    nextForeignFuncId := 1000000 }

/-- `Vm::get_or_compile_jit`: cached per `(module_name, func_id)`. -/
def Vm.getOrCompileJit (vm : Vm) (module : CompiledModule)
    (function : CompiledFunction) : Vm × JitFunction :=
  let key := (module.name, function.id)
  match alookup vm.jitCache key with
  | some cached => (vm, cached)
  | none =>
    let compiled := JitFunction.compile function
    ({ vm with jitCache := (key, compiled) :: vm.jitCache }, compiled)

/-- `Vm::register_foreign_func` (`next_foreign_func_id` is a `u32` bumped
with `saturating_add`). -/
def Vm.registerForeignFunc (vm : Vm) (module : CompiledModule)
    (funcId : Nat) : Vm × Nat :=
  let handle := vm.nextForeignFuncId
  ({ vm with
      foreignFuncs := (handle, ⟨module, funcId⟩) :: vm.foreignFuncs
      nextForeignFuncId := min (handle + 1) (2 ^ 32 - 1) }, handle)

/-- `Vm::link_imported_value`. -/
def Vm.linkImportedValue (vm : Vm) (value : Value)
    (module : CompiledModule) : Vm × Value :=
  match value with
  | .func funcId =>
    let (vm, handle) := vm.registerForeignFunc module funcId
    (vm, .func handle)
  | v => (vm, v)

/-- Execution outcome: `ok`/`err` mirror `Result<_, VmError>`; `timeout`
is fuel exhaustion (the Rust loops are partial); `abort` models a Rust
panic (an unguarded `Vec` index out of bounds). -/
inductive VRes (α : Type) where
  | ok (a : α)
  | err (e : VmError)
  | timeout
  | abort (msg : String)

/-- `imp_vm::RunResult` (`exports` is the canonical sorted map). -/
structure RunResult where
  returns : List Value
  exports : List (String × Value)

/-- The `for (slot, func_id) in &module.function_globals` loop of
`build_module_globals`; `none` models the panic of an out-of-bounds
`globals[*slot as usize] = …` index assignment. -/
def seatFunctionGlobals (globals : List Value) :
    List (Nat × Nat) → Option (List Value)
  | [] => some globals
  | (slot, funcId) :: rest =>
    if slot < globals.length then
      seatFunctionGlobals (globals.set slot (.func funcId)) rest
    else none

/-- The `for (name, destination) in &import.export_to_global` loop of
`build_module_globals`: skip destinations out of range, link `Func`
exports through a fresh foreign handle, copy other values. -/
def linkExportPairs (vm : Vm) (module : CompiledModule)
    (globals : List Value) (exports : List (String × Value)) :
    List (String × Nat) → Vm × List Value
  | [] => (vm, globals)
  | (name, destination) :: rest =>
    if destination ≥ globals.length then
      linkExportPairs vm module globals exports rest
    else
      match objGet? name exports with
      | some value =>
        let (vm, linked) := vm.linkImportedValue value module
        linkExportPairs vm module (globals.set destination linked) exports rest
      | none => linkExportPairs vm module globals exports rest

/-- The export snapshot loop at the end of `run_main`; `none` models the
panic of an out-of-bounds `globals[*slot as usize]` read. -/
def snapshotExports (globals : List Value) :
    List (String × Nat) → List (String × Value) → Option (List (String × Value))
  | [], acc => some acc
  | (name, slot) :: rest, acc =>
    match globals.get? slot with
    | some v => snapshotExports globals rest (objInsert name v acc)
    | none => none

/-! ## Execution: direct interpreter and pre-decoded dispatch

Mutual recursion (`execute_function` ↔ the two loops ↔ `Invoke`;
`run_main` ↔ `build_module_globals` for imports) is made total with a
fuel parameter; `VRes.timeout` reports exhaustion.  Fuel is threaded
identically through both dispatch strategies.  `HostPrint`'s `println!`
side effect is dropped (its fallible slot read is kept). -/

mutual

/-- The loop body of `Vm::execute_function_interpreter`. -/
def interpLoop (fa : FloatArith) (fuel : Nat) (vm : Vm)
    (module : CompiledModule) (frame : Frame) (globals : List Value) :
    Vm × List Value × VRes (List Value) :=
  match fuel with
  | 0 => (vm, globals, .timeout)
  | n + 1 =>
    match frame.code.get? frame.pc with
    | Option.none =>
      (vm, globals, .err (.runtime ("pc " ++ toString frame.pc
        ++ " out of range for " ++ frame.meta.name)))
    | some instr =>
      match instr with
      | .storeConst slot value =>
        let (frame, globals) := frame.set slot (Value.fromConst value) globals
        interpLoop fa n vm module { frame with pc := frame.pc + 1 } globals
      | .move src dst =>
        match frame.get src globals with
        | .error e => (vm, globals, .err e)
        | .ok value =>
          let (frame, globals) := frame.set dst value globals
          interpLoop fa n vm module { frame with pc := frame.pc + 1 } globals
      | .add a b out =>
        match (frame.get a globals).bind Value.asNum with
        | .error e => (vm, globals, .err e)
        | .ok x =>
          match (frame.get b globals).bind Value.asNum with
          | .error e => (vm, globals, .err e)
          | .ok y =>
            let (frame, globals) := frame.set out (.num (fa.add x y)) globals
            interpLoop fa n vm module { frame with pc := frame.pc + 1 } globals
      | .sub a b out =>
        match (frame.get a globals).bind Value.asNum with
        | .error e => (vm, globals, .err e)
        | .ok x =>
          match (frame.get b globals).bind Value.asNum with
          | .error e => (vm, globals, .err e)
          | .ok y =>
            let (frame, globals) := frame.set out (.num (fa.sub x y)) globals
            interpLoop fa n vm module { frame with pc := frame.pc + 1 } globals
      | .mul a b out =>
        match (frame.get a globals).bind Value.asNum with
        | .error e => (vm, globals, .err e)
        | .ok x =>
          match (frame.get b globals).bind Value.asNum with
          | .error e => (vm, globals, .err e)
          | .ok y =>
            let (frame, globals) := frame.set out (.num (fa.mul x y)) globals
            interpLoop fa n vm module { frame with pc := frame.pc + 1 } globals
      | .div a b out =>
        match (frame.get b globals).bind Value.asNum with
        | .error e => (vm, globals, .err e)
        | .ok divisor =>
          if f64Eq divisor f64PosZero then
            match frame.handleThrow "div_zero" "division by zero" globals with
            | (frame, globals, true) => interpLoop fa n vm module frame globals
            | (_, globals, false) =>
              (vm, globals, .err (.thrown "div_zero" "division by zero"))
          else
            match (frame.get a globals).bind Value.asNum with
            | .error e => (vm, globals, .err e)
            | .ok x =>
              let (frame, globals) :=
                frame.set out (.num (fa.div x divisor)) globals
              interpLoop fa n vm module { frame with pc := frame.pc + 1 } globals
      | .eq a b out =>
        match frame.get a globals with
        | .error e => (vm, globals, .err e)
        | .ok va =>
          match frame.get b globals with
          | .error e => (vm, globals, .err e)
          | .ok vb =>
            let (frame, globals) := frame.set out (.bool (valueEq va vb)) globals
            interpLoop fa n vm module { frame with pc := frame.pc + 1 } globals
      | .lt a b out =>
        match (frame.get a globals).bind Value.asNum with
        | .error e => (vm, globals, .err e)
        | .ok x =>
          match (frame.get b globals).bind Value.asNum with
          | .error e => (vm, globals, .err e)
          | .ok y =>
            let (frame, globals) := frame.set out (.bool (f64Lt x y)) globals
            interpLoop fa n vm module { frame with pc := frame.pc + 1 } globals
      | .jump target =>
        interpLoop fa n vm module { frame with pc := target } globals
      | .branch cond thenPc elsePc =>
        match frame.get cond globals with
        | .error e => (vm, globals, .err e)
        | .ok condition =>
          interpLoop fa n vm module
            { frame with pc := if condition.asBool then thenPc else elsePc } globals
      | .invoke fnSlot args out =>
        match frame.get fnSlot globals with
        | .error e => (vm, globals, .err e)
        | .ok target =>
          match frame.getMany args globals with
          | .error e => (vm, globals, .err e)
          | .ok values =>
            match target with
            | .func targetFunc =>
              match executeFunction fa n vm module targetFunc values globals with
              | (vm, globals, .ok returnValues) =>
                let (frame, globals) :=
                  frame.set out (returnValues.headD .null) globals
                interpLoop fa n vm module { frame with pc := frame.pc + 1 } globals
              | (vm, globals, .err (.thrown code msg)) =>
                match frame.handleThrow code msg globals with
                | (frame, globals, true) => interpLoop fa n vm module frame globals
                | (_, globals, false) => (vm, globals, .err (.thrown code msg))
              | (vm, globals, .err e) => (vm, globals, .err e)
              | (vm, globals, .timeout) => (vm, globals, .timeout)
              | (vm, globals, .abort m) => (vm, globals, .abort m)
            | _ =>
              (vm, globals, .err (.runtime "invoke target is not a function"))
      | .returnSet slotId value =>
        match frame.get value globals with
        | .error e => (vm, globals, .err e)
        | .ok v =>
          let frame := frame.setRet slotId v
          interpLoop fa n vm module { frame with pc := frame.pc + 1 } globals
      | .exit =>
        match validateRetshape frame.meta frame.ret with
        | .error e => (vm, globals, .err e)
        | .ok _ => (vm, globals, .ok frame.ret)
      | .throw code msg =>
        match frame.handleThrow code msg globals with
        | (frame, globals, true) => interpLoop fa n vm module frame globals
        | (_, globals, false) => (vm, globals, .err (.thrown code msg))
      | .tryPush handlerPc =>
        let frame := { frame with tryStack := handlerPc :: frame.tryStack }
        interpLoop fa n vm module { frame with pc := frame.pc + 1 } globals
      | .tryPop =>
        let frame := { frame with tryStack := frame.tryStack.tail }
        interpLoop fa n vm module { frame with pc := frame.pc + 1 } globals
      | .objNew out =>
        let (frame, globals) := frame.set out (.obj []) globals
        interpLoop fa n vm module { frame with pc := frame.pc + 1 } globals
      | .objSet obj key value out =>
        match frame.get obj globals with
        | .error e => (vm, globals, .err e)
        | .ok (.obj map) =>
          match frame.get value globals with
          | .error e => (vm, globals, .err e)
          | .ok v =>
            let (frame, globals) :=
              frame.set out (.obj (objInsert key v map)) globals
            interpLoop fa n vm module { frame with pc := frame.pc + 1 } globals
        | .ok _ =>
          (vm, globals, .err (.runtime "core::obj::set target is not an object"))
      | .objGet obj key out =>
        match frame.get obj globals with
        | .error e => (vm, globals, .err e)
        | .ok object =>
          match (frame.get key globals).bind (valueToText fa) with
          | .error e => (vm, globals, .err e)
          | .ok keyText =>
            match objectLookup object keyText with
            | .error e => (vm, globals, .err e)
            | .ok value =>
              let (frame, globals) := frame.set out (value.getD .null) globals
              interpLoop fa n vm module { frame with pc := frame.pc + 1 } globals
      | .objHas obj key out =>
        match frame.get obj globals with
        | .error e => (vm, globals, .err e)
        | .ok object =>
          match (frame.get key globals).bind (valueToText fa) with
          | .error e => (vm, globals, .err e)
          | .ok keyText =>
            match objectLookup object keyText with
            | .error e => (vm, globals, .err e)
            | .ok value =>
              let (frame, globals) := frame.set out (.bool value.isSome) globals
              interpLoop fa n vm module { frame with pc := frame.pc + 1 } globals
      | .strConcat a b out =>
        match (frame.get a globals).bind (valueToText fa) with
        | .error e => (vm, globals, .err e)
        | .ok av =>
          match (frame.get b globals).bind (valueToText fa) with
          | .error e => (vm, globals, .err e)
          | .ok bv =>
            let (frame, globals) := frame.set out (.str (av ++ bv)) globals
            interpLoop fa n vm module { frame with pc := frame.pc + 1 } globals
      | .strLen value out =>
        match (frame.get value globals).bind (valueToText fa) with
        | .error e => (vm, globals, .err e)
        | .ok text =>
          let (frame, globals) :=
            frame.set out (.num (fa.ofNat text.length)) globals
          interpLoop fa n vm module { frame with pc := frame.pc + 1 } globals
      | .hostPrint slot =>
        if vm.cfg.enableHostPrint then
          match frame.get slot globals with
          | .error e => (vm, globals, .err e)
          | .ok _ =>
            interpLoop fa n vm module { frame with pc := frame.pc + 1 } globals
        else
          interpLoop fa n vm module { frame with pc := frame.pc + 1 } globals

/-- The loop body of `Vm::execute_function_jit`: index the step table,
run the step function selected by `from_instr`, follow the returned
`StepControl`.  The `step_*` bodies are inlined at their dispatch tag. -/
def jitLoop (fa : FloatArith) (fuel : Nat) (vm : Vm)
    (module : CompiledModule) (frame : Frame) (globals : List Value)
    (jit : JitFunction) (pc : Nat) : Vm × List Value × VRes (List Value) :=
  match fuel with
  | 0 => (vm, globals, .timeout)
  | n + 1 =>
    match jit.steps.get? pc with
    | Option.none =>
      (vm, globals, .err (.runtime ("pc " ++ toString pc
        ++ " out of range for " ++ frame.meta.name)))
    | some step =>
      let frame := { frame with pc := pc }
      match step.exec, step.operands with
      | .storeConst, .storeConst slot value =>
        let (frame, globals) := frame.set slot value globals
        jitLoop fa n vm module frame globals jit (pc + 1)
      | .storeConst, _ =>
        (vm, globals, .err (.runtime "jit operand mismatch for store_const"))
      | .move, .move src dst =>
        match frame.get src globals with
        | .error e => (vm, globals, .err e)
        | .ok value =>
          let (frame, globals) := frame.set dst value globals
          jitLoop fa n vm module frame globals jit (pc + 1)
      | .move, _ =>
        (vm, globals, .err (.runtime "jit operand mismatch for move"))
      | .binary, .binary kind a b out =>
        match kind with
        | .add =>
          match (frame.get a globals).bind Value.asNum with
          | .error e => (vm, globals, .err e)
          | .ok x =>
            match (frame.get b globals).bind Value.asNum with
            | .error e => (vm, globals, .err e)
            | .ok y =>
              let (frame, globals) := frame.set out (.num (fa.add x y)) globals
              jitLoop fa n vm module frame globals jit (pc + 1)
        | .sub =>
          match (frame.get a globals).bind Value.asNum with
          | .error e => (vm, globals, .err e)
          | .ok x =>
            match (frame.get b globals).bind Value.asNum with
            | .error e => (vm, globals, .err e)
            | .ok y =>
              let (frame, globals) := frame.set out (.num (fa.sub x y)) globals
              jitLoop fa n vm module frame globals jit (pc + 1)
        | .mul =>
          match (frame.get a globals).bind Value.asNum with
          | .error e => (vm, globals, .err e)
          | .ok x =>
            match (frame.get b globals).bind Value.asNum with
            | .error e => (vm, globals, .err e)
            | .ok y =>
              let (frame, globals) := frame.set out (.num (fa.mul x y)) globals
              jitLoop fa n vm module frame globals jit (pc + 1)
        | .div =>
          match (frame.get b globals).bind Value.asNum with
          | .error e => (vm, globals, .err e)
          | .ok divisor =>
            if f64Eq divisor f64PosZero then
              match frame.handleThrow "div_zero" "division by zero" globals with
              | (frame, globals, true) =>
                jitLoop fa n vm module frame globals jit frame.pc
              | (_, globals, false) =>
                (vm, globals, .err (.thrown "div_zero" "division by zero"))
            else
              match (frame.get a globals).bind Value.asNum with
              | .error e => (vm, globals, .err e)
              | .ok x =>
                let (frame, globals) :=
                  frame.set out (.num (fa.div x divisor)) globals
                jitLoop fa n vm module frame globals jit (pc + 1)
        | .eq =>
          match frame.get a globals with
          | .error e => (vm, globals, .err e)
          | .ok va =>
            match frame.get b globals with
            | .error e => (vm, globals, .err e)
            | .ok vb =>
              let (frame, globals) :=
                frame.set out (.bool (valueEq va vb)) globals
              jitLoop fa n vm module frame globals jit (pc + 1)
        | .lt =>
          match (frame.get a globals).bind Value.asNum with
          | .error e => (vm, globals, .err e)
          | .ok x =>
            match (frame.get b globals).bind Value.asNum with
            | .error e => (vm, globals, .err e)
            | .ok y =>
              let (frame, globals) := frame.set out (.bool (f64Lt x y)) globals
              jitLoop fa n vm module frame globals jit (pc + 1)
      | .binary, _ =>
        (vm, globals, .err (.runtime "jit operand mismatch for binary"))
      | .jump, .jump target =>
        jitLoop fa n vm module frame globals jit target
      | .jump, _ =>
        (vm, globals, .err (.runtime "jit operand mismatch for jump"))
      | .branch, .branch cond thenPc elsePc =>
        match frame.get cond globals with
        | .error e => (vm, globals, .err e)
        | .ok condition =>
          jitLoop fa n vm module frame globals jit
            (if condition.asBool then thenPc else elsePc)
      | .branch, _ =>
        (vm, globals, .err (.runtime "jit operand mismatch for branch"))
      | .invoke, .invoke fnSlot args out =>
        match frame.get fnSlot globals with
        | .error e => (vm, globals, .err e)
        | .ok target =>
          match frame.getMany args globals with
          | .error e => (vm, globals, .err e)
          | .ok values =>
            match target with
            | .func targetFunc =>
              match executeFunction fa n vm module targetFunc values globals with
              | (vm, globals, .ok returnValues) =>
                let (frame, globals) :=
                  frame.set out (returnValues.headD .null) globals
                jitLoop fa n vm module frame globals jit (pc + 1)
              | (vm, globals, .err (.thrown code msg)) =>
                match frame.handleThrow code msg globals with
                | (frame, globals, true) =>
                  jitLoop fa n vm module frame globals jit frame.pc
                | (_, globals, false) => (vm, globals, .err (.thrown code msg))
              | (vm, globals, .err e) => (vm, globals, .err e)
              | (vm, globals, .timeout) => (vm, globals, .timeout)
              | (vm, globals, .abort m) => (vm, globals, .abort m)
            | _ =>
              (vm, globals, .err (.runtime "invoke target is not a function"))
      | .invoke, _ =>
        (vm, globals, .err (.runtime "jit operand mismatch for invoke"))
      | .returnSet, .returnSet slotId value =>
        match frame.get value globals with
        | .error e => (vm, globals, .err e)
        | .ok v =>
          let frame := frame.setRet slotId v
          jitLoop fa n vm module frame globals jit (pc + 1)
      | .returnSet, _ =>
        (vm, globals, .err (.runtime "jit operand mismatch for return_set"))
      | .exit, .none =>
        match validateRetshape frame.meta frame.ret with
        | .error e => (vm, globals, .err e)
        | .ok _ => (vm, globals, .ok frame.ret)
      | .exit, _ =>
        (vm, globals, .err (.runtime "jit operand mismatch for exit"))
      | .throw, .throw code msg =>
        match frame.handleThrow code msg globals with
        | (frame, globals, true) =>
          jitLoop fa n vm module frame globals jit frame.pc
        | (_, globals, false) => (vm, globals, .err (.thrown code msg))
      | .throw, _ =>
        (vm, globals, .err (.runtime "jit operand mismatch for throw"))
      | .tryPush, .tryPush handlerPc =>
        let frame := { frame with tryStack := handlerPc :: frame.tryStack }
        jitLoop fa n vm module frame globals jit (pc + 1)
      | .tryPush, _ =>
        (vm, globals, .err (.runtime "jit operand mismatch for try_push"))
      | .tryPop, .none =>
        let frame := { frame with tryStack := frame.tryStack.tail }
        jitLoop fa n vm module frame globals jit (pc + 1)
      | .tryPop, _ =>
        (vm, globals, .err (.runtime "jit operand mismatch for try_pop"))
      | .objNew, .unarySlot slot =>
        let (frame, globals) := frame.set slot (.obj []) globals
        jitLoop fa n vm module frame globals jit (pc + 1)
      | .objNew, _ =>
        (vm, globals, .err (.runtime "jit operand mismatch for obj_new"))
      | .objSet, .objSet obj key value out =>
        match frame.get obj globals with
        | .error e => (vm, globals, .err e)
        | .ok (.obj map) =>
          match frame.get value globals with
          | .error e => (vm, globals, .err e)
          | .ok v =>
            let (frame, globals) :=
              frame.set out (.obj (objInsert key v map)) globals
            jitLoop fa n vm module frame globals jit (pc + 1)
        | .ok _ =>
          (vm, globals, .err (.runtime "core::obj::set target is not an object"))
      | .objSet, _ =>
        (vm, globals, .err (.runtime "jit operand mismatch for obj_set"))
      | .objGet, .objLookup kind obj key out =>
        match frame.get obj globals with
        | .error e => (vm, globals, .err e)
        | .ok object =>
          match (frame.get key globals).bind (valueToText fa) with
          | .error e => (vm, globals, .err e)
          | .ok keyText =>
            match objectLookup object keyText with
            | .error e => (vm, globals, .err e)
            | .ok value =>
              match kind with
              | .get =>
                let (frame, globals) := frame.set out (value.getD .null) globals
                jitLoop fa n vm module frame globals jit (pc + 1)
              | .has =>
                let (frame, globals) := frame.set out (.bool value.isSome) globals
                jitLoop fa n vm module frame globals jit (pc + 1)
      | .objGet, _ =>
        (vm, globals, .err (.runtime "jit operand mismatch for obj_lookup"))
      | .str, .strOp kind a b out =>
        match kind with
        | .concat =>
          match a with
          | Option.none =>
            (vm, globals, .err (.runtime "str concat missing a"))
          | some aSlot =>
            match b with
            | Option.none =>
              (vm, globals, .err (.runtime "str concat missing b"))
            | some bSlot =>
              match (frame.get aSlot globals).bind (valueToText fa) with
              | .error e => (vm, globals, .err e)
              | .ok av =>
                match (frame.get bSlot globals).bind (valueToText fa) with
                | .error e => (vm, globals, .err e)
                | .ok bv =>
                  let (frame, globals) := frame.set out (.str (av ++ bv)) globals
                  jitLoop fa n vm module frame globals jit (pc + 1)
        | .len =>
          match a with
          | Option.none =>
            (vm, globals, .err (.runtime "str len missing value"))
          | some valueSlot =>
            match (frame.get valueSlot globals).bind (valueToText fa) with
            | .error e => (vm, globals, .err e)
            | .ok text =>
              let (frame, globals) :=
                frame.set out (.num (fa.ofNat text.length)) globals
              jitLoop fa n vm module frame globals jit (pc + 1)
      | .str, _ =>
        (vm, globals, .err (.runtime "jit operand mismatch for str op"))
      | .hostPrint, .unarySlot slot =>
        if vm.cfg.enableHostPrint then
          match frame.get slot globals with
          | .error e => (vm, globals, .err e)
          | .ok _ => jitLoop fa n vm module frame globals jit (pc + 1)
        else
          jitLoop fa n vm module frame globals jit (pc + 1)
      | .hostPrint, _ =>
        (vm, globals, .err (.runtime "jit operand mismatch for host_print"))

/-- `Vm::execute_function`: resolve the function (falling back to the
foreign-function table), build a frame, and run one of the two dispatch
strategies according to `cfg.enable_jit`. -/
def executeFunction (fa : FloatArith) (fuel : Nat) (vm : Vm)
    (module : CompiledModule) (funcId : Nat) (args : List Value)
    (globals : List Value) : Vm × List Value × VRes (List Value) :=
  match fuel with
  | 0 => (vm, globals, .timeout)
  | n + 1 =>
    match module.function funcId with
    | Option.none =>
      match alookup vm.foreignFuncs funcId with
      | some foreign =>
        match buildModuleGlobals fa n vm foreign.module with
        | (vm, .ok foreignGlobals) =>
          match executeFunction fa n vm foreign.module foreign.funcId args
              foreignGlobals with
          | (vm, _, r) => (vm, globals, r)
        | (vm, .err e) => (vm, globals, .err e)
        | (vm, .timeout) => (vm, globals, .timeout)
        | (vm, .abort m) => (vm, globals, .abort m)
      | Option.none =>
        (vm, globals, .err (.runtime ("unknown function id " ++ toString funcId)))
    | some function =>
      let frame := Frame.new function args
      if vm.cfg.enableJit then
        let (vm, jit) := vm.getOrCompileJit module function
        jitLoop fa n vm module frame globals jit 0
      else
        interpLoop fa n vm module frame globals

/-- The import loop of `Vm::build_module_globals`: run each imported
module and bind its exports into the importer's globals. -/
def linkImports (fa : FloatArith) (fuel : Nat) (vm : Vm)
    (globals : List Value) (imports : List ImportBinding) :
    Vm × VRes (List Value) :=
  match fuel with
  | 0 => (vm, .timeout)
  | n + 1 =>
    match imports with
    | [] => (vm, .ok globals)
    | imp :: rest =>
      match runMain fa n vm imp.module with
      | (vm, .ok imported) =>
        let (vm, globals) :=
          linkExportPairs vm imp.module globals imported.exports imp.exportToGlobal
        linkImports fa n vm globals rest
      | (vm, .err e) => (vm, .err e)
      | (vm, .timeout) => (vm, .timeout)
      | (vm, .abort m) => (vm, .abort m)

/-- `Vm::build_module_globals`. -/
def buildModuleGlobals (fa : FloatArith) (fuel : Nat) (vm : Vm)
    (module : CompiledModule) : Vm × VRes (List Value) :=
  match fuel with
  | 0 => (vm, .timeout)
  | n + 1 =>
    let globals := List.replicate module.globalCount Value.null
    match seatFunctionGlobals globals module.functionGlobals with
    | Option.none => (vm, .abort "index out of bounds in function_globals")
    | some globals => linkImports fa n vm globals module.imports

/-- `Vm::run_main`. -/
def runMain (fa : FloatArith) (fuel : Nat) (vm : Vm)
    (module : CompiledModule) : Vm × VRes RunResult :=
  match fuel with
  | 0 => (vm, .timeout)
  | n + 1 =>
    let vm := { vm with activeModule := some module }
    match buildModuleGlobals fa n vm module with
    | (vm, .ok globals) =>
      match executeFunction fa n vm module module.initFunc [] globals with
      | (vm, globals, .ok returns) =>
        match snapshotExports globals module.exports [] with
        | some exports =>
          let vm := { vm with activeModule := some module }
          (vm, .ok ⟨returns, exports⟩)
        | Option.none => (vm, .abort "index out of bounds in exports")
      | (vm, _, .err e) => (vm, .err e)
      | (vm, _, .timeout) => (vm, .timeout)
      | (vm, _, .abort m) => (vm, .abort m)
    | (vm, .err e) => (vm, .err e)
    | (vm, .timeout) => (vm, .timeout)
    | (vm, .abort m) => (vm, .abort m)

end

/-! ## C1 side conditions

The pre-decoded step cache is keyed by `(module_name, func_id)`, so the
equivalence of the two dispatch strategies is relative to a set of modules
(everything the run can execute) in which a module name determines the
module. -/

/-- The set of modules a run can reach is closed under imports. -/
def ImportsClosed (mods : List CompiledModule) : Prop :=
  ∀ m ∈ mods, ∀ b ∈ m.imports, b.module ∈ mods

/-- Within the reachable set, the module name determines the module. -/
def NoNameCollision (mods : List CompiledModule) : Prop :=
  ∀ m1 ∈ mods, ∀ m2 ∈ mods, m1.name = m2.name → m1 = m2

/-! ## Source AST (crate `imp-ast`, interface relied on by the compiler) -/

/-- `imp_ast::RefPath` (`ns` models the `namespace` field; `namespace` is a
Lean keyword). -/
structure RefPath where
  ns : String
  name : String
  deriving DecidableEq, Repr

/-- `RefPath::parse`: split at the first `::`; both halves non-empty. -/
def RefPath.parse (raw : String) : Option RefPath :=
  match raw.splitOn "::" with
  | [] => none
  | [_] => none
  | ns :: rest =>
    let name := String.intercalate "::" rest
    if ns.isEmpty || name.isEmpty then none else some ⟨ns, name⟩

/-- `imp_ast::Atom` (the `Num` payload is an f64 bit pattern). -/
inductive Atom where
  | null
  | bool (b : Bool)
  | num (bits : Nat)
  | str (s : String)
  | ref (path : RefPath)
  deriving DecidableEq, Repr

/-- `imp_ast::Arg`. -/
structure Arg where
  key : String
  value : Atom
  deriving DecidableEq, Repr

/-- `imp_ast::Call`. -/
structure Call where
  annos : List String
  target : String
  args : List Arg
  line : Nat
  deriving DecidableEq, Repr

/-- `Call::arg`: first argument with the given key. -/
def Call.arg (c : Call) (key : String) : Option Atom :=
  (c.args.find? (fun a => a.key == key)).map (fun a => a.value)

/-! ## Shared helpers (crate `imp-std`) -/

/-- `imp_std::ANNO_SAFE`. -/
def annoSafe : String := "safe"

/-- Rust's `str::starts_with` (spelled on the character lists so that it
reduces definitionally; `String.startsWith` is extensionally the same but
is defined by well-founded recursion). -/
def strStartsWith (s pre : String) : Bool :=
  pre.data.isPrefixOf s.data

/-- `imp_std::is_core_target`. -/
def isCoreTarget (target : String) : Bool :=
  strStartsWith target "core::"

/-- `imp_std::parse_csv`. -/
def parseCsv (raw : String) : List String :=
  ((raw.splitOn ",").map String.trim).filter (fun s => !s.isEmpty)

/-! ## Compiler (crate `imp-compiler`): slot environment and lowering -/

/-- `imp_compiler::CompileError`. -/
structure CompileError where
  line : Nat
  message : String
  deriving DecidableEq, Repr

/-- First-match lookup in a string-keyed map represented as an association
list with unique keys (`HashMap::get`). -/
def mapGet (m : List (String × Nat)) (k : String) : Option Nat :=
  (m.find? (fun p => p.1 == k)).map (fun p => p.2)

/-- `HashMap::insert` on the unique-key association list: replace an
existing binding in place, otherwise append.  Keeps `List.length` equal to
the `HashMap` key count, which the source uses for index allocation. -/
def mapInsert (m : List (String × Nat)) (k : String) (v : Nat) :
    List (String × Nat) :=
  if (m.find? (fun p => p.1 == k)).isSome then
    m.map (fun p => if p.1 == k then (k, v) else p)
  else m ++ [(k, v)]

/-- `imp_compiler::ModuleBuilder`. -/
structure ModuleBuilder where
  moduleName : String
  globals : List (String × Nat)
  nextGlobal : Nat

/-- `ModuleBuilder::new`. -/
def ModuleBuilder.new (moduleName : String) : ModuleBuilder :=
  { moduleName, globals := [], nextGlobal := 0 }

/-- `ModuleBuilder::resolve_global`. -/
def ModuleBuilder.resolveGlobal (b : ModuleBuilder) (ns name : String) :
    Nat × ModuleBuilder :=
  let key := ns ++ "::" ++ name
  match mapGet b.globals key with
  | some existing => (existing, b)
  | Option.none =>
    (b.nextGlobal,
     { b with globals := mapInsert b.globals key b.nextGlobal
              nextGlobal := b.nextGlobal + 1 })

/-- `imp_compiler::SlotEnv`. -/
structure SlotEnv where
  locals : List (String × Nat)
  args : List (String × Nat)
  returns : List (String × Nat)
  errors : List (String × Nat)
  nextLocal : Nat
  nextErr : Nat
  tempCounter : Nat

/-- `SlotEnv::new`: seed the args map from the declared names and the
returns map with `"0"… "ret_count-1"` and the alias `"value" → 0` (the
alias is inserted once per loop iteration, so only when `ret_count ≥ 1`). -/
def SlotEnv.new (args : List String) (retCount : Nat) : SlotEnv :=
  let argsMap := args.enum.foldl (fun m p => mapInsert m p.2 p.1) []
  let returns := (List.range retCount).foldl
    (fun m i => mapInsert (mapInsert m (toString i) i) "value" 0) []
  { locals := [], args := argsMap, returns, errors := [],
    nextLocal := 0, nextErr := 0, tempCounter := 0 }

/-- `SlotEnv::resolve_local`. -/
def SlotEnv.resolveLocal (env : SlotEnv) (name : String) : Slot × SlotEnv :=
  match mapGet env.locals name with
  | some slot => (.loc slot, env)
  | Option.none =>
    (.loc env.nextLocal,
     { env with locals := mapInsert env.locals name env.nextLocal
                nextLocal := env.nextLocal + 1 })

/-- `SlotEnv::resolve_temp_local` (`pre` models the `prefix` parameter). -/
def SlotEnv.resolveTempLocal (env : SlotEnv) (pre : String) : Slot × SlotEnv :=
  let name := "__tmp_" ++ pre ++ "_" ++ toString env.tempCounter
  let env := { env with tempCounter := env.tempCounter + 1 }
  env.resolveLocal name

/-- `SlotEnv::resolve_ref`. -/
def SlotEnv.resolveRef (env : SlotEnv) (path : RefPath)
    (builder : ModuleBuilder) : Slot × SlotEnv × ModuleBuilder :=
  if path.ns = "local" then
    let (slot, env) := env.resolveLocal path.name
    (slot, env, builder)
  else if path.ns = "arg" then
    match mapGet env.args path.name with
    | some slot => (.arg slot, env, builder)
    | Option.none =>
      let index := env.args.length
      (.arg index, { env with args := mapInsert env.args path.name index }, builder)
  else if path.ns = "return" then
    match mapGet env.returns path.name with
    | some slot => (.ret slot, env, builder)
    | Option.none =>
      let index := env.returns.length
      (.ret index, { env with returns := mapInsert env.returns path.name index },
       builder)
  else if path.ns = "err" then
    match mapGet env.errors path.name with
    | some slot => (.err slot, env, builder)
    | Option.none =>
      (.err env.nextErr,
       { env with errors := mapInsert env.errors path.name env.nextErr
                  nextErr := env.nextErr + 1 }, builder)
  else
    let (slot, builder) := builder.resolveGlobal path.ns path.name
    (.global slot, env, builder)

/-- `atom_as_str`. -/
def atomAsStr : Atom → Option String
  | .str v => some v
  | _ => none

/-- `atom_as_number` (yields the f64 bit pattern). -/
def atomAsNumber : Atom → Option Nat
  | .num v => some v
  | _ => none

/-- `lower_const`. -/
def lowerConst (atom : Atom) (line : Nat) : Except CompileError ConstValue :=
  match atom with
  | .null => .ok .null
  | .bool v => .ok (.bool v)
  | .num v => .ok (.num v)
  | .str v => .ok (.str v)
  | .ref _ => .error ⟨line, "core::const value cannot be a ref; use core::mov"⟩

/-- `resolve_ref_atom`. -/
def resolveRefAtom (atom : Atom) (env : SlotEnv) (builder : ModuleBuilder)
    (line : Nat) : Except CompileError (Slot × SlotEnv × ModuleBuilder) :=
  match atom with
  | .ref path => .ok (env.resolveRef path builder)
  | _ => .error ⟨line, "expected ref atom"⟩

/-- `resolve_named_ref`. -/
def resolveNamedRef (call : Call) (key : String) (env : SlotEnv)
    (builder : ModuleBuilder) :
    Except CompileError (Slot × SlotEnv × ModuleBuilder) :=
  match call.arg key with
  | Option.none => .error ⟨call.line, call.target ++ " missing " ++ key⟩
  | some atom => resolveRefAtom atom env builder call.line

/-- `resolve_target_ref`. -/
def resolveTargetRef (call : Call) (env : SlotEnv) (builder : ModuleBuilder) :
    Except CompileError (Slot × SlotEnv × ModuleBuilder) :=
  match RefPath.parse call.target with
  | Option.none =>
    .error ⟨call.line, "non-core target '" ++ call.target
      ++ "' must be namespace::name"⟩
  | some target => .ok (env.resolveRef target builder)

/-- `resolve_atom_to_slot`: literal atoms are materialized into a fresh
temp local through an emitted `StoreConst`. -/
def resolveAtomToSlot (atom : Atom) (env : SlotEnv) (builder : ModuleBuilder)
    (code : List Instr) (line : Nat) :
    Except CompileError (Slot × SlotEnv × ModuleBuilder × List Instr) :=
  match atom with
  | .ref path =>
    let (slot, env, builder) := env.resolveRef path builder
    .ok (slot, env, builder, code)
  | _ =>
    let (slot, env) := env.resolveTempLocal "const"
    match lowerConst atom line with
    | .error e => .error e
    | .ok value => .ok (slot, env, builder, code ++ [.storeConst slot value])

/-- `get_string_arg`. -/
def getStringArg (call : Call) (key : String) : Except CompileError String :=
  match (call.arg key).bind atomAsStr with
  | some v => .ok v
  | Option.none =>
    .error ⟨call.line, call.target ++ " missing string arg " ++ key⟩

/-- `get_ref_arg`. -/
def getRefArg (call : Call) (key : String) : Except CompileError RefPath :=
  match call.arg key with
  | some (.ref path) => .ok path
  | _ => .error ⟨call.line, call.target ++ " missing ref arg " ++ key⟩

/-- The resolution loop over a CSV `args="…"` list of `collect_invoke_args`. -/
def collectCsvArgs (line : Nat) (env : SlotEnv) (builder : ModuleBuilder) :
    List String → Except CompileError (List Slot × SlotEnv × ModuleBuilder)
  | [] => .ok ([], env, builder)
  | item :: rest =>
    match RefPath.parse item with
    | Option.none => .error ⟨line, "invalid invoke arg ref '" ++ item ++ "'"⟩
    | some path =>
      let (slot, env, builder) := env.resolveRef path builder
      match collectCsvArgs line env builder rest with
      | .error e => .error e
      | .ok (slots, env, builder) => .ok (slot :: slots, env, builder)

/-- The resolution loop over sorted `argN=…` pairs of
`collect_invoke_args`. -/
def collectArgPairs (line : Nat) (env : SlotEnv) (builder : ModuleBuilder) :
    List Arg → Except CompileError (List Slot × SlotEnv × ModuleBuilder)
  | [] => .ok ([], env, builder)
  | arg :: rest =>
    match resolveRefAtom arg.value env builder line with
    | .error e => .error e
    | .ok (slot, env, builder) =>
      match collectArgPairs line env builder rest with
      | .error e => .error e
      | .ok (slots, env, builder) => .ok (slot :: slots, env, builder)

/-- `collect_invoke_args`: either an `args="a,b,c"` CSV of refs, or the
`arg*`-keyed arguments sorted by key (stable sort, as Rust's
`sort_by`). -/
def collectInvokeArgs (call : Call) (env : SlotEnv) (builder : ModuleBuilder) :
    Except CompileError (List Slot × SlotEnv × ModuleBuilder) :=
  match (call.arg "args").bind atomAsStr with
  | some argsCsv => collectCsvArgs call.line env builder (parseCsv argsCsv)
  | Option.none =>
    let argPairs := (call.args.filter (fun arg => strStartsWith arg.key "arg")).mergeSort
      (fun a b => a.key ≤ b.key)
    collectArgPairs call.line env builder argPairs

/-- The mutable state threaded through `lower_call` by reference in the
source (`env`, `builder`, `code`, `labels` and the three pending patch
lists). -/
structure LowerSt where
  env : SlotEnv
  builder : ModuleBuilder
  code : List Instr
  labels : List (String × Nat)
  pendingJumps : List (Nat × String)
  pendingBranches : List (Nat × String × String)
  pendingTry : List (Nat × String)

/-- `lower_call`, parameterized by the `f64 as u32` cast `castU32` (used
by the `core::ret::set` arm; no theorem here depends on its values). -/
def lowerCall (castU32 : Nat → Nat) (call : Call) (st : LowerSt) :
    Except CompileError LowerSt :=
  if !isCoreTarget call.target then
    match resolveTargetRef call st.env st.builder with
    | .error e => .error e
    | .ok (fnSlot, env, builder) =>
      match collectInvokeArgs call env builder with
      | .error e => .error e
      | .ok (args, env, builder) =>
        match call.arg "out" with
        | some atom =>
          match resolveRefAtom atom env builder call.line with
          | .error e => .error e
          | .ok (out, env, builder) =>
            .ok { st with env := env, builder := builder, code := st.code ++ [.invoke fnSlot args out] }
        | Option.none =>
          let (out, env) := env.resolveLocal "_invoke_out"
          .ok { st with env := env, builder := builder, code := st.code ++ [.invoke fnSlot args out] }
  else if call.target = "core::const" then
    match call.arg "out" with
    | Option.none => .error ⟨call.line, "core::const missing out"⟩
    | some outAtom =>
      match resolveRefAtom outAtom st.env st.builder call.line with
      | .error e => .error e
      | .ok (out, env, builder) =>
        match call.arg "value" with
        | Option.none => .error ⟨call.line, "core::const missing value"⟩
        | some valueAtom =>
          match lowerConst valueAtom call.line with
          | .error e => .error e
          | .ok value =>
            .ok { st with env := env, builder := builder, code := st.code ++ [.storeConst out value] }
  else if call.target = "core::mov" then
    match resolveNamedRef call "from" st.env st.builder with
    | .error e => .error e
    | .ok (src, env, builder) =>
      match resolveNamedRef call "to" env builder with
      | .error e => .error e
      | .ok (dst, env, builder) =>
        .ok { st with env := env, builder := builder, code := st.code ++ [.move src dst] }
  else if call.target = "core::add" ∨ call.target = "core::sub" ∨
      call.target = "core::mul" ∨ call.target = "core::div" ∨
      call.target = "core::eq" ∨ call.target = "core::lt" then
    match resolveNamedRef call "a" st.env st.builder with
    | .error e => .error e
    | .ok (a, env, builder) =>
      match resolveNamedRef call "b" env builder with
      | .error e => .error e
      | .ok (b, env, builder) =>
        match resolveNamedRef call "out" env builder with
        | .error e => .error e
        | .ok (out, env, builder) =>
          let instr :=
            if call.target = "core::add" then Instr.add a b out
            else if call.target = "core::sub" then Instr.sub a b out
            else if call.target = "core::mul" then Instr.mul a b out
            else if call.target = "core::div" then Instr.div a b out
            else if call.target = "core::eq" then Instr.eq a b out
            else Instr.lt a b out
          .ok { st with env := env, builder := builder, code := st.code ++ [instr] }
  else if call.target = "core::label" then
    match getStringArg call "name" with
    | .error e => .error e
    | .ok name =>
      .ok { st with labels := mapInsert st.labels name st.code.length }
  else if call.target = "core::jump" then
    match getStringArg call "target" with
    | .error e => .error e
    | .ok targetLabel =>
      let pc := st.code.length
      .ok { st with code := st.code ++ [.jump 0], pendingJumps := st.pendingJumps ++ [(pc, targetLabel)] }
  else if call.target = "core::br" then
    match resolveNamedRef call "cond" st.env st.builder with
    | .error e => .error e
    | .ok (cond, env, builder) =>
      match getStringArg call "then" with
      | .error e => .error e
      | .ok thenLabel =>
        match getStringArg call "else" with
        | .error e => .error e
        | .ok elseLabel =>
          let pc := st.code.length
          .ok { st with env := env, builder := builder, code := st.code ++ [.branch cond 0 0], pendingBranches := st.pendingBranches ++ [(pc, thenLabel, elseLabel)] }
  else if call.target = "core::invoke" then
    match resolveNamedRef call "fn" st.env st.builder with
    | .error e => .error e
    | .ok (fnSlot, env, builder) =>
      match resolveNamedRef call "out" env builder with
      | .error e => .error e
      | .ok (out, env, builder) =>
        match collectInvokeArgs call env builder with
        | .error e => .error e
        | .ok (args, env, builder) =>
          .ok { st with env := env, builder := builder, code := st.code ++ [.invoke fnSlot args out] }
  else if call.target = "core::ret::set" then
    match (call.arg "slot").bind atomAsNumber with
    | Option.none => .error ⟨call.line, "core::ret::set requires numeric slot"⟩
    | some slotNum =>
      let slotId := castU32 slotNum
      match resolveNamedRef call "value" st.env st.builder with
      | .error e => .error e
      | .ok (value, env, builder) =>
        .ok { st with env := env, builder := builder, code := st.code ++ [.returnSet slotId value] }
  else if call.target = "core::exit" then
    .ok { st with code := st.code ++ [.exit] }
  else if call.target = "core::throw" then
    match getStringArg call "code" with
    | .error e => .error e
    | .ok codeText =>
      match getStringArg call "msg" with
      | .error e => .error e
      | .ok msg =>
        .ok { st with code := st.code ++ [.throw codeText msg] }
  else if call.target = "core::try::push" then
    match getStringArg call "handler" with
    | .error e => .error e
    | .ok handlerLabel =>
      let pc := st.code.length
      .ok { st with code := st.code ++ [.tryPush 0], pendingTry := st.pendingTry ++ [(pc, handlerLabel)] }
  else if call.target = "core::try::pop" then
    .ok { st with code := st.code ++ [.tryPop] }
  else if call.target = "core::obj::new" then
    match resolveNamedRef call "out" st.env st.builder with
    | .error e => .error e
    | .ok (out, env, builder) =>
      .ok { st with env := env, builder := builder, code := st.code ++ [.objNew out] }
  else if call.target = "core::obj::set" then
    match resolveNamedRef call "obj" st.env st.builder with
    | .error e => .error e
    | .ok (obj, env, builder) =>
      match getStringArg call "key" with
      | .error e => .error e
      | .ok key =>
        match resolveNamedRef call "value" env builder with
        | .error e => .error e
        | .ok (value, env, builder) =>
          match call.arg "out" with
          | some atom =>
            match resolveRefAtom atom env builder call.line with
            | .error e => .error e
            | .ok (out, env, builder) =>
              .ok { st with env := env, builder := builder, code := st.code ++ [.objSet obj key value out] }
          | Option.none =>
            .ok { st with env := env, builder := builder, code := st.code ++ [.objSet obj key value obj] }
  else if call.target = "core::obj::get" then
    match resolveNamedRef call "obj" st.env st.builder with
    | .error e => .error e
    | .ok (obj, env, builder) =>
      match call.arg "key" with
      | Option.none => .error ⟨call.line, "core::obj::get missing key"⟩
      | some keyAtom =>
        match resolveAtomToSlot keyAtom env builder st.code call.line with
        | .error e => .error e
        | .ok (key, env, builder, code) =>
          match resolveNamedRef call "out" env builder with
          | .error e => .error e
          | .ok (out, env, builder) =>
            .ok { st with env := env, builder := builder, code := code ++ [.objGet obj key out] }
  else if call.target = "core::obj::has" then
    match resolveNamedRef call "obj" st.env st.builder with
    | .error e => .error e
    | .ok (obj, env, builder) =>
      match call.arg "key" with
      | Option.none => .error ⟨call.line, "core::obj::has missing key"⟩
      | some keyAtom =>
        match resolveAtomToSlot keyAtom env builder st.code call.line with
        | .error e => .error e
        | .ok (key, env, builder, code) =>
          match resolveNamedRef call "out" env builder with
          | .error e => .error e
          | .ok (out, env, builder) =>
            .ok { st with env := env, builder := builder, code := code ++ [.objHas obj key out] }
  else if call.target = "core::str::concat" then
    match call.arg "a" with
    | Option.none => .error ⟨call.line, "core::str::concat missing a"⟩
    | some aAtom =>
      match resolveAtomToSlot aAtom st.env st.builder st.code call.line with
      | .error e => .error e
      | .ok (a, env, builder, code) =>
        match call.arg "b" with
        | Option.none => .error ⟨call.line, "core::str::concat missing b"⟩
        | some bAtom =>
          match resolveAtomToSlot bAtom env builder code call.line with
          | .error e => .error e
          | .ok (b, env, builder, code) =>
            match resolveNamedRef call "out" env builder with
            | .error e => .error e
            | .ok (out, env, builder) =>
              .ok { st with env := env, builder := builder, code := code ++ [.strConcat a b out] }
  else if call.target = "core::str::len" then
    match call.arg "value" with
    | Option.none => .error ⟨call.line, "core::str::len missing value"⟩
    | some valueAtom =>
      match resolveAtomToSlot valueAtom st.env st.builder st.code call.line with
      | .error e => .error e
      | .ok (value, env, builder, code) =>
        match resolveNamedRef call "out" env builder with
        | .error e => .error e
        | .ok (out, env, builder) =>
          .ok { st with env := env, builder := builder, code := code ++ [.strLen value out] }
  else if call.target = "core::host::print" then
    match (call.arg "slot").orElse (fun _ => call.arg "value") with
    | Option.none => .error ⟨call.line, "core::host::print missing slot/value"⟩
    | some atom =>
      match resolveRefAtom atom st.env st.builder call.line with
      | .error e => .error e
      | .ok (slot, env, builder) =>
        .ok { st with env := env, builder := builder, code := st.code ++ [.hostPrint slot] }
  else if call.target = "core::import" ∨ call.target = "core::mod::export" then
    .ok st  -- handled in the metadata pass
  else if call.target = "core::fn::begin" ∨ call.target = "core::fn::end" then
    .error ⟨call.line, "function declarations are not valid inside lowered body"⟩
  else
    .error ⟨call.line, "unsupported core target '" ++ call.target ++ "'"⟩

/-- The `for call in calls` lowering loop of `compile_raw_function`. -/
def lowerCalls (castU32 : Nat → Nat) (calls : List Call) (st : LowerSt) :
    Except CompileError LowerSt :=
  match calls with
  | [] => .ok st
  | call :: rest =>
    match lowerCall castU32 call st with
    | .error e => .error e
    | .ok st => lowerCalls castU32 rest st

/-- The `pending_jumps` patch loop of `compile_raw_function`. -/
def patchJumps (defaultLine : Nat) (labels : List (String × Nat))
    (code : List Instr) :
    List (Nat × String) → Except CompileError (List Instr)
  | [] => .ok code
  | (pc, label) :: rest =>
    match mapGet labels label with
    | Option.none => .error ⟨defaultLine, "unknown label '" ++ label ++ "'"⟩
    | some target =>
      let code :=
        match code.get? pc with
        | some (.jump _) => code.set pc (.jump target)
        | _ => code
      patchJumps defaultLine labels code rest

/-- The `pending_branches` patch loop of `compile_raw_function`. -/
def patchBranches (defaultLine : Nat) (labels : List (String × Nat))
    (code : List Instr) :
    List (Nat × String × String) → Except CompileError (List Instr)
  | [] => .ok code
  | (pc, thenLabel, elseLabel) :: rest =>
    match mapGet labels thenLabel with
    | Option.none => .error ⟨defaultLine, "unknown label '" ++ thenLabel ++ "'"⟩
    | some thenPc =>
      match mapGet labels elseLabel with
      | Option.none => .error ⟨defaultLine, "unknown label '" ++ elseLabel ++ "'"⟩
      | some elsePc =>
        let code :=
          match code.get? pc with
          | some (.branch cond _ _) => code.set pc (.branch cond thenPc elsePc)
          | _ => code
        patchBranches defaultLine labels code rest

/-- The `pending_try` patch loop of `compile_raw_function`. -/
def patchTry (defaultLine : Nat) (labels : List (String × Nat))
    (code : List Instr) :
    List (Nat × String) → Except CompileError (List Instr)
  | [] => .ok code
  | (pc, label) :: rest =>
    match mapGet labels label with
    | Option.none => .error ⟨defaultLine, "unknown label '" ++ label ++ "'"⟩
    | some handlerPc =>
      let code :=
        match code.get? pc with
        | some (.tryPush _) => code.set pc (.tryPush handlerPc)
        | _ => code
      patchTry defaultLine labels code rest

/-- `compile_raw_function`: lower the body, append a final `Exit` when the
last instruction is not already one, then patch the recorded label
references. -/
def compileRawFunction (castU32 : Nat → Nat) (calls : List Call)
    (funcId : Nat) (name : String) (args : List String) (retshape : RetShape)
    (retCount : Nat) (builder : ModuleBuilder) (defaultLine : Nat) :
    Except CompileError (CompiledFunction × ModuleBuilder) :=
  let st0 : LowerSt :=
    { env := SlotEnv.new args retCount, builder, code := [], labels := [],
      pendingJumps := [], pendingBranches := [], pendingTry := [] }
  match lowerCalls castU32 calls st0 with
  | .error e => .error e
  | .ok st =>
    let code :=
      if st.code.getLast? = some Instr.exit then st.code
      else st.code ++ [Instr.exit]
    match patchJumps defaultLine st.labels code st.pendingJumps with
    | .error e => .error e
    | .ok code =>
      match patchBranches defaultLine st.labels code st.pendingBranches with
      | .error e => .error e
      | .ok code =>
        match patchTry defaultLine st.labels code st.pendingTry with
        | .error e => .error e
        | .ok code =>
          .ok ({ id := funcId
                 code
                 localCount := st.env.nextLocal
                 argCount := st.env.args.length
                 retCount
                 errCount := st.env.nextErr
                 meta := { name, argCount := st.env.args.length, retCount,
                           retshape } }, st.builder)

/-! ## Macro expansion (`expand_macros`) -/

/-- The body of the `expand_macros` loop, threading the `safe_counter`. -/
def expandMacrosAux (safeCounter : Nat) :
    List Call → Except CompileError (List Call)
  | [] => .ok []
  | call :: rest =>
    if !(call.annos.any (fun anno => anno == annoSafe)) then
      match expandMacrosAux safeCounter rest with
      | .error e => .error e
      | .ok out => .ok (call :: out)
    else if call.target ≠ "core::div" then
      match expandMacrosAux safeCounter rest with
      | .error e => .error e
      | .ok out => .ok ({ call with annos := [] } :: out)
    else
      match call.arg "out" with
      | some (.ref outRef) =>
        let handler := "__safe_handler_" ++ toString safeCounter
        let endLabel := "__safe_end_" ++ toString safeCounter
        let expansion : List Call :=
          [ { annos := [], target := "core::try::push",
              args := [⟨"handler", .str handler⟩], line := call.line }
          , { call with annos := [] }
          , { annos := [], target := "core::jump",
              args := [⟨"target", .str endLabel⟩], line := call.line }
          , { annos := [], target := "core::label",
              args := [⟨"name", .str handler⟩], line := call.line }
          , { annos := [], target := "core::const",
              args := [⟨"out", .ref outRef⟩, ⟨"value", .null⟩],
              line := call.line }
          , { annos := [], target := "core::label",
              args := [⟨"name", .str endLabel⟩], line := call.line }
          , { annos := [], target := "core::try::pop", args := [],
              line := call.line } ]
        match expandMacrosAux (safeCounter + 1) rest with
        | .error e => .error e
        | .ok out => .ok (expansion ++ out)
      | _ => .error ⟨call.line, "@safe core::div requires out=<ref>"⟩

/-- `expand_macros` (the counter starts at 0 for each expansion pass). -/
def expandMacros (calls : List Call) : Except CompileError (List Call) :=
  expandMacrosAux 0 calls

/-! ## Bytecode codec (crate `imp-bytecode`)

Bytes are `Nat`s below 256; the writer produces a byte list, the reader
consumes one.  Strings are length-prefixed UTF-8 (the byte length, as in
Rust's `str::len`).  The reader's UTF-8 decoder accepts exactly the
encoder's output and rejects other shapes structurally (it does not
re-check overlong forms, which no theorem here depends on). -/

/-- `imp_bytecode::BytecodeError` (the `Io` variant, file-system only, is
not modelled). -/
inductive BytecodeError where
  | unexpectedEof
  | invalidMagic (magic : List Nat)
  | unsupportedVersion (version : Nat)
  | invalidUtf8 (ctx : String)
  | invalidTag (kind : String) (tag : Nat)
  | overflow (ctx : String)
  deriving DecidableEq, Repr

/-- UTF-8 encoding of one scalar value. -/
def charUtf8 (c : Char) : List Nat :=
  let n := c.toNat
  if n < 0x80 then [n]
  else if n < 0x800 then [0xC0 + n / 64, 0x80 + n % 64]
  else if n < 0x10000 then
    [0xE0 + n / 4096, 0x80 + n / 64 % 64, 0x80 + n % 64]
  else
    [0xF0 + n / 262144, 0x80 + n / 4096 % 64, 0x80 + n / 64 % 64, 0x80 + n % 64]

/-- UTF-8 encoding of a character list. -/
def charsUtf8 : List Char → List Nat
  | [] => []
  | c :: cs => charUtf8 c ++ charsUtf8 cs

/-- UTF-8 encoding of a string (`str::as_bytes`). -/
def strUtf8 (s : String) : List Nat :=
  charsUtf8 s.data

/-- Decode one UTF-8 scalar value. -/
def utf8DecodeChar (bytes : List Nat) : Option (Char × List Nat) :=
  match bytes with
  | [] => none
  | b0 :: rest =>
    if b0 < 0x80 then
      if Nat.isValidChar b0 then some (Char.ofNat b0, rest)
      else none
    else if b0 < 0xC0 then none
    else if b0 < 0xE0 then
      match rest with
      | b1 :: rest =>
        if 0x80 ≤ b1 ∧ b1 < 0xC0 then
          let n := (b0 - 0xC0) * 64 + (b1 - 0x80)
          if Nat.isValidChar n then some (Char.ofNat n, rest)
          else none
        else none
      | [] => none
    else if b0 < 0xF0 then
      match rest with
      | b1 :: b2 :: rest =>
        if (0x80 ≤ b1 ∧ b1 < 0xC0) ∧ (0x80 ≤ b2 ∧ b2 < 0xC0) then
          let n := (b0 - 0xE0) * 4096 + (b1 - 0x80) * 64 + (b2 - 0x80)
          if Nat.isValidChar n then some (Char.ofNat n, rest)
          else none
        else none
      | _ => none
    else if b0 < 0xF8 then
      match rest with
      | b1 :: b2 :: b3 :: rest =>
        if (0x80 ≤ b1 ∧ b1 < 0xC0) ∧ (0x80 ≤ b2 ∧ b2 < 0xC0) ∧
            (0x80 ≤ b3 ∧ b3 < 0xC0) then
          let n := (b0 - 0xF0) * 262144 + (b1 - 0x80) * 4096 +
            (b2 - 0x80) * 64 + (b3 - 0x80)
          if Nat.isValidChar n then some (Char.ofNat n, rest)
          else none
        else none
      | _ => none
    else none

/-- Decode a whole byte list as UTF-8 (`String::from_utf8`); the fuel is
an upper bound on the character count (one byte each at least). -/
def utf8DecodeAllAux : Nat → List Nat → Option (List Char)
  | _, [] => some []
  | 0, _ :: _ => none
  | fuel + 1, bytes =>
    match utf8DecodeChar bytes with
    | some (c, rest) =>
      match utf8DecodeAllAux fuel rest with
      | some cs => some (c :: cs)
      | none => none
    | none => none

/-- Decode a whole byte list as UTF-8. -/
def utf8DecodeAll (bytes : List Nat) : Option (List Char) :=
  utf8DecodeAllAux bytes.length bytes

/-! ### Writer -/

/-- `Writer::write_u8`. -/
def writeU8 (v : Nat) : List Nat := [v % 256]

/-- `Writer::write_u16` (little endian). -/
def writeU16 (v : Nat) : List Nat := [v % 256, v / 256 % 256]

/-- `Writer::write_u32` (little endian). -/
def writeU32 (v : Nat) : List Nat :=
  [v % 256, v / 256 % 256, v / 65536 % 256, v / 16777216 % 256]

/-- `Writer::write_f64` (little-endian bytes of the bit pattern). -/
def writeU64 (v : Nat) : List Nat :=
  writeU32 (v % 4294967296) ++ writeU32 (v / 4294967296)

/-- `Writer::write_len` / `write_usize_as_u32`: lengths beyond `u32` are
encoding failures. -/
def writeLen (v : Nat) (ctx : String) : Except BytecodeError (List Nat) :=
  if v < 4294967296 then .ok (writeU32 v) else .error (.overflow ctx)

/-- `Writer::write_string`: `u32` byte length, then the UTF-8 bytes. -/
def writeString (s : String) : Except BytecodeError (List Nat) :=
  match writeLen (strUtf8 s).length "string length" with
  | .error e => .error e
  | .ok lenBytes => .ok (lenBytes ++ strUtf8 s)

/-- `write_slot`. -/
def writeSlot : Slot → List Nat
  | .loc v => 0 :: writeU32 v
  | .global v => 1 :: writeU32 v
  | .arg v => 2 :: writeU32 v
  | .ret v => 3 :: writeU32 v
  | .err v => 4 :: writeU32 v

/-- `write_const`. -/
def writeConst : ConstValue → Except BytecodeError (List Nat)
  | .null => .ok [0]
  | .bool v => .ok [1, if v then 1 else 0]
  | .num v => .ok (2 :: writeU64 v)
  | .str v =>
    match writeString v with
    | .error e => .error e
    | .ok bytes => .ok (3 :: bytes)

/-- `write_retshape`. -/
def writeRetshape : RetShape → Except BytecodeError (List Nat)
  | .scalar => .ok [0]
  | .either values =>
    match writeLen values.length "retshape either length" with
    | .error e => .error e
    | .ok lenBytes =>
      match writeStringList values with
      | .error e => .error e
      | .ok body => .ok (1 :: lenBytes ++ body)
  | .record values =>
    match writeLen values.length "retshape record length" with
    | .error e => .error e
    | .ok lenBytes =>
      match writeStringList values with
      | .error e => .error e
      | .ok body => .ok (2 :: lenBytes ++ body)
  | .any => .ok [3]
where
  /-- The string loop shared by the `Either`/`Record` arms. -/
  writeStringList : List String → Except BytecodeError (List Nat)
  | [] => .ok []
  | v :: rest =>
    match writeString v with
    | .error e => .error e
    | .ok bytes =>
      match writeStringList rest with
      | .error e => .error e
      | .ok body => .ok (bytes ++ body)

/-- `write_instr`.  Tags follow the source; the `ObjSet` key is written as
a length-prefixed string (see the header note on `Instr::ObjSet`). -/
def writeInstr : Instr → Except BytecodeError (List Nat)
  | .storeConst slot value =>
    match writeConst value with
    | .error e => .error e
    | .ok constBytes => .ok (0 :: writeSlot slot ++ constBytes)
  | .move src dst => .ok (1 :: writeSlot src ++ writeSlot dst)
  | .add a b out => .ok (2 :: writeSlot a ++ writeSlot b ++ writeSlot out)
  | .sub a b out => .ok (3 :: writeSlot a ++ writeSlot b ++ writeSlot out)
  | .mul a b out => .ok (4 :: writeSlot a ++ writeSlot b ++ writeSlot out)
  | .div a b out => .ok (5 :: writeSlot a ++ writeSlot b ++ writeSlot out)
  | .eq a b out => .ok (6 :: writeSlot a ++ writeSlot b ++ writeSlot out)
  | .lt a b out => .ok (7 :: writeSlot a ++ writeSlot b ++ writeSlot out)
  | .jump target =>
    match writeLen target "jump target" with
    | .error e => .error e
    | .ok bytes => .ok (8 :: bytes)
  | .branch cond thenPc elsePc =>
    match writeLen thenPc "branch then_pc" with
    | .error e => .error e
    | .ok thenBytes =>
      match writeLen elsePc "branch else_pc" with
      | .error e => .error e
      | .ok elseBytes => .ok (9 :: writeSlot cond ++ thenBytes ++ elseBytes)
  | .invoke fnSlot args out =>
    match writeLen args.length "invoke args length" with
    | .error e => .error e
    | .ok lenBytes =>
      .ok (10 :: writeSlot fnSlot ++ lenBytes ++
        (args.map writeSlot).flatten ++ writeSlot out)
  | .returnSet slotId value =>
    .ok (11 :: writeU32 slotId ++ writeSlot value)
  | .exit => .ok [12]
  | .throw code msg =>
    match writeString code with
    | .error e => .error e
    | .ok codeBytes =>
      match writeString msg with
      | .error e => .error e
      | .ok msgBytes => .ok (13 :: codeBytes ++ msgBytes)
  | .tryPush handlerPc =>
    match writeLen handlerPc "try handler pc" with
    | .error e => .error e
    | .ok bytes => .ok (14 :: bytes)
  | .tryPop => .ok [15]
  | .objNew out => .ok (16 :: writeSlot out)
  | .objSet obj key value out =>
    match writeString key with
    | .error e => .error e
    | .ok keyBytes =>
      .ok (17 :: writeSlot obj ++ keyBytes ++ writeSlot value ++ writeSlot out)
  | .objGet obj key out =>
    .ok (18 :: writeSlot obj ++ writeSlot key ++ writeSlot out)
  | .objHas obj key out =>
    .ok (19 :: writeSlot obj ++ writeSlot key ++ writeSlot out)
  | .strConcat a b out =>
    .ok (20 :: writeSlot a ++ writeSlot b ++ writeSlot out)
  | .strLen value out => .ok (21 :: writeSlot value ++ writeSlot out)
  | .hostPrint slot => .ok (22 :: writeSlot slot)

/-- The instruction loop of `write_function`. -/
def writeInstrList : List Instr → Except BytecodeError (List Nat)
  | [] => .ok []
  | instr :: rest =>
    match writeInstr instr with
    | .error e => .error e
    | .ok bytes =>
      match writeInstrList rest with
      | .error e => .error e
      | .ok body => .ok (bytes ++ body)

/-- `write_fn_meta`. -/
def writeFnMeta (meta : FnMeta) : Except BytecodeError (List Nat) :=
  match writeString meta.name with
  | .error e => .error e
  | .ok nameBytes =>
    match writeRetshape meta.retshape with
    | .error e => .error e
    | .ok shapeBytes =>
      .ok (nameBytes ++ writeU32 meta.argCount ++ writeU32 meta.retCount ++
        shapeBytes)

/-- `write_function`. -/
def writeFunction (f : CompiledFunction) : Except BytecodeError (List Nat) :=
  match writeFnMeta f.meta with
  | .error e => .error e
  | .ok metaBytes =>
    match writeLen f.code.length "function code length" with
    | .error e => .error e
    | .ok codeLenBytes =>
      match writeInstrList f.code with
      | .error e => .error e
      | .ok codeBytes =>
        .ok (writeU32 f.id ++ writeU32 f.localCount ++ writeU32 f.argCount ++
          writeU32 f.retCount ++ writeU32 f.errCount ++ metaBytes ++
          codeLenBytes ++ codeBytes)

/-- The function loop of `write_module`. -/
def writeFunctionList : List CompiledFunction → Except BytecodeError (List Nat)
  | [] => .ok []
  | f :: rest =>
    match writeFunction f with
    | .error e => .error e
    | .ok bytes =>
      match writeFunctionList rest with
      | .error e => .error e
      | .ok body => .ok (bytes ++ body)

/-- The `(u32, u32)` pair loop of `write_module`. -/
def writePairList : List (Nat × Nat) → List Nat
  | [] => []
  | (a, b) :: rest => writeU32 a ++ writeU32 b ++ writePairList rest

/-- The `(String, u32)` pair loop of `write_module` / `write_import`. -/
def writeNamedSlotList : List (String × Nat) → Except BytecodeError (List Nat)
  | [] => .ok []
  | (name, slot) :: rest =>
    match writeString name with
    | .error e => .error e
    | .ok nameBytes =>
      match writeNamedSlotList rest with
      | .error e => .error e
      | .ok body => .ok (nameBytes ++ writeU32 slot ++ body)

mutual
/-- `write_module`. -/
def writeModule : CompiledModule → Except BytecodeError (List Nat)
  | .mk name initFunc functions functionGlobals exports imports globalCount =>
    match writeString name with
    | .error e => .error e
    | .ok nameBytes =>
      match writeLen functions.length "functions length" with
      | .error e => .error e
      | .ok fnLenBytes =>
        match writeFunctionList functions with
        | .error e => .error e
        | .ok fnBytes =>
          match writeLen functionGlobals.length "function_globals length" with
          | .error e => .error e
          | .ok fgLenBytes =>
            match writeLen exports.length "exports length" with
            | .error e => .error e
            | .ok exLenBytes =>
              match writeNamedSlotList exports with
              | .error e => .error e
              | .ok exBytes =>
                match writeLen imports.length "imports length" with
                | .error e => .error e
                | .ok imLenBytes =>
                  match writeImportList imports with
                  | .error e => .error e
                  | .ok imBytes =>
                    .ok (nameBytes ++ writeU32 initFunc ++ fnLenBytes ++
                      fnBytes ++ fgLenBytes ++ writePairList functionGlobals ++
                      exLenBytes ++ exBytes ++ imLenBytes ++ imBytes ++
                      writeU32 globalCount)

/-- The import loop of `write_module`. -/
def writeImportList : List ImportBinding → Except BytecodeError (List Nat)
  | [] => .ok []
  | b :: rest =>
    match writeImport b with
    | .error e => .error e
    | .ok bytes =>
      match writeImportList rest with
      | .error e => .error e
      | .ok body => .ok (bytes ++ body)

/-- `write_import`. -/
def writeImport : ImportBinding → Except BytecodeError (List Nat)
  | .mk path aliasName module exportToGlobal =>
    match writeString path with
    | .error e => .error e
    | .ok pathBytes =>
      match writeString aliasName with
      | .error e => .error e
      | .ok aliasBytes =>
        match writeLen exportToGlobal.length "import export_to_global length" with
        | .error e => .error e
        | .ok pairLenBytes =>
          match writeNamedSlotList exportToGlobal with
          | .error e => .error e
          | .ok pairBytes =>
            match writeModule module with
            | .error e => .error e
            | .ok moduleBytes =>
              .ok (pathBytes ++ aliasBytes ++ pairLenBytes ++ pairBytes ++
                moduleBytes)
end

/-- `encode_module`: magic `IMPC`, version 1 (`u16` LE), module body. -/
def encodeModule (module : CompiledModule) : Except BytecodeError (List Nat) :=
  match writeModule module with
  | .error e => .error e
  | .ok body => .ok ([73, 77, 80, 67] ++ writeU16 1 ++ body)

/-! ### Reader -/

/-- `Reader::read_u8`. -/
def readU8 (bytes : List Nat) : Except BytecodeError (Nat × List Nat) :=
  match bytes with
  | [] => .error .unexpectedEof
  | b :: rest => .ok (b, rest)

/-- `Reader::read_u16` (little endian). -/
def readU16 (bytes : List Nat) : Except BytecodeError (Nat × List Nat) :=
  match bytes with
  | b0 :: b1 :: rest => .ok (b0 + 256 * b1, rest)
  | _ => .error .unexpectedEof

/-- `Reader::read_u32` (little endian). -/
def readU32 (bytes : List Nat) : Except BytecodeError (Nat × List Nat) :=
  match bytes with
  | b0 :: b1 :: b2 :: b3 :: rest =>
    .ok (b0 + 256 * b1 + 65536 * b2 + 16777216 * b3, rest)
  | _ => .error .unexpectedEof

/-- `Reader::read_f64` (returns the bit pattern). -/
def readU64 (bytes : List Nat) : Except BytecodeError (Nat × List Nat) :=
  match readU32 bytes with
  | .error e => .error e
  | .ok (lo, rest) =>
    match readU32 rest with
    | .error e => .error e
    | .ok (hi, rest) => .ok (lo + 4294967296 * hi, rest)

/-- `Reader::read_fixed_4`. -/
def readFixed4 (bytes : List Nat) :
    Except BytecodeError (List Nat × List Nat) :=
  match bytes with
  | b0 :: b1 :: b2 :: b3 :: rest => .ok ([b0, b1, b2, b3], rest)
  | _ => .error .unexpectedEof

/-- `Reader::read_len` (`usize::try_from(u32)` cannot fail on the 64-bit
targets modelled here). -/
def readLen (bytes : List Nat) (_ctx : String) :
    Except BytecodeError (Nat × List Nat) :=
  readU32 bytes

/-- `Reader::read_exact`. -/
def readExact (len : Nat) (bytes : List Nat) :
    Except BytecodeError (List Nat × List Nat) :=
  if len ≤ bytes.length then .ok (bytes.take len, bytes.drop len)
  else .error .unexpectedEof

/-- `Reader::read_string`. -/
def readString (bytes : List Nat) (ctx : String) :
    Except BytecodeError (String × List Nat) :=
  match readLen bytes "string length" with
  | .error e => .error e
  | .ok (len, rest) =>
    match readExact len rest with
    | .error e => .error e
    | .ok (strBytes, rest) =>
      match utf8DecodeAll strBytes with
      | some chars => .ok (⟨chars⟩, rest)
      | none => .error (.invalidUtf8 ctx)

/-- `read_slot`. -/
def readSlot (bytes : List Nat) : Except BytecodeError (Slot × List Nat) :=
  match readU8 bytes with
  | .error e => .error e
  | .ok (tag, rest) =>
    match readU32 rest with
    | .error e => .error e
    | .ok (value, rest) =>
      match tag with
      | 0 => .ok (.loc value, rest)
      | 1 => .ok (.global value, rest)
      | 2 => .ok (.arg value, rest)
      | 3 => .ok (.ret value, rest)
      | 4 => .ok (.err value, rest)
      | _ => .error (.invalidTag "slot" tag)

/-- `read_const`. -/
def readConst (bytes : List Nat) :
    Except BytecodeError (ConstValue × List Nat) :=
  match readU8 bytes with
  | .error e => .error e
  | .ok (tag, rest) =>
    match tag with
    | 0 => .ok (.null, rest)
    | 1 =>
      match readU8 rest with
      | .error e => .error e
      | .ok (b, rest) => .ok (.bool (b ≠ 0), rest)
    | 2 =>
      match readU64 rest with
      | .error e => .error e
      | .ok (v, rest) => .ok (.num v, rest)
    | 3 =>
      match readString rest "const string" with
      | .error e => .error e
      | .ok (s, rest) => .ok (.str s, rest)
    | _ => .error (.invalidTag "const" tag)

/-- The string loop of `read_retshape`. -/
def readStringList (count : Nat) (bytes : List Nat) (ctx : String) :
    Except BytecodeError (List String × List Nat) :=
  match count with
  | 0 => .ok ([], bytes)
  | count + 1 =>
    match readString bytes ctx with
    | .error e => .error e
    | .ok (s, rest) =>
      match readStringList count rest ctx with
      | .error e => .error e
      | .ok (ss, rest) => .ok (s :: ss, rest)

/-- `read_retshape`. -/
def readRetshape (bytes : List Nat) :
    Except BytecodeError (RetShape × List Nat) :=
  match readU8 bytes with
  | .error e => .error e
  | .ok (tag, rest) =>
    match tag with
    | 0 => .ok (.scalar, rest)
    | 1 =>
      match readLen rest "retshape either length" with
      | .error e => .error e
      | .ok (len, rest) =>
        match readStringList len rest "retshape either value" with
        | .error e => .error e
        | .ok (values, rest) => .ok (.either values, rest)
    | 2 =>
      match readLen rest "retshape record length" with
      | .error e => .error e
      | .ok (len, rest) =>
        match readStringList len rest "retshape record value" with
        | .error e => .error e
        | .ok (values, rest) => .ok (.record values, rest)
    | 3 => .ok (.any, rest)
    | _ => .error (.invalidTag "retshape" tag)

/-- The slot loop of `read_instr`'s `Invoke` arm. -/
def readSlotList (count : Nat) (bytes : List Nat) :
    Except BytecodeError (List Slot × List Nat) :=
  match count with
  | 0 => .ok ([], bytes)
  | count + 1 =>
    match readSlot bytes with
    | .error e => .error e
    | .ok (s, rest) =>
      match readSlotList count rest with
      | .error e => .error e
      | .ok (ss, rest) => .ok (s :: ss, rest)

/-- `read_instr` (the `ObjSet` key is read back as the string the writer
emitted; see the header note). -/
def readInstr (bytes : List Nat) : Except BytecodeError (Instr × List Nat) :=
  match readU8 bytes with
  | .error e => .error e
  | .ok (tag, rest) =>
    match tag with
    | 0 =>
      match readSlot rest with
      | .error e => .error e
      | .ok (slot, rest) =>
        match readConst rest with
        | .error e => .error e
        | .ok (value, rest) => .ok (.storeConst slot value, rest)
    | 1 =>
      match readSlot rest with
      | .error e => .error e
      | .ok (src, rest) =>
        match readSlot rest with
        | .error e => .error e
        | .ok (dst, rest) => .ok (.move src dst, rest)
    | 2 =>
      match readSlot rest with
      | .error e => .error e
      | .ok (a, rest) =>
        match readSlot rest with
        | .error e => .error e
        | .ok (b, rest) =>
          match readSlot rest with
          | .error e => .error e
          | .ok (out, rest) => .ok (.add a b out, rest)
    | 3 =>
      match readSlot rest with
      | .error e => .error e
      | .ok (a, rest) =>
        match readSlot rest with
        | .error e => .error e
        | .ok (b, rest) =>
          match readSlot rest with
          | .error e => .error e
          | .ok (out, rest) => .ok (.sub a b out, rest)
    | 4 =>
      match readSlot rest with
      | .error e => .error e
      | .ok (a, rest) =>
        match readSlot rest with
        | .error e => .error e
        | .ok (b, rest) =>
          match readSlot rest with
          | .error e => .error e
          | .ok (out, rest) => .ok (.mul a b out, rest)
    | 5 =>
      match readSlot rest with
      | .error e => .error e
      | .ok (a, rest) =>
        match readSlot rest with
        | .error e => .error e
        | .ok (b, rest) =>
          match readSlot rest with
          | .error e => .error e
          | .ok (out, rest) => .ok (.div a b out, rest)
    | 6 =>
      match readSlot rest with
      | .error e => .error e
      | .ok (a, rest) =>
        match readSlot rest with
        | .error e => .error e
        | .ok (b, rest) =>
          match readSlot rest with
          | .error e => .error e
          | .ok (out, rest) => .ok (.eq a b out, rest)
    | 7 =>
      match readSlot rest with
      | .error e => .error e
      | .ok (a, rest) =>
        match readSlot rest with
        | .error e => .error e
        | .ok (b, rest) =>
          match readSlot rest with
          | .error e => .error e
          | .ok (out, rest) => .ok (.lt a b out, rest)
    | 8 =>
      match readU32 rest with
      | .error e => .error e
      | .ok (target, rest) => .ok (.jump target, rest)
    | 9 =>
      match readSlot rest with
      | .error e => .error e
      | .ok (cond, rest) =>
        match readU32 rest with
        | .error e => .error e
        | .ok (thenPc, rest) =>
          match readU32 rest with
          | .error e => .error e
          | .ok (elsePc, rest) => .ok (.branch cond thenPc elsePc, rest)
    | 10 =>
      match readSlot rest with
      | .error e => .error e
      | .ok (fnSlot, rest) =>
        match readLen rest "invoke args length" with
        | .error e => .error e
        | .ok (argCount, rest) =>
          match readSlotList argCount rest with
          | .error e => .error e
          | .ok (args, rest) =>
            match readSlot rest with
            | .error e => .error e
            | .ok (out, rest) => .ok (.invoke fnSlot args out, rest)
    | 11 =>
      match readU32 rest with
      | .error e => .error e
      | .ok (slotId, rest) =>
        match readSlot rest with
        | .error e => .error e
        | .ok (value, rest) => .ok (.returnSet slotId value, rest)
    | 12 => .ok (.exit, rest)
    | 13 =>
      match readString rest "throw.code" with
      | .error e => .error e
      | .ok (code, rest) =>
        match readString rest "throw.msg" with
        | .error e => .error e
        | .ok (msg, rest) => .ok (.throw code msg, rest)
    | 14 =>
      match readU32 rest with
      | .error e => .error e
      | .ok (handlerPc, rest) => .ok (.tryPush handlerPc, rest)
    | 15 => .ok (.tryPop, rest)
    | 16 =>
      match readSlot rest with
      | .error e => .error e
      | .ok (out, rest) => .ok (.objNew out, rest)
    | 17 =>
      match readSlot rest with
      | .error e => .error e
      | .ok (obj, rest) =>
        match readString rest "objset.key" with
        | .error e => .error e
        | .ok (key, rest) =>
          match readSlot rest with
          | .error e => .error e
          | .ok (value, rest) =>
            match readSlot rest with
            | .error e => .error e
            | .ok (out, rest) => .ok (.objSet obj key value out, rest)
    | 18 =>
      match readSlot rest with
      | .error e => .error e
      | .ok (obj, rest) =>
        match readSlot rest with
        | .error e => .error e
        | .ok (key, rest) =>
          match readSlot rest with
          | .error e => .error e
          | .ok (out, rest) => .ok (.objGet obj key out, rest)
    | 19 =>
      match readSlot rest with
      | .error e => .error e
      | .ok (obj, rest) =>
        match readSlot rest with
        | .error e => .error e
        | .ok (key, rest) =>
          match readSlot rest with
          | .error e => .error e
          | .ok (out, rest) => .ok (.objHas obj key out, rest)
    | 20 =>
      match readSlot rest with
      | .error e => .error e
      | .ok (a, rest) =>
        match readSlot rest with
        | .error e => .error e
        | .ok (b, rest) =>
          match readSlot rest with
          | .error e => .error e
          | .ok (out, rest) => .ok (.strConcat a b out, rest)
    | 21 =>
      match readSlot rest with
      | .error e => .error e
      | .ok (value, rest) =>
        match readSlot rest with
        | .error e => .error e
        | .ok (out, rest) => .ok (.strLen value out, rest)
    | 22 =>
      match readSlot rest with
      | .error e => .error e
      | .ok (slot, rest) => .ok (.hostPrint slot, rest)
    | _ => .error (.invalidTag "instr" tag)

/-- The instruction loop of `read_function`. -/
def readInstrList (count : Nat) (bytes : List Nat) :
    Except BytecodeError (List Instr × List Nat) :=
  match count with
  | 0 => .ok ([], bytes)
  | count + 1 =>
    match readInstr bytes with
    | .error e => .error e
    | .ok (instr, rest) =>
      match readInstrList count rest with
      | .error e => .error e
      | .ok (instrs, rest) => .ok (instr :: instrs, rest)

/-- `read_fn_meta`. -/
def readFnMeta (bytes : List Nat) : Except BytecodeError (FnMeta × List Nat) :=
  match readString bytes "fn meta name" with
  | .error e => .error e
  | .ok (name, rest) =>
    match readU32 rest with
    | .error e => .error e
    | .ok (argCount, rest) =>
      match readU32 rest with
      | .error e => .error e
      | .ok (retCount, rest) =>
        match readRetshape rest with
        | .error e => .error e
        | .ok (retshape, rest) =>
          .ok ({ name, argCount, retCount, retshape }, rest)

/-- `read_function`. -/
def readFunction (bytes : List Nat) :
    Except BytecodeError (CompiledFunction × List Nat) :=
  match readU32 bytes with
  | .error e => .error e
  | .ok (id, rest) =>
    match readU32 rest with
    | .error e => .error e
    | .ok (localCount, rest) =>
      match readU32 rest with
      | .error e => .error e
      | .ok (argCount, rest) =>
        match readU32 rest with
        | .error e => .error e
        | .ok (retCount, rest) =>
          match readU32 rest with
          | .error e => .error e
          | .ok (errCount, rest) =>
            match readFnMeta rest with
            | .error e => .error e
            | .ok (meta, rest) =>
              match readLen rest "function code length" with
              | .error e => .error e
              | .ok (codeLen, rest) =>
                match readInstrList codeLen rest with
                | .error e => .error e
                | .ok (code, rest) =>
                  .ok ({ id, code, localCount, argCount, retCount, errCount,
                         meta }, rest)

/-- The function loop of `read_module`. -/
def readFunctionList (count : Nat) (bytes : List Nat) :
    Except BytecodeError (List CompiledFunction × List Nat) :=
  match count with
  | 0 => .ok ([], bytes)
  | count + 1 =>
    match readFunction bytes with
    | .error e => .error e
    | .ok (f, rest) =>
      match readFunctionList count rest with
      | .error e => .error e
      | .ok (fs, rest) => .ok (f :: fs, rest)

/-- The `(u32, u32)` pair loop of `read_module`. -/
def readPairList (count : Nat) (bytes : List Nat) :
    Except BytecodeError (List (Nat × Nat) × List Nat) :=
  match count with
  | 0 => .ok ([], bytes)
  | count + 1 =>
    match readU32 bytes with
    | .error e => .error e
    | .ok (a, rest) =>
      match readU32 rest with
      | .error e => .error e
      | .ok (b, rest) =>
        match readPairList count rest with
        | .error e => .error e
        | .ok (ps, rest) => .ok ((a, b) :: ps, rest)

/-- The `(String, u32)` pair loop of `read_module` / `read_import`. -/
def readNamedSlotList (count : Nat) (bytes : List Nat) (ctx : String) :
    Except BytecodeError (List (String × Nat) × List Nat) :=
  match count with
  | 0 => .ok ([], bytes)
  | count + 1 =>
    match readString bytes ctx with
    | .error e => .error e
    | .ok (name, rest) =>
      match readU32 rest with
      | .error e => .error e
      | .ok (slot, rest) =>
        match readNamedSlotList count rest ctx with
        | .error e => .error e
        | .ok (ps, rest) => .ok ((name, slot) :: ps, rest)

mutual

/-- `read_module`.  The fuel bounds the import nesting depth; the decoder
entry point passes one more than the byte count, which a recursion that
consumes bytes at every level can never exhaust. -/
def readModule (fuel : Nat) (bytes : List Nat) :
    Except BytecodeError (CompiledModule × List Nat) :=
  match fuel with
  | 0 => .error (.overflow "module nesting depth")
  | fuel + 1 =>
    match readString bytes "module.name" with
    | .error e => .error e
    | .ok (name, rest) =>
      match readU32 rest with
      | .error e => .error e
      | .ok (initFunc, rest) =>
        match readLen rest "functions length" with
        | .error e => .error e
        | .ok (fnCount, rest) =>
          match readFunctionList fnCount rest with
          | .error e => .error e
          | .ok (functions, rest) =>
            match readLen rest "function_globals length" with
            | .error e => .error e
            | .ok (fgCount, rest) =>
              match readPairList fgCount rest with
              | .error e => .error e
              | .ok (functionGlobals, rest) =>
                match readLen rest "exports length" with
                | .error e => .error e
                | .ok (exCount, rest) =>
                  match readNamedSlotList exCount rest "export name" with
                  | .error e => .error e
                  | .ok (exports, rest) =>
                    match readLen rest "imports length" with
                    | .error e => .error e
                    | .ok (imCount, rest) =>
                      match readImportList fuel imCount rest with
                      | .error e => .error e
                      | .ok (imports, rest) =>
                        match readU32 rest with
                        | .error e => .error e
                        | .ok (globalCount, rest) =>
                          .ok (.mk name initFunc functions functionGlobals
                            exports imports globalCount, rest)
termination_by (fuel, 0)

/-- The import loop of `read_module`. -/
def readImportList (fuel : Nat) (count : Nat) (bytes : List Nat) :
    Except BytecodeError (List ImportBinding × List Nat) :=
  match count with
  | 0 => .ok ([], bytes)
  | count + 1 =>
    match readImport fuel bytes with
    | .error e => .error e
    | .ok (b, rest) =>
      match readImportList fuel count rest with
      | .error e => .error e
      | .ok (bs, rest) => .ok (b :: bs, rest)
termination_by (fuel, count + 2)

/-- `read_import`. -/
def readImport (fuel : Nat) (bytes : List Nat) :
    Except BytecodeError (ImportBinding × List Nat) :=
  match readString bytes "import.path" with
  | .error e => .error e
  | .ok (path, rest) =>
    match readString rest "import.alias" with
    | .error e => .error e
    | .ok (aliasName, rest) =>
      match readLen rest "import export_to_global length" with
      | .error e => .error e
      | .ok (pairCount, rest) =>
        match readNamedSlotList pairCount rest "import export name" with
        | .error e => .error e
        | .ok (exportToGlobal, rest) =>
          match readModule fuel rest with
          | .error e => .error e
          | .ok (module, rest) =>
            .ok (.mk path aliasName module exportToGlobal, rest)
termination_by (fuel, 1)

end

/-- `decode_module`. -/
def decodeModule (bytes : List Nat) :
    Except BytecodeError CompiledModule :=
  match readFixed4 bytes with
  | .error e => .error e
  | .ok (magic, rest) =>
    if magic ≠ [73, 77, 80, 67] then .error (.invalidMagic magic)
    else
      match readU16 rest with
      | .error e => .error e
      | .ok (version, rest) =>
        if version ≠ 1 then .error (.unsupportedVersion version)
        else
          match readModule (bytes.length + 1) rest with
          | .error e => .error e
          | .ok (module, rest) =>
            if rest.isEmpty then .ok module
            else .error (.invalidTag "trailing-bytes" 0)

/-! ### Validity (the `u32`/`f64` typing Rust enforces statically) -/

/-- Slot indices are `u32`. -/
def validSlot : Slot → Bool
  | .loc i => i < 4294967296
  | .global i => i < 4294967296
  | .arg i => i < 4294967296
  | .ret i => i < 4294967296
  | .err i => i < 4294967296

/-- String byte lengths fit `u32` (required by `write_len`). -/
def validStr (s : String) : Bool :=
  (strUtf8 s).length < 4294967296

/-- `ConstValue` payloads are well-typed (`f64` bit patterns are 64 bits). -/
def validConst : ConstValue → Bool
  | .null => true
  | .bool _ => true
  | .num v => v < 18446744073709551616
  | .str s => validStr s

/-- Instruction operands are well-typed. -/
def validInstr : Instr → Bool
  | .storeConst slot value => validSlot slot && validConst value
  | .move src dst => validSlot src && validSlot dst
  | .add a b out => validSlot a && validSlot b && validSlot out
  | .sub a b out => validSlot a && validSlot b && validSlot out
  | .mul a b out => validSlot a && validSlot b && validSlot out
  | .div a b out => validSlot a && validSlot b && validSlot out
  | .eq a b out => validSlot a && validSlot b && validSlot out
  | .lt a b out => validSlot a && validSlot b && validSlot out
  | .jump target => target < 4294967296
  | .branch cond thenPc elsePc =>
    validSlot cond && thenPc < 4294967296 && elsePc < 4294967296
  | .invoke fnSlot args out =>
    validSlot fnSlot && args.length < 4294967296 && args.all validSlot &&
      validSlot out
  | .returnSet slotId value => slotId < 4294967296 && validSlot value
  | .exit => true
  | .throw code msg => validStr code && validStr msg
  | .tryPush handlerPc => handlerPc < 4294967296
  | .tryPop => true
  | .objNew out => validSlot out
  | .objSet obj key value out =>
    validSlot obj && validStr key && validSlot value && validSlot out
  | .objGet obj key out => validSlot obj && validSlot key && validSlot out
  | .objHas obj key out => validSlot obj && validSlot key && validSlot out
  | .strConcat a b out => validSlot a && validSlot b && validSlot out
  | .strLen value out => validSlot value && validSlot out
  | .hostPrint slot => validSlot slot

/-- RetShape tag lists are `u32`-length lists of encodable strings. -/
def validRetshape : RetShape → Bool
  | .scalar => true
  | .either values => values.length < 4294967296 && values.all validStr
  | .record values => values.length < 4294967296 && values.all validStr
  | .any => true

/-- Function metadata is well-typed. -/
def validFnMeta (meta : FnMeta) : Bool :=
  validStr meta.name && meta.argCount < 4294967296 &&
    meta.retCount < 4294967296 && validRetshape meta.retshape

/-- Functions are well-typed. -/
def validFunction (f : CompiledFunction) : Bool :=
  f.id < 4294967296 && f.localCount < 4294967296 && f.argCount < 4294967296 &&
    f.retCount < 4294967296 && f.errCount < 4294967296 && validFnMeta f.meta &&
    f.code.length < 4294967296 && f.code.all validInstr

mutual
/-- Modules are well-typed (a Rust `CompiledModule` always is; this is what
"valid compiled module" denotes for the codec claims). -/
def validModule : CompiledModule → Bool
  | .mk name initFunc functions functionGlobals exports imports globalCount =>
    validStr name && initFunc < 4294967296 &&
    functions.length < 4294967296 && functions.all validFunction &&
    functionGlobals.length < 4294967296 &&
    functionGlobals.all (fun p => p.1 < 4294967296 && p.2 < 4294967296) &&
    exports.length < 4294967296 &&
    exports.all (fun p => validStr p.1 && p.2 < 4294967296) &&
    imports.length < 4294967296 && validImportList imports &&
    globalCount < 4294967296

/-- The import loop of `validModule`. -/
def validImportList : List ImportBinding → Bool
  | [] => true
  | b :: rest => validImport b && validImportList rest

/-- Import bindings are well-typed. -/
def validImport : ImportBinding → Bool
  | .mk path aliasName module exportToGlobal =>
    validStr path && validStr aliasName &&
    exportToGlobal.length < 4294967296 &&
    exportToGlobal.all (fun p => validStr p.1 && p.2 < 4294967296) &&
    validModule module
end

/-! ## Concrete example programs and modules used by the theorems -/

/-- An init function that stores a constant number into global 0
(the body of the example modules `exDepA`/`exDepB`). -/
def exDepInit (bits : Nat) : CompiledFunction :=
  { id := 0
    code := [.storeConst (.global 0) (.num bits), .exit]
    localCount := 0, argCount := 0, retCount := 0, errCount := 0
    meta := { name := "<init>", argCount := 0, retCount := 0, retshape := .any } }

/-- A module named `dep` whose init stores `1.0` into global 0 and which
exports that global as `x`. -/
def exDepA : CompiledModule := .mk "dep" 0 [exDepInit f64One] [] [("x", 0)] [] 1

/-- A structurally different module that shares the name `dep`: its init
stores `2.0`. -/
def exDepB : CompiledModule := .mk "dep" 0 [exDepInit f64Two] [] [("x", 0)] [] 1

/-- The init function of `exCollision`: return the value imported from the
second `dep`. -/
def exCollisionInit : CompiledFunction :=
  { id := 0
    code := [.move (.global 1) (.ret 0), .exit]
    localCount := 0, argCount := 0, retCount := 0, errCount := 0
    meta := { name := "<init>", argCount := 0, retCount := 0, retshape := .any } }

/-- A module importing two *distinct* modules that share the module name
`dep`: the pre-decoded step cache keyed by `(module_name, func_id)`
collides on them. -/
def exCollision : CompiledModule :=
  .mk "main" 0 [exCollisionInit] [] []
    [.mk "a.imp" "a" exDepA [("x", 0)], .mk "b.imp" "b" exDepB [("x", 1)]] 2

/-- A one-function module adding two constants (spec scenario 1). -/
def exAddFn : CompiledFunction :=
  { id := 0
    code := [ .storeConst (.loc 0) (.num f64One)
            , .storeConst (.loc 1) (.num f64Two)
            , .add (.loc 0) (.loc 1) (.ret 0)
            , .exit ]
    localCount := 2, argCount := 0, retCount := 1, errCount := 1
    meta := { name := "main", argCount := 0, retCount := 1, retshape := .scalar } }

/-- The module holding `exAddFn`. -/
def exAddModule : CompiledModule := .mk "main" 0 [exAddFn] [] [] [] 0

/-- Divide by zero under a try-handler (the VM's own
`catches_divide_by_zero_with_try_handler_jit` test). -/
def exDivCatchFn : CompiledFunction :=
  { id := 0
    code := [ .storeConst (.loc 0) (.num f64One)
            , .storeConst (.loc 1) (.num f64PosZero)
            , .tryPush 5
            , .div (.loc 0) (.loc 1) (.ret 0)
            , .jump 7
            , .storeConst (.ret 0) (.num f64Two)
            , .tryPop
            , .exit ]
    localCount := 2, argCount := 0, retCount := 1, errCount := 1
    meta := { name := "main", argCount := 0, retCount := 1, retshape := .scalar } }

/-- The module holding `exDivCatchFn`. -/
def exDivCatchModule : CompiledModule := .mk "main" 0 [exDivCatchFn] [] [] [] 0

/-- Divide by zero with no handler installed. -/
def exDivUncaughtFn : CompiledFunction :=
  { id := 0
    code := [ .storeConst (.loc 0) (.num f64One)
            , .storeConst (.loc 1) (.num f64PosZero)
            , .div (.loc 0) (.loc 1) (.ret 0)
            , .exit ]
    localCount := 2, argCount := 0, retCount := 1, errCount := 1
    meta := { name := "main", argCount := 0, retCount := 1, retshape := .scalar } }

/-- The module holding `exDivUncaughtFn`. -/
def exDivUncaughtModule : CompiledModule :=
  .mk "main" 0 [exDivUncaughtFn] [] [] [] 0

/-- Compare `0.0` with `-0.0` and a NaN with itself (bit-identical
operands) using the `Eq` instruction. -/
def exEqFn : CompiledFunction :=
  { id := 0
    code := [ .storeConst (.loc 0) (.num f64PosZero)
            , .storeConst (.loc 1) (.num f64NegZero)
            , .eq (.loc 0) (.loc 1) (.ret 0)
            , .storeConst (.loc 2) (.num f64NaN)
            , .eq (.loc 2) (.loc 2) (.ret 1)
            , .exit ]
    localCount := 3, argCount := 0, retCount := 2, errCount := 0
    meta := { name := "<init>", argCount := 0, retCount := 2, retshape := .any } }

/-- The module holding `exEqFn`. -/
def exEqModule : CompiledModule := .mk "main" 0 [exEqFn] [] [] [] 0

/-- Shorthand for a source call with no annotations. -/
def mkCall (target : String) (args : List (String × Atom)) (line : Nat) : Call :=
  { annos := [], target, args := args.map (fun p => ⟨p.1, p.2⟩), line }

/-- A body whose `end` label is declared after an explicit `core::exit`:
`jump target="end"; exit; label name="end"`. -/
def exTrailingLabelCalls : List Call :=
  [ mkCall "core::jump" [("target", .str "end")] 1
  , mkCall "core::exit" [] 2
  , mkCall "core::label" [("name", .str "end")] 3 ]

/-- The branch/label program of the compiler's own
`labels_are_patched_to_pc` test. -/
def exBranchCalls : List Call :=
  [ mkCall "core::const" [("out", .ref ⟨"local", "flag"⟩), ("value", .bool true)] 1
  , mkCall "core::br" [("cond", .ref ⟨"local", "flag"⟩), ("then", .str "yes"),
      ("else", .str "no")] 2
  , mkCall "core::label" [("name", .str "yes")] 3
  , mkCall "core::const" [("out", .ref ⟨"return", "value"⟩), ("value", .num f64One)] 4
  , mkCall "core::jump" [("target", .str "end")] 5
  , mkCall "core::label" [("name", .str "no")] 6
  , mkCall "core::const" [("out", .ref ⟨"return", "value"⟩), ("value", .num f64Two)] 7
  , mkCall "core::label" [("name", .str "end")] 8
  , mkCall "core::exit" [] 9 ]

/-- A `@safe core::div` call with a ref `out`. -/
def exSafeDivCall : Call :=
  { annos := ["safe"], target := "core::div"
    args := [⟨"a", .ref ⟨"local", "a"⟩⟩, ⟨"b", .ref ⟨"local", "b"⟩⟩,
             ⟨"out", .ref ⟨"local", "c"⟩⟩]
    line := 3 }

/-- A `@safe core::div` call whose `out` is a string, not a ref. -/
def exSafeDivBadCall : Call :=
  { annos := ["safe"], target := "core::div"
    args := [⟨"a", .ref ⟨"local", "a"⟩⟩, ⟨"b", .ref ⟨"local", "b"⟩⟩,
             ⟨"out", .str "local::c"⟩]
    line := 4 }

/-- A `core::obj::set` call with a literal string key. -/
def exObjSetCall : Call :=
  mkCall "core::obj::set"
    [("obj", .ref ⟨"local", "m"⟩), ("key", .str "name"),
     ("value", .ref ⟨"local", "v"⟩)] 2

/-- A `core::obj::get` call with a literal string key. -/
def exObjGetCall : Call :=
  mkCall "core::obj::get"
    [("obj", .ref ⟨"local", "m"⟩), ("key", .str "name"),
     ("out", .ref ⟨"local", "v"⟩)] 2

/-- A `core::obj::has` call with a literal string key. -/
def exObjHasCall : Call :=
  mkCall "core::obj::has"
    [("obj", .ref ⟨"local", "m"⟩), ("key", .str "name"),
     ("out", .ref ⟨"local", "v"⟩)] 2

/-- The frame state of `exEqFn` just before its first `Eq` executes. -/
def exEqFrame : Frame :=
  { code := exEqFn.code, pc := 2
    locals := [.num f64PosZero, .num f64NegZero, .null], args := []
    ret := [.null, .null], err := [.null], tryStack := []
    meta := exEqFn.meta }

/-- The frame state of `exDivUncaughtFn` just before its `Div` executes. -/
def exDivFrame : Frame :=
  { code := exDivUncaughtFn.code, pc := 2
    locals := [.num f64One, .num f64PosZero], args := [], ret := [.null]
    err := [.null], tryStack := []
    meta := exDivUncaughtFn.meta }

/-- The frame state of `exDivCatchFn` just before its `Div` executes (the
handler at pc 5 is installed). -/
def exDivCatchFrame : Frame :=
  { code := exDivCatchFn.code, pc := 3
    locals := [.num f64One, .num f64PosZero], args := [], ret := [.null]
    err := [.null], tryStack := [5]
    meta := exDivCatchFn.meta }

/-- Bound on the pc operands of one instruction (trivial for instructions
without a pc operand). -/
def instrPcBound (i : Instr) (len : Nat) : Prop :=
  match i with
  | .jump target => target ≤ len
  | .branch _ thenPc elsePc => thenPc ≤ len ∧ elsePc ≤ len
  | .tryPush handlerPc => handlerPc ≤ len
  | _ => True

/-- The invariant maintained by lowering: every recorded label pc and
every pc operand already emitted is bounded by the current code length. -/
def LowerInv (code : List Instr) (labels : List (String × Nat)) : Prop :=
  (∀ p ∈ labels, p.2 ≤ code.length) ∧ (∀ i ∈ code, instrPcBound i code.length)

/-- A small frame used by frame-effect witnesses. -/
def exFrame : Frame :=
  { code := [.exit], pc := 0
    locals := [.num f64One], args := [.null], ret := [.null], err := [.null]
    tryStack := []
    meta := { name := "main", argCount := 0, retCount := 1, retshape := .any } }

/-- The function produced by compiling `exTrailingLabelCalls`: the jump that
references the label declared after the explicit `core::exit` is patched to
pc `2`, which equals the final code length. -/
def exPatchedFn : CompiledFunction :=
  { id := 0, code := [Instr.jump 2, Instr.exit], localCount := 0,
    argCount := 0, retCount := 1, errCount := 0,
    meta := { name := "main", argCount := 0, retCount := 1,
              retshape := RetShape.any } }

mutual
/-- Import nesting depth of a module; `read_module`'s fuel must exceed it.
Used only as a proof measure for the codec roundtrip. -/
def moduleDepth : CompiledModule → Nat
  | .mk _ _ _ _ _ imports _ => importListDepth imports + 1

/-- Nesting depth of an import list. -/
def importListDepth : List ImportBinding → Nat
  | [] => 0
  | b :: rest => max (importDepth b) (importListDepth rest)

/-- Nesting depth of an import binding. -/
def importDepth : ImportBinding → Nat
  | .mk _ _ module _ => moduleDepth module
end

/-- Every cached pre-decoded function belongs to a reachable module and is
the compilation of that module's function under the cache key.  Proof
invariant for the dispatch-equivalence theorem. -/
def CacheOk (mods : List CompiledModule)
    (cache : List ((String × Nat) × JitFunction)) : Prop :=
  ∀ p ∈ cache, ∃ m ∈ mods, m.name = p.1.1 ∧
    ∃ f, m.function p.1.2 = some f ∧ p.2 = JitFunction.compile f

/-- Every registered foreign function points into the reachable module set. -/
def ForeignOk (mods : List CompiledModule)
    (ffs : List (Nat × ForeignFunc)) : Prop :=
  ∀ p ∈ ffs, p.2.module ∈ mods

/-- Relation between the interpreting VM and the pre-decoded-dispatch VM:
same configuration apart from `enable_jit`, same linking state, and a
well-formed step cache. -/
structure VmRel (mods : List CompiledModule) (v1 v2 : Vm) : Prop where
  hostPrint : v1.cfg.enableHostPrint = v2.cfg.enableHostPrint
  jit1 : v1.cfg.enableJit = false
  jit2 : v2.cfg.enableJit = true
  active : v1.activeModule = v2.activeModule
  foreign : v1.foreignFuncs = v2.foreignFuncs
  nextId : v1.nextForeignFuncId = v2.nextForeignFuncId
  foreignOk : ForeignOk mods v2.foreignFuncs
  cacheOk : CacheOk mods v2.jitCache

/-- Related outcomes of the two execution-loop strategies. -/
def SimOut (mods : List CompiledModule)
    (o1 o2 : Vm × List Value × VRes (List Value)) : Prop :=
  VmRel mods o1.1 o2.1 ∧ o1.2.1 = o2.2.1 ∧ o1.2.2 = o2.2.2

/-- Related outcomes of `build_module_globals`/`link_imports`. -/
def SimOutG (mods : List CompiledModule) (o1 o2 : Vm × VRes (List Value)) :
    Prop :=
  VmRel mods o1.1 o2.1 ∧ o1.2 = o2.2

/-- Related outcomes of `run_main`. -/
def SimOutR (mods : List CompiledModule) (o1 o2 : Vm × VRes RunResult) :
    Prop :=
  VmRel mods o1.1 o2.1 ∧ o1.2 = o2.2

/-! # Theorems -/

/-! ## Helper lemmas -/

theorem set_append_cons (X : List Value) (y v : Value) (R : List Value) :
    (X ++ y :: R).set X.length v = X ++ v :: R := by
  induction X with
  | nil => simp
  | cons x xs ih => simp [List.set, ih]

theorem fillArgs_spec (args : List Value) :
    ∀ (X : List Value) (k : Nat),
      fillArgs (X ++ List.replicate k Value.null) X.length args =
        X ++ args.take k ++ List.replicate (k - args.length) Value.null := by
  induction args with
  | nil => intro X k; simp [fillArgs]
  | cons v rest ih =>
    intro X k
    match k with
    | 0 => simp [fillArgs]
    | k + 1 =>
      rw [fillArgs]
      have hlen : ¬ X.length ≥ (X ++ List.replicate (k + 1) Value.null).length := by
        simp
      rw [if_neg hlen]
      have hset : (X ++ List.replicate (k + 1) Value.null).set X.length v =
          (X ++ [v]) ++ List.replicate k Value.null := by
        have hsc := set_append_cons X Value.null v (List.replicate k Value.null)
        simp [List.replicate_succ, hsc]
      rw [hset]
      have := ih (X ++ [v]) k
      simp only [List.length_append, List.length_cons, List.length_nil] at this
      rw [this]
      simp [List.take_succ_cons, Nat.succ_sub_succ]

/-! ## C9: global writes out of range are silent no-ops, frame-vector
writes grow on demand, all out-of-range reads are errors -/

/-- **C9.**  A write to `Slot::Global(i)` with `i` out of range of the
globals vector is a silent no-op: the frame and the globals are returned
completely unchanged (no error, no growth).  Writes to local/arg/ret/err
slots grow the corresponding frame vector with `Null` up to the written
index.  Reads of any out-of-range slot index, globals included, are
runtime errors. -/
theorem global_write_oob_silent_vector_writes_grow
    (f : Frame) (i : Nat) (v : Value) (globals : List Value) :
    (globals.length ≤ i → f.set (.global i) v globals = (f, globals)) ∧
    (f.locals.length ≤ i →
      (f.set (.loc i) v globals) =
        ({ f with locals := (f.locals ++ List.replicate (i + 1 - f.locals.length) Value.null).set i v }, globals)) ∧
    (f.args.length ≤ i →
      (f.set (.arg i) v globals) =
        ({ f with args := (f.args ++ List.replicate (i + 1 - f.args.length) Value.null).set i v }, globals)) ∧
    (f.ret.length ≤ i →
      (f.set (.ret i) v globals) =
        ({ f with ret := (f.ret ++ List.replicate (i + 1 - f.ret.length) Value.null).set i v }, globals)) ∧
    (f.err.length ≤ i →
      (f.set (.err i) v globals) =
        ({ f with err := (f.err ++ List.replicate (i + 1 - f.err.length) Value.null).set i v }, globals)) ∧
    (globals.length ≤ i →
      f.get (.global i) globals =
        .error (.runtime ("global slot " ++ toString i ++ " out of range"))) ∧
    (f.locals.length ≤ i →
      f.get (.loc i) globals =
        .error (.runtime ("local slot " ++ toString i ++ " out of range"))) ∧
    (f.args.length ≤ i →
      f.get (.arg i) globals =
        .error (.runtime ("arg slot " ++ toString i ++ " out of range"))) ∧
    (f.ret.length ≤ i →
      f.get (.ret i) globals =
        .error (.runtime ("ret slot " ++ toString i ++ " out of range"))) ∧
    (f.err.length ≤ i →
      f.get (.err i) globals =
        .error (.runtime ("err slot " ++ toString i ++ " out of range"))) := by
  refine ⟨fun h => ?_, fun h => ?_, fun h => ?_, fun h => ?_, fun h => ?_,
    fun h => ?_, fun h => ?_, fun h => ?_, fun h => ?_, fun h => ?_⟩
  · simp [Frame.set, Nat.not_lt_of_ge h]
  · simp [Frame.set, setVecSlot, Nat.le_of_lt, h]
  · simp [Frame.set, setVecSlot, h]
  · simp [Frame.set, setVecSlot, h]
  · simp [Frame.set, setVecSlot, h]
  · simp [Frame.get, List.getElem?_eq_none h]
  · simp [Frame.get, List.getElem?_eq_none h]
  · simp [Frame.get, List.getElem?_eq_none h]
  · simp [Frame.get, List.getElem?_eq_none h]
  · simp [Frame.get, List.getElem?_eq_none h]

/-- Witness for C9 at concrete inputs. -/
theorem global_write_oob_silent_vector_writes_grow_witness :
    exFrame.set (.global 2) (.num f64One) [Value.null] = (exFrame, [Value.null]) ∧
    exFrame.get (.loc 3) [] =
      .error (.runtime ("local slot " ++ toString 3 ++ " out of range")) := by
  refine ⟨?_, ?_⟩
  · exact (global_write_oob_silent_vector_writes_grow exFrame 2 (.num f64One)
      [Value.null]).1 (by simp)
  · exact (global_write_oob_silent_vector_writes_grow exFrame 3 (.num f64One)
      []).2.2.2.2.2.2.1 (by simp [exFrame])

/-! ## C10: no arity check on invocation -/

/-- **C10.**  Function entry performs no arity check: the new frame's
argument vector is the supplied values truncated to the declared
`arg_count` (extras silently discarded), padded with `Null` when fewer
were supplied; `Frame::new` is total, so no error is raised on entry in
either case. -/
theorem frame_new_no_arity_check (function : CompiledFunction)
    (args : List Value) :
    (Frame.new function args).args =
      args.take function.argCount ++
        List.replicate (function.argCount - args.length) Value.null := by
  have h := fillArgs_spec args [] function.argCount
  simp only [List.nil_append, List.length_nil] at h
  simp [Frame.new, h]

/-! ## C4: return-shape validation at `Exit` -/

/-- **C4.**  On every `Exit` the return vector is validated against the
function's RetShape: `Scalar` requires exactly one return; `Either(tags)`
exactly one `Str` whose content is among `tags`; `Record(fields)` exactly
one `Obj` containing every listed field as a key; `Any` performs no check;
and every validation failure is a generic `Runtime` error, never a
`Thrown` one. -/
theorem exit_validates_retshape (fa : FloatArith) (n : Nat) (vm : Vm)
    (module : CompiledModule) (frame : Frame) (globals : List Value)
    (meta : FnMeta) (values : List Value) (tags fields : List String)
    (e : VmError) :
    (frame.code.get? frame.pc = some Instr.exit →
      interpLoop fa (n + 1) vm module frame globals =
        (match validateRetshape frame.meta frame.ret with
         | .error err => (vm, globals, .err err)
         | .ok _ => (vm, globals, .ok frame.ret))) ∧
    (meta.retshape = .scalar →
      (validateRetshape meta values = .ok () ↔ values.length = 1)) ∧
    (meta.retshape = .either tags →
      (validateRetshape meta values = .ok () ↔
        ∃ s, values = [Value.str s] ∧ tags.any (fun item => item == s))) ∧
    (meta.retshape = .record fields →
      (validateRetshape meta values = .ok () ↔
        ∃ map, values = [Value.obj map] ∧
          ∀ field ∈ fields, (objGet? field map).isSome)) ∧
    (meta.retshape = .any → validateRetshape meta values = .ok ()) ∧
    (validateRetshape meta values = .error e → ∃ msg, e = .runtime msg) := by
  refine ⟨fun h => ?_, fun h => ?_, fun h => ?_, fun h => ?_, fun h => ?_,
    fun h => ?_⟩
  · rw [interpLoop, h]
  · simp only [validateRetshape, h]
    constructor
    · intro hok
      by_contra hne
      simp [hne] at hok
    · intro hlen
      simp [hlen]
  · simp only [validateRetshape, h]
    constructor
    · intro hok
      match values with
      | [] => simp at hok
      | [Value.str s] =>
        refine ⟨s, rfl, ?_⟩
        by_contra hmem
        simp only [List.length_cons, List.length_nil] at hok
        rw [if_neg (by omega)] at hok
        simp [hmem] at hok
      | [Value.null] | [Value.bool _] | [Value.num _] | [Value.obj _]
      | [Value.func _] | [Value.error _ _] =>
        simp only [List.length_cons, List.length_nil] at hok
        rw [if_neg (by omega)] at hok
        simp at hok
      | v1 :: v2 :: rest => simp at hok
    · rintro ⟨s, rfl, hmem⟩
      simp [hmem]
  · simp only [validateRetshape, h]
    constructor
    · intro hok
      match values with
      | [] => simp at hok
      | [Value.obj map] =>
        refine ⟨map, rfl, ?_⟩
        intro field hf
        simp only [List.length_cons, List.length_nil] at hok
        rw [if_neg (by omega)] at hok
        by_contra hmiss
        have : (fields.find? (fun field => (objGet? field map).isNone)).isSome := by
          rw [List.find?_isSome]
          refine ⟨field, hf, ?_⟩
          cases hfo : objGet? field map with
          | none => rfl
          | some v =>
            exact absurd (by simp [hfo] : (objGet? field map).isSome = true) hmiss
        match hfind : fields.find? (fun field => (objGet? field map).isNone) with
        | none => rw [hfind] at this; simp at this
        | some f => rw [hfind] at hok; simp at hok
      | [Value.null] | [Value.bool _] | [Value.num _] | [Value.str _]
      | [Value.func _] | [Value.error _ _] =>
        simp only [List.length_cons, List.length_nil] at hok
        rw [if_neg (by omega)] at hok
        simp at hok
      | v1 :: v2 :: rest => simp at hok
    · rintro ⟨map, rfl, hall⟩
      have hfind : fields.find? (fun field => (objGet? field map).isNone) = none := by
        rw [List.find?_eq_none]
        intro x hx
        have := hall x hx
        simp [Option.isNone_iff_eq_none]
        exact Option.isSome_iff_ne_none.mp this
      simp [hfind]
  · simp [validateRetshape, h]
  · revert h
    unfold validateRetshape
    match meta.retshape with
    | .scalar =>
      intro h
      by_cases hc : values.length ≠ 1
      · simp [hc] at h
        exact ⟨_, h.symm⟩
      · simp [hc] at h
    | .either allowed =>
      intro h
      by_cases hc : values.length ≠ 1
      · simp [hc] at h; exact ⟨_, h.symm⟩
      · simp only [hc, if_false] at h
        match values with
        | [Value.str s] =>
          by_cases hm : allowed.any (fun item => item == s)
          · simp [hm] at h
          · simp [hm] at h
            exact ⟨_, h.symm⟩
        | [] => simp at hc
        | [Value.null] | [Value.bool _] | [Value.num _] | [Value.obj _]
        | [Value.func _] | [Value.error _ _] => simp at h; exact ⟨_, h.symm⟩
        | v1 :: v2 :: rest => simp at hc
    | .record fields' =>
      intro h
      by_cases hc : values.length ≠ 1
      · simp [hc] at h; exact ⟨_, h.symm⟩
      · simp only [hc, if_false] at h
        match values with
        | [Value.obj map] =>
          have h' : (match fields'.find? (fun field => (objGet? field map).isNone) with
              | some field => Except.error (VmError.runtime
                  (meta.name ++ " missing record field '" ++ field ++ "'"))
              | none => (Except.ok () : Except VmError Unit)) = Except.error e := h
          match hfind : fields'.find? (fun field => (objGet? field map).isNone) with
          | none => rw [hfind] at h'; simp at h'
          | some f => rw [hfind] at h'; simp at h'; exact ⟨_, h'.symm⟩
        | [] => simp at hc
        | [Value.null] | [Value.bool _] | [Value.num _] | [Value.str _]
        | [Value.func _] | [Value.error _ _] => simp at h; exact ⟨_, h.symm⟩
        | v1 :: v2 :: rest => simp at hc
    | .any => intro h; simp at h

/-- Witness for C4: a scalar shape accepts exactly one return and rejects
an empty return vector with a `Runtime` error; `Any` accepts anything. -/
theorem exit_validates_retshape_witness :
    validateRetshape ⟨"main", 0, 1, .scalar⟩ [Value.null] = .ok () ∧
    validateRetshape ⟨"main", 0, 2, .any⟩ [] = .ok () := by
  constructor
  · exact ((exit_validates_retshape unitArith 0 (Vm.new ⟨false, false⟩)
      exAddModule exFrame [] ⟨"main", 0, 1, .scalar⟩ [Value.null] [] []
      (.runtime "")).2.1 rfl).mpr (by simp)
  · exact (exit_validates_retshape unitArith 0 (Vm.new ⟨false, false⟩)
      exAddModule exFrame [] ⟨"main", 0, 2, .any⟩ [] [] []
      (.runtime "")).2.2.2.2.1 rfl

/-! ## C3: division by zero -/

/-- **C3.**  Executing a `Div` whose divisor evaluates to the number zero
raises a throw with code `div_zero` and message `division by zero` and
stores nothing (no NaN/infinite quotient reaches the out slot): with an
empty try-stack the call fails with `VmError::Thrown`; with a non-empty
try-stack the innermost handler catches it — an `Error` value is written
to `Err(0)`, the handler is popped, and execution resumes at the handler
pc with the rest of the frame unchanged. -/
theorem div_by_zero_throws (fa : FloatArith) (n : Nat) (vm : Vm)
    (module : CompiledModule) (frame : Frame) (globals : List Value)
    (a b out : Slot) (z : Nat)
    (hinstr : frame.code.get? frame.pc = some (.div a b out))
    (hdiv : (frame.get b globals).bind Value.asNum = .ok z)
    (hzero : f64Eq z f64PosZero) :
    (frame.tryStack = [] →
      interpLoop fa (n + 1) vm module frame globals =
        (vm, globals, .err (.thrown "div_zero" "division by zero"))) ∧
    (∀ handlerPc rest, frame.tryStack = handlerPc :: rest →
      interpLoop fa (n + 1) vm module frame globals =
        interpLoop fa n vm module
          { frame with tryStack := rest
                       err := setVecSlot frame.err 0 (.error "div_zero" "division by zero")
                       pc := handlerPc } globals) := by
  constructor
  · intro hstack
    rw [interpLoop, hinstr]
    simp only [hdiv, hzero, if_true, Frame.handleThrow, hstack]
  · intro handlerPc rest hstack
    rw [interpLoop, hinstr]
    simp only [hdiv, hzero, if_true, Frame.handleThrow, hstack, Frame.set]

/-- Witness for C3: the uncaught divide-by-zero frame fails with the
thrown `div_zero`; the frame with an installed handler resumes at pc 5
with the error seated in `Err(0)`. -/
theorem div_by_zero_throws_witness :
    (interpLoop unitArith 4 (Vm.new ⟨false, false⟩) exDivUncaughtModule
        exDivFrame [] =
      (Vm.new ⟨false, false⟩, [], .err (.thrown "div_zero" "division by zero"))) ∧
    (interpLoop unitArith 4 (Vm.new ⟨false, false⟩) exDivCatchModule
        exDivCatchFrame [] =
      interpLoop unitArith 3 (Vm.new ⟨false, false⟩) exDivCatchModule
        { exDivCatchFrame with
            tryStack := []
            err := setVecSlot exDivCatchFrame.err 0
              (.error "div_zero" "division by zero")
            pc := 5 } []) := by
  constructor
  · exact (div_by_zero_throws unitArith 3 (Vm.new ⟨false, false⟩)
      exDivUncaughtModule exDivFrame [] (.loc 0) (.loc 1) (.ret 0) f64PosZero
      rfl rfl (by decide)).1 rfl
  · exact (div_by_zero_throws unitArith 3 (Vm.new ⟨false, false⟩)
      exDivCatchModule exDivCatchFrame [] (.loc 0) (.loc 1) (.ret 0) f64PosZero
      rfl rfl (by decide)).2 5 [] rfl

/-! ## C6: the `Eq` instruction

The claim says numbers compare "by bit-equal float comparison (so two NaN
operands with identical bits compare equal, and 0.0 versus -0.0 compare
unequal)".  The derived `PartialEq` the code actually uses compares `f64`
payloads with IEEE-754 `==`: bit-identical NaNs compare *unequal* and
`0.0 == -0.0` compares *equal*. -/

/-- **C6 counterexample.**  Running `exEqModule` — which `Eq`-compares
`Num(0.0)` with `Num(-0.0)` into `Ret(0)` and a bit-identical NaN with
itself into `Ret(1)` — returns `[Bool true, Bool false]`; the claim, as
stated, predicts `[Bool false, Bool true]`. -/
theorem eq_bit_equal_counterexample :
    (runMain unitArith 20 (Vm.new ⟨false, false⟩) exEqModule).2 =
      .ok ⟨[.bool true, .bool false], []⟩ ∧
    (runMain unitArith 20 (Vm.new ⟨false, false⟩) exEqModule).2 ≠
      .ok ⟨[.bool false, .bool true], []⟩ := by
  constructor
  · rfl
  · intro h
    have h1 : (runMain unitArith 20 (Vm.new ⟨false, false⟩) exEqModule).2 =
      .ok ⟨[.bool true, .bool false], []⟩ := rfl
    rw [h1] at h
    injection h with h2
    injection h2 with h3 h4
    injection h3 with h5 h6
    injection h5 with h7
    exact Bool.noConfusion h7

/-- **C6 (amended).**  The `Eq` instruction stores into the out slot the
`Bool` of structural equality on runtime values, where strings compare by
content, objects by pointwise key/value equality, function handles by id,
and numbers by IEEE-754 float equality: a NaN is unequal to everything —
itself, bit-identically, included — and `0.0` equals `-0.0`. -/
theorem eq_structural_ieee (fa : FloatArith) (n : Nat) (vm : Vm)
    (module : CompiledModule) (frame : Frame) (globals : List Value)
    (a b out : Slot) (va vb : Value)
    (hinstr : frame.code.get? frame.pc = some (.eq a b out))
    (ha : frame.get a globals = .ok va)
    (hb : frame.get b globals = .ok vb) :
    (interpLoop fa (n + 1) vm module frame globals =
      (let fg := frame.set out (.bool (valueEq va vb)) globals
       interpLoop fa n vm module { fg.1 with pc := fg.1.pc + 1 } fg.2)) ∧
    (∀ s1 s2 : String, valueEq (.str s1) (.str s2) = (s1 == s2)) ∧
    (∀ x y : Nat, valueEq (.num x) (.num y) = f64Eq x y) ∧
    (∀ x : Nat, f64IsNan x → valueEq (.num x) (.num x) = false) ∧
    (valueEq (.num f64PosZero) (.num f64NegZero) = true) ∧
    (∀ i j : Nat, valueEq (.func i) (.func j) = (i == j)) ∧
    (∀ xs ys, valueEq (.obj xs) (.obj ys) = valueListEq xs ys) := by
  refine ⟨?_, fun s1 s2 => rfl, fun x y => rfl, fun x hx => ?_, by decide,
    fun i j => rfl, fun xs ys => rfl⟩
  · rw [interpLoop, hinstr]
    simp only [ha, hb]
  · simp [valueEq, f64Eq, hx]

/-- Witness for C6 (amended): one `Eq` step on the counterexample frame
stores `Bool (valueEq (Num 0.0) (Num (-0.0)))`. -/
theorem eq_structural_ieee_witness :
    interpLoop unitArith 4 (Vm.new ⟨false, false⟩) exEqModule exEqFrame [] =
      (let fg := exEqFrame.set (.ret 0)
        (.bool (valueEq (.num f64PosZero) (.num f64NegZero))) []
       interpLoop unitArith 3 (Vm.new ⟨false, false⟩) exEqModule
        { fg.1 with pc := fg.1.pc + 1 } fg.2) :=
  (eq_structural_ieee unitArith 3 (Vm.new ⟨false, false⟩) exEqModule exEqFrame
    [] (.loc 0) (.loc 1) (.ret 0) (.num f64PosZero) (.num f64NegZero)
    rfl rfl rfl).1

/-! ## C7: `core::obj::set` takes an inline string key, `core::obj::get`
and `core::obj::has` take a runtime key slot

The compiler and the VM (and the VM's own tests) treat the `ObjSet` key
as an inline `String` captured at compile time, exactly as the claim
states; crate `imp-ir` however declares `Instr::ObjSet { key: Slot, … }`
(and `imp-bytecode` serializes that field with `write_slot`), which cannot
hold the string the compiler stores — the crates contradict each other,
so this is recorded as a code bug in `imp-ir`/`imp-bytecode`.  The
theorem below proves the claim's content on the compiler/VM semantics. -/

/-- **C7.**  Lowering `core::obj::set` captures the `key` argument as an
inline string constant in the emitted `ObjSet` (the runtime insertion
then uses exactly that literal), with `out` defaulting to the `obj` slot;
lowering `core::obj::get`/`core::obj::has` with a literal key materializes
it into a fresh temp local through an emitted `StoreConst` and passes that
runtime slot. -/
theorem objset_inline_key_objget_runtime_slot (castU32 : Nat → Nat)
    (fa : FloatArith) (n : Nat) (vm : Vm) (module : CompiledModule)
    (frame : Frame) (globals : List Value) (call : Call) (st : LowerSt)
    (k : String) (objSlot valueSlot outSlot tmp keySlot outS : Slot)
    (env1 env2 env3 : SlotEnv) (b1 b2 b3 : ModuleBuilder)
    (map : List (String × Value)) (v : Value) :
    (call.target = "core::obj::set" →
      resolveNamedRef call "obj" st.env st.builder = .ok (objSlot, env1, b1) →
      getStringArg call "key" = .ok k →
      resolveNamedRef call "value" env1 b1 = .ok (valueSlot, env2, b2) →
      call.arg "out" = none →
      lowerCall castU32 call st =
        .ok { st with env := env2, builder := b2, code := st.code ++ [.objSet objSlot k valueSlot objSlot] }) ∧
    (call.target = "core::obj::get" →
      resolveNamedRef call "obj" st.env st.builder = .ok (objSlot, env1, b1) →
      call.arg "key" = some (.str k) →
      env1.resolveTempLocal "const" = (tmp, env2) →
      resolveNamedRef call "out" env2 b1 = .ok (outSlot, env3, b3) →
      lowerCall castU32 call st =
        .ok { st with env := env3, builder := b3, code := st.code ++ [.storeConst tmp (.str k), .objGet objSlot tmp outSlot] }) ∧
    (call.target = "core::obj::has" →
      resolveNamedRef call "obj" st.env st.builder = .ok (objSlot, env1, b1) →
      call.arg "key" = some (.str k) →
      env1.resolveTempLocal "const" = (tmp, env2) →
      resolveNamedRef call "out" env2 b1 = .ok (outSlot, env3, b3) →
      lowerCall castU32 call st =
        .ok { st with env := env3, builder := b3, code := st.code ++ [.storeConst tmp (.str k), .objHas objSlot tmp outSlot] }) ∧
    (frame.code.get? frame.pc = some (.objSet keySlot k valueSlot outS) →
      frame.get keySlot globals = .ok (.obj map) →
      frame.get valueSlot globals = .ok v →
      interpLoop fa (n + 1) vm module frame globals =
        (let fg := frame.set outS (.obj (objInsert k v map)) globals
         interpLoop fa n vm module { fg.1 with pc := fg.1.pc + 1 } fg.2)) := by
  refine ⟨fun hT hObj hKey hValue hOut => ?_, fun hT hObj hKey hTmp hOut => ?_,
    fun hT hObj hKey hTmp hOut => ?_, fun hinstr hobj hval => ?_⟩
  · simp only [lowerCall, hT]
    rw [if_neg (by decide)]
    simp [hObj, hKey, hValue, hOut]
  · simp only [lowerCall, hT]
    rw [if_neg (by decide)]
    simp [hObj, hKey, resolveAtomToSlot, hTmp, lowerConst, hOut]
  · simp only [lowerCall, hT]
    rw [if_neg (by decide)]
    simp [hObj, hKey, resolveAtomToSlot, hTmp, lowerConst, hOut]
  · rw [interpLoop, hinstr]
    simp only [hobj, hval]

/-- Witness for C7 at the concrete calls `exObjSetCall` / `exObjGetCall`
lowered in a fresh slot environment. -/
theorem objset_inline_key_objget_runtime_slot_witness :
    (lowerCall id exObjSetCall
      { env := SlotEnv.new [] 0, builder := ModuleBuilder.new "main",
        code := [], labels := [], pendingJumps := [], pendingBranches := [],
        pendingTry := [] }).map (fun st => st.code) =
      .ok [.objSet (.loc 0) "name" (.loc 1) (.loc 0)] ∧
    (lowerCall id exObjGetCall
      { env := SlotEnv.new [] 0, builder := ModuleBuilder.new "main",
        code := [], labels := [], pendingJumps := [], pendingBranches := [],
        pendingTry := [] }).map (fun st => st.code) =
      .ok [.storeConst (.loc 1) (.str "name"), .objGet (.loc 0) (.loc 1) (.loc 2)] := by
  constructor
  · rw [(objset_inline_key_objget_runtime_slot id unitArith 0
      (Vm.new ⟨false, false⟩) exAddModule exFrame [] exObjSetCall
      { env := SlotEnv.new [] 0, builder := ModuleBuilder.new "main",
        code := [], labels := [], pendingJumps := [], pendingBranches := [],
        pendingTry := [] } "name" (.loc 0) (.loc 1) (.loc 0) (.loc 0) (.loc 0)
      (.loc 0)
      ((SlotEnv.new [] 0).resolveLocal "m").2
      ((((SlotEnv.new [] 0).resolveLocal "m").2).resolveLocal "v").2
      ((((SlotEnv.new [] 0).resolveLocal "m").2).resolveLocal "v").2
      (ModuleBuilder.new "main") (ModuleBuilder.new "main")
      (ModuleBuilder.new "main") [] Value.null).1 rfl rfl rfl rfl rfl]
    rfl
  · rw [(objset_inline_key_objget_runtime_slot id unitArith 0
      (Vm.new ⟨false, false⟩) exAddModule exFrame [] exObjGetCall
      { env := SlotEnv.new [] 0, builder := ModuleBuilder.new "main",
        code := [], labels := [], pendingJumps := [], pendingBranches := [],
        pendingTry := [] } "name" (.loc 0) (.loc 1) (.loc 2) (.loc 1) (.loc 0)
      (.loc 0)
      ((SlotEnv.new [] 0).resolveLocal "m").2
      (((((SlotEnv.new [] 0).resolveLocal "m").2).resolveTempLocal "const")).2
      (((((((SlotEnv.new [] 0).resolveLocal "m").2).resolveTempLocal "const")).2).resolveLocal "v").2
      (ModuleBuilder.new "main") (ModuleBuilder.new "main")
      (ModuleBuilder.new "main") [] Value.null).2.1 rfl rfl rfl rfl rfl]
    rfl

/-! ## C8: `@safe core::div` macro expansion -/

/-- **C8.**  A call annotated `@safe` targeting `core::div` whose `out`
is a ref atom expands to exactly the seven-call sequence — try-push bound
to `__safe_handler_n`, the division with annotations cleared, a jump to
`__safe_end_n`, the handler label, a null `core::const` into the div's
`out` ref, the end label, try-pop — with the counter `n` passed to the
rest of the pass incremented; when `out` is absent or not a ref the pass
fails at the call's line with the message `@safe core::div requires
out=<ref>`, which contains `requires out=<ref>`. -/
theorem safe_div_macro_expansion (counter : Nat) (call : Call)
    (rest : List Call) (outRef : RefPath) :
    (call.annos.any (fun anno => anno == annoSafe) = true →
      call.target = "core::div" →
      call.arg "out" = some (.ref outRef) →
      expandMacrosAux counter (call :: rest) =
        match expandMacrosAux (counter + 1) rest with
        | .ok out => .ok (
            [ { annos := [], target := "core::try::push",
                args := [⟨"handler", .str ("__safe_handler_" ++ toString counter)⟩],
                line := call.line }
            , { call with annos := [] }
            , { annos := [], target := "core::jump",
                args := [⟨"target", .str ("__safe_end_" ++ toString counter)⟩],
                line := call.line }
            , { annos := [], target := "core::label",
                args := [⟨"name", .str ("__safe_handler_" ++ toString counter)⟩],
                line := call.line }
            , { annos := [], target := "core::const",
                args := [⟨"out", .ref outRef⟩, ⟨"value", .null⟩],
                line := call.line }
            , { annos := [], target := "core::label",
                args := [⟨"name", .str ("__safe_end_" ++ toString counter)⟩],
                line := call.line }
            , { annos := [], target := "core::try::pop", args := [],
                line := call.line } ] ++ out)
        | .error e => .error e) ∧
    (call.annos.any (fun anno => anno == annoSafe) = true →
      call.target = "core::div" →
      (∀ p : RefPath, call.arg "out" ≠ some (.ref p)) →
      expandMacrosAux counter (call :: rest) =
        .error ⟨call.line, "@safe core::div requires out=<ref>"⟩) ∧
    ("@safe core::div requires out=<ref>" =
      "@safe core::div " ++ "requires out=<ref>" ++ "") := by
  refine ⟨fun hAnno hT hOut => ?_, fun hAnno hT hOut => ?_, by decide⟩
  · rw [expandMacrosAux]
    rw [if_neg (by simp [hAnno])]
    rw [if_neg (by simp [hT])]
    rw [hOut]
    cases expandMacrosAux (counter + 1) rest <;> rfl
  · rw [expandMacrosAux]
    rw [if_neg (by simp [hAnno])]
    rw [if_neg (by simp [hT])]
    match hArg : call.arg "out" with
    | none => rfl
    | some (.ref p) => exact absurd hArg (hOut p)
    | some .null | some (.bool _) | some (.num _) | some (.str _) => rfl

/-- Witness for C8: the concrete `@safe core::div` call expands to the
seven-call sequence, and the non-ref `out` variant fails with the
`requires out=<ref>` message. -/
theorem safe_div_macro_expansion_witness :
    (expandMacrosAux 0 [exSafeDivCall] =
      match expandMacrosAux 1 [] with
      | .ok out => .ok (
          [ { annos := [], target := "core::try::push",
              args := [⟨"handler", .str ("__safe_handler_" ++ toString 0)⟩],
              line := exSafeDivCall.line }
          , { exSafeDivCall with annos := [] }
          , { annos := [], target := "core::jump",
              args := [⟨"target", .str ("__safe_end_" ++ toString 0)⟩],
              line := exSafeDivCall.line }
          , { annos := [], target := "core::label",
              args := [⟨"name", .str ("__safe_handler_" ++ toString 0)⟩],
              line := exSafeDivCall.line }
          , { annos := [], target := "core::const",
              args := [⟨"out", .ref ⟨"local", "c"⟩⟩, ⟨"value", .null⟩],
              line := exSafeDivCall.line }
          , { annos := [], target := "core::label",
              args := [⟨"name", .str ("__safe_end_" ++ toString 0)⟩],
              line := exSafeDivCall.line }
          , { annos := [], target := "core::try::pop", args := [],
              line := exSafeDivCall.line } ] ++ out)
      | .error e => .error e) ∧
    expandMacrosAux 0 [exSafeDivBadCall] =
      .error ⟨exSafeDivBadCall.line, "@safe core::div requires out=<ref>"⟩ := by
  constructor
  · exact (safe_div_macro_expansion 0 exSafeDivCall [] ⟨"local", "c"⟩).1
      (by decide) rfl rfl
  · exact (safe_div_macro_expansion 0 exSafeDivBadCall [] ⟨"local", "c"⟩).2.1
      (by decide) rfl
      (fun p hp => by
        rw [show exSafeDivBadCall.arg "out" = some (.str "local::c") from rfl] at hp
        injection hp with hp
        exact Atom.noConfusion hp)

/-! ## C5: patched label pcs are bounded by the code length -/

theorem instrPcBound_mono (i : Instr) (L L' : Nat) (h : L ≤ L') :
    instrPcBound i L → instrPcBound i L' := by
  cases i <;> simp [instrPcBound] <;> omega

theorem lowerInv_append (code : List Instr) (labels : List (String × Nat))
    (i : Instr) (hb : ∀ L, instrPcBound i L) (h : LowerInv code labels) :
    LowerInv (code ++ [i]) labels := by
  refine ⟨fun p hp => le_trans (h.1 p hp) (by simp), fun j hj => ?_⟩
  rcases List.mem_append.mp hj with hm | hm
  · exact instrPcBound_mono j _ _ (by simp) (h.2 j hm)
  · rw [List.mem_singleton.mp hm]
    exact hb _

theorem mem_mapInsert (m : List (String × Nat)) (k : String) (v : Nat)
    (p : String × Nat) (hp : p ∈ mapInsert m k v) : p ∈ m ∨ p = (k, v) := by
  unfold mapInsert at hp
  split at hp
  · rcases List.mem_map.mp hp with ⟨q, hq, hqe⟩
    by_cases hk : (q.1 == k) = true
    · right; rw [if_pos hk] at hqe; exact hqe.symm
    · left; rw [if_neg hk] at hqe; exact hqe ▸ hq
  · rcases List.mem_append.mp hp with hm | hm
    · exact Or.inl hm
    · exact Or.inr (List.mem_singleton.mp hm)

theorem lowerInv_label (code : List Instr) (labels : List (String × Nat))
    (name : String) (h : LowerInv code labels) :
    LowerInv code (mapInsert labels name code.length) := by
  refine ⟨fun p hp => ?_, h.2⟩
  rcases mem_mapInsert labels name code.length p hp with hm | hm
  · exact h.1 p hm
  · rw [hm]

theorem resolveAtomToSlot_lowerInv (atom : Atom) (env : SlotEnv)
    (builder : ModuleBuilder) (code : List Instr) (line : Nat) (s : Slot)
    (e : SlotEnv) (b2 : ModuleBuilder) (code' : List Instr)
    (labels : List (String × Nat))
    (heq : resolveAtomToSlot atom env builder code line = .ok (s, e, b2, code'))
    (h : LowerInv code labels) : LowerInv code' labels := by
  cases atom with
  | ref path =>
    simp only [resolveAtomToSlot] at heq
    injection heq with heq
    simp only [Prod.mk.injEq] at heq
    obtain ⟨-, -, -, hcode⟩ := heq
    rw [← hcode]
    exact h
  | null | bool _ | num _ | str _ =>
    simp only [resolveAtomToSlot, lowerConst] at heq
    injection heq with heq
    simp only [Prod.mk.injEq] at heq
    obtain ⟨-, -, -, hcode⟩ := heq
    rw [← hcode]
    exact lowerInv_append code labels _ (fun L => by simp [instrPcBound]) h

theorem lowerCall_lowerInv (castU32 : Nat → Nat) (call : Call)
    (st st' : LowerSt) (h : lowerCall castU32 call st = .ok st')
    (hinv : LowerInv st.code st.labels) : LowerInv st'.code st'.labels := by
  delta lowerCall at h
  by_cases h1 : (!isCoreTarget call.target) = true
  · rw [if_pos h1] at h
    repeat' split at h
    all_goals
      first
      | exact Except.noConfusion h
      | (cases h
         first
         | exact hinv
         | exact lowerInv_label st.code st.labels _ hinv
         | exact lowerInv_append st.code st.labels _
             (fun L => by simp [instrPcBound]) hinv)
  · rw [if_neg h1] at h
    by_cases h2 : call.target = "core::const"
    · rw [if_pos h2] at h
      repeat' split at h
      all_goals
        first
        | exact Except.noConfusion h
        | (cases h
           first
           | exact hinv
           | exact lowerInv_label st.code st.labels _ hinv
           | exact lowerInv_append st.code st.labels _
               (fun L => by simp [instrPcBound]) hinv)
    · rw [if_neg h2] at h
      by_cases h3 : call.target = "core::mov"
      · rw [if_pos h3] at h
        repeat' split at h
        all_goals
          first
          | exact Except.noConfusion h
          | (cases h
             first
             | exact hinv
             | exact lowerInv_label st.code st.labels _ hinv
             | exact lowerInv_append st.code st.labels _
                 (fun L => by simp [instrPcBound]) hinv)
      · rw [if_neg h3] at h
        by_cases h4 : call.target = "core::add" ∨ call.target = "core::sub" ∨ call.target = "core::mul" ∨ call.target = "core::div" ∨ call.target = "core::eq" ∨ call.target = "core::lt"
        · rw [if_pos h4] at h
          repeat' split at h
          all_goals
            first
            | exact Except.noConfusion h
            | (cases h
               first
               | exact hinv
               | exact lowerInv_label st.code st.labels _ hinv
               | exact lowerInv_append st.code st.labels _
                   (fun L => by simp [instrPcBound]) hinv)
        · rw [if_neg h4] at h
          by_cases h5 : call.target = "core::label"
          · rw [if_pos h5] at h
            repeat' split at h
            all_goals
              first
              | exact Except.noConfusion h
              | (cases h
                 first
                 | exact hinv
                 | exact lowerInv_label st.code st.labels _ hinv
                 | exact lowerInv_append st.code st.labels _
                     (fun L => by simp [instrPcBound]) hinv)
          · rw [if_neg h5] at h
            by_cases h6 : call.target = "core::jump"
            · rw [if_pos h6] at h
              repeat' split at h
              all_goals
                first
                | exact Except.noConfusion h
                | (cases h
                   first
                   | exact hinv
                   | exact lowerInv_label st.code st.labels _ hinv
                   | exact lowerInv_append st.code st.labels _
                       (fun L => by simp [instrPcBound]) hinv)
            · rw [if_neg h6] at h
              by_cases h7 : call.target = "core::br"
              · rw [if_pos h7] at h
                repeat' split at h
                all_goals
                  first
                  | exact Except.noConfusion h
                  | (cases h
                     first
                     | exact hinv
                     | exact lowerInv_label st.code st.labels _ hinv
                     | exact lowerInv_append st.code st.labels _
                         (fun L => by simp [instrPcBound]) hinv)
              · rw [if_neg h7] at h
                by_cases h8 : call.target = "core::invoke"
                · rw [if_pos h8] at h
                  repeat' split at h
                  all_goals
                    first
                    | exact Except.noConfusion h
                    | (cases h
                       first
                       | exact hinv
                       | exact lowerInv_label st.code st.labels _ hinv
                       | exact lowerInv_append st.code st.labels _
                           (fun L => by simp [instrPcBound]) hinv)
                · rw [if_neg h8] at h
                  by_cases h9 : call.target = "core::ret::set"
                  · rw [if_pos h9] at h
                    repeat' split at h
                    all_goals
                      first
                      | exact Except.noConfusion h
                      | (cases h
                         first
                         | exact hinv
                         | exact lowerInv_label st.code st.labels _ hinv
                         | exact lowerInv_append st.code st.labels _
                             (fun L => by simp [instrPcBound]) hinv)
                  · rw [if_neg h9] at h
                    by_cases h10 : call.target = "core::exit"
                    · rw [if_pos h10] at h
                      repeat' split at h
                      all_goals
                        first
                        | exact Except.noConfusion h
                        | (cases h
                           first
                           | exact hinv
                           | exact lowerInv_label st.code st.labels _ hinv
                           | exact lowerInv_append st.code st.labels _
                               (fun L => by simp [instrPcBound]) hinv)
                    · rw [if_neg h10] at h
                      by_cases h11 : call.target = "core::throw"
                      · rw [if_pos h11] at h
                        repeat' split at h
                        all_goals
                          first
                          | exact Except.noConfusion h
                          | (cases h
                             first
                             | exact hinv
                             | exact lowerInv_label st.code st.labels _ hinv
                             | exact lowerInv_append st.code st.labels _
                                 (fun L => by simp [instrPcBound]) hinv)
                      · rw [if_neg h11] at h
                        by_cases h12 : call.target = "core::try::push"
                        · rw [if_pos h12] at h
                          repeat' split at h
                          all_goals
                            first
                            | exact Except.noConfusion h
                            | (cases h
                               first
                               | exact hinv
                               | exact lowerInv_label st.code st.labels _ hinv
                               | exact lowerInv_append st.code st.labels _
                                   (fun L => by simp [instrPcBound]) hinv)
                        · rw [if_neg h12] at h
                          by_cases h13 : call.target = "core::try::pop"
                          · rw [if_pos h13] at h
                            repeat' split at h
                            all_goals
                              first
                              | exact Except.noConfusion h
                              | (cases h
                                 first
                                 | exact hinv
                                 | exact lowerInv_label st.code st.labels _ hinv
                                 | exact lowerInv_append st.code st.labels _
                                     (fun L => by simp [instrPcBound]) hinv)
                          · rw [if_neg h13] at h
                            by_cases h14 : call.target = "core::obj::new"
                            · rw [if_pos h14] at h
                              repeat' split at h
                              all_goals
                                first
                                | exact Except.noConfusion h
                                | (cases h
                                   first
                                   | exact hinv
                                   | exact lowerInv_label st.code st.labels _ hinv
                                   | exact lowerInv_append st.code st.labels _
                                       (fun L => by simp [instrPcBound]) hinv)
                            · rw [if_neg h14] at h
                              by_cases h15 : call.target = "core::obj::set"
                              · rw [if_pos h15] at h
                                repeat' split at h
                                all_goals
                                  first
                                  | exact Except.noConfusion h
                                  | (cases h
                                     first
                                     | exact hinv
                                     | exact lowerInv_label st.code st.labels _ hinv
                                     | exact lowerInv_append st.code st.labels _
                                         (fun L => by simp [instrPcBound]) hinv)
                              · rw [if_neg h15] at h
                                by_cases h16 : call.target = "core::obj::get"
                                · rw [if_pos h16] at h
                                  cases hobj : resolveNamedRef call "obj" st.env st.builder with
                                  | error e => rw [hobj] at h; exact Except.noConfusion h
                                  | ok trip =>
                                    obtain ⟨objS, env1, b1⟩ := trip
                                    rw [hobj] at h; simp only [] at h
                                    cases hkey : call.arg "key" with
                                    | none => rw [hkey] at h; exact Except.noConfusion h
                                    | some keyAtom =>
                                      rw [hkey] at h; simp only [] at h
                                      cases hats : resolveAtomToSlot keyAtom env1 b1 st.code call.line with
                                      | error e => rw [hats] at h; exact Except.noConfusion h
                                      | ok quad =>
                                        obtain ⟨keyS, env2, b2, code2⟩ := quad
                                        rw [hats] at h; simp only [] at h
                                        cases hout : resolveNamedRef call "out" env2 b2 with
                                        | error e => rw [hout] at h; exact Except.noConfusion h
                                        | ok trip2 =>
                                          obtain ⟨outS, env3, b3⟩ := trip2
                                          rw [hout] at h; simp only [] at h
                                          cases h
                                          exact lowerInv_append _ st.labels _ (fun L => by simp [instrPcBound])
                                            (resolveAtomToSlot_lowerInv _ _ _ _ _ _ _ _ _ st.labels hats hinv)
                                · rw [if_neg h16] at h
                                  by_cases h17 : call.target = "core::obj::has"
                                  · rw [if_pos h17] at h
                                    cases hobj : resolveNamedRef call "obj" st.env st.builder with
                                    | error e => rw [hobj] at h; exact Except.noConfusion h
                                    | ok trip =>
                                      obtain ⟨objS, env1, b1⟩ := trip
                                      rw [hobj] at h; simp only [] at h
                                      cases hkey : call.arg "key" with
                                      | none => rw [hkey] at h; exact Except.noConfusion h
                                      | some keyAtom =>
                                        rw [hkey] at h; simp only [] at h
                                        cases hats : resolveAtomToSlot keyAtom env1 b1 st.code call.line with
                                        | error e => rw [hats] at h; exact Except.noConfusion h
                                        | ok quad =>
                                          obtain ⟨keyS, env2, b2, code2⟩ := quad
                                          rw [hats] at h; simp only [] at h
                                          cases hout : resolveNamedRef call "out" env2 b2 with
                                          | error e => rw [hout] at h; exact Except.noConfusion h
                                          | ok trip2 =>
                                            obtain ⟨outS, env3, b3⟩ := trip2
                                            rw [hout] at h; simp only [] at h
                                            cases h
                                            exact lowerInv_append _ st.labels _ (fun L => by simp [instrPcBound])
                                              (resolveAtomToSlot_lowerInv _ _ _ _ _ _ _ _ _ st.labels hats hinv)
                                  · rw [if_neg h17] at h
                                    by_cases h18 : call.target = "core::str::concat"
                                    · rw [if_pos h18] at h
                                      cases harga : call.arg "a" with
                                      | none => rw [harga] at h; exact Except.noConfusion h
                                      | some aAtom =>
                                        rw [harga] at h; simp only [] at h
                                        cases hatsa : resolveAtomToSlot aAtom st.env st.builder st.code call.line with
                                        | error e => rw [hatsa] at h; exact Except.noConfusion h
                                        | ok quada =>
                                          obtain ⟨aS, env1, b1, code1⟩ := quada
                                          rw [hatsa] at h; simp only [] at h
                                          cases hargb : call.arg "b" with
                                          | none => rw [hargb] at h; exact Except.noConfusion h
                                          | some bAtom =>
                                            rw [hargb] at h; simp only [] at h
                                            cases hatsb : resolveAtomToSlot bAtom env1 b1 code1 call.line with
                                            | error e => rw [hatsb] at h; exact Except.noConfusion h
                                            | ok quadb =>
                                              obtain ⟨bS, env2, b2, code2⟩ := quadb
                                              rw [hatsb] at h; simp only [] at h
                                              cases hout : resolveNamedRef call "out" env2 b2 with
                                              | error e => rw [hout] at h; exact Except.noConfusion h
                                              | ok trip2 =>
                                                obtain ⟨outS, env3, b3⟩ := trip2
                                                rw [hout] at h; simp only [] at h
                                                cases h
                                                exact lowerInv_append _ st.labels _ (fun L => by simp [instrPcBound])
                                                  (resolveAtomToSlot_lowerInv _ _ _ _ _ _ _ _ _ st.labels hatsb
                                                    (resolveAtomToSlot_lowerInv _ _ _ _ _ _ _ _ _ st.labels hatsa hinv))
                                    · rw [if_neg h18] at h
                                      by_cases h19 : call.target = "core::str::len"
                                      · rw [if_pos h19] at h
                                        cases hargv : call.arg "value" with
                                        | none => rw [hargv] at h; exact Except.noConfusion h
                                        | some valueAtom =>
                                          rw [hargv] at h; simp only [] at h
                                          cases hats : resolveAtomToSlot valueAtom st.env st.builder st.code call.line with
                                          | error e => rw [hats] at h; exact Except.noConfusion h
                                          | ok quad =>
                                            obtain ⟨valueS, env2, b2, code2⟩ := quad
                                            rw [hats] at h; simp only [] at h
                                            cases hout : resolveNamedRef call "out" env2 b2 with
                                            | error e => rw [hout] at h; exact Except.noConfusion h
                                            | ok trip2 =>
                                              obtain ⟨outS, env3, b3⟩ := trip2
                                              rw [hout] at h; simp only [] at h
                                              cases h
                                              exact lowerInv_append _ st.labels _ (fun L => by simp [instrPcBound])
                                                (resolveAtomToSlot_lowerInv _ _ _ _ _ _ _ _ _ st.labels hats hinv)
                                      · rw [if_neg h19] at h
                                        by_cases h20 : call.target = "core::host::print"
                                        · rw [if_pos h20] at h
                                          repeat' split at h
                                          all_goals
                                            first
                                            | exact Except.noConfusion h
                                            | (cases h
                                               first
                                               | exact hinv
                                               | exact lowerInv_label st.code st.labels _ hinv
                                               | exact lowerInv_append st.code st.labels _
                                                   (fun L => by simp [instrPcBound]) hinv)
                                        · rw [if_neg h20] at h
                                          by_cases h21 : call.target = "core::import" ∨ call.target = "core::mod::export"
                                          · rw [if_pos h21] at h
                                            repeat' split at h
                                            all_goals
                                              first
                                              | exact Except.noConfusion h
                                              | (cases h
                                                 first
                                                 | exact hinv
                                                 | exact lowerInv_label st.code st.labels _ hinv
                                                 | exact lowerInv_append st.code st.labels _
                                                     (fun L => by simp [instrPcBound]) hinv)
                                          · rw [if_neg h21] at h
                                            by_cases h22 : call.target = "core::fn::begin" ∨ call.target = "core::fn::end"
                                            · rw [if_pos h22] at h
                                              repeat' split at h
                                              all_goals
                                                first
                                                | exact Except.noConfusion h
                                                | (cases h
                                                   first
                                                   | exact hinv
                                                   | exact lowerInv_label st.code st.labels _ hinv
                                                   | exact lowerInv_append st.code st.labels _
                                                       (fun L => by simp [instrPcBound]) hinv)
                                            · rw [if_neg h22] at h
                                              exact Except.noConfusion h


theorem mapGet_bound (m : List (String × Nat)) (k : String) (v L : Nat)
    (hg : mapGet m k = some v) (hb : ∀ p ∈ m, p.2 ≤ L) : v ≤ L := by
  unfold mapGet at hg
  cases hf : m.find? (fun p => p.1 == k) with
  | none => rw [hf] at hg; exact Option.noConfusion hg
  | some p =>
    rw [hf] at hg
    have hpv : p.2 = v := by simpa using hg
    exact hpv ▸ hb p (List.mem_of_find?_eq_some hf)

theorem lowerCalls_lowerInv (castU32 : Nat → Nat) (calls : List Call) :
    ∀ st st', lowerCalls castU32 calls st = .ok st' →
      LowerInv st.code st.labels → LowerInv st'.code st'.labels := by
  induction calls with
  | nil => intro st st' h hinv; cases h; exact hinv
  | cons call rest ih =>
    intro st st' h hinv
    unfold lowerCalls at h
    cases hc : lowerCall castU32 call st with
    | error e => rw [hc] at h; exact Except.noConfusion h
    | ok st1 =>
      rw [hc] at h
      exact ih st1 st' h (lowerCall_lowerInv castU32 call st st1 hc hinv)

theorem patchJumps_bound (dl : Nat) (labels : List (String × Nat)) (L : Nat)
    (hlab : ∀ p ∈ labels, p.2 ≤ L) :
    ∀ pend code code', code.length = L → (∀ i ∈ code, instrPcBound i L) →
      patchJumps dl labels code pend = .ok code' →
      code'.length = L ∧ ∀ i ∈ code', instrPcBound i L := by
  intro pend
  induction pend with
  | nil => intro code code' hlen hcode h; cases h; exact ⟨hlen, hcode⟩
  | cons pr rest ih =>
    intro code code' hlen hcode h
    obtain ⟨pc, lab⟩ := pr
    unfold patchJumps at h
    cases hm : mapGet labels lab with
    | none => rw [hm] at h; exact Except.noConfusion h
    | some target =>
      rw [hm] at h; simp only [] at h
      have htar : target ≤ L := mapGet_bound labels lab target L hm hlab
      cases hg : code.get? pc with
      | none =>
        rw [hg] at h
        exact ih code code' hlen hcode h
      | some instr =>
        rw [hg] at h
        cases instr
        case jump t =>
          refine ih (code.set pc (Instr.jump target)) code' ?_ ?_ h
          · rw [List.length_set]; exact hlen
          · intro i hi
            rcases List.mem_or_eq_of_mem_set hi with hm2 | hm2
            · exact hcode i hm2
            · rw [hm2]; simpa [instrPcBound] using htar
        all_goals exact ih code code' hlen hcode h

theorem patchBranches_bound (dl : Nat) (labels : List (String × Nat)) (L : Nat)
    (hlab : ∀ p ∈ labels, p.2 ≤ L) :
    ∀ pend code code', code.length = L → (∀ i ∈ code, instrPcBound i L) →
      patchBranches dl labels code pend = .ok code' →
      code'.length = L ∧ ∀ i ∈ code', instrPcBound i L := by
  intro pend
  induction pend with
  | nil => intro code code' hlen hcode h; cases h; exact ⟨hlen, hcode⟩
  | cons pr rest ih =>
    intro code code' hlen hcode h
    obtain ⟨pc, thenLab, elseLab⟩ := pr
    unfold patchBranches at h
    cases hmt : mapGet labels thenLab with
    | none => rw [hmt] at h; exact Except.noConfusion h
    | some thenPc =>
      rw [hmt] at h; simp only [] at h
      cases hme : mapGet labels elseLab with
      | none => rw [hme] at h; exact Except.noConfusion h
      | some elsePc =>
        rw [hme] at h; simp only [] at h
        have hthen : thenPc ≤ L := mapGet_bound labels thenLab thenPc L hmt hlab
        have helse : elsePc ≤ L := mapGet_bound labels elseLab elsePc L hme hlab
        cases hg : code.get? pc with
        | none =>
          rw [hg] at h
          exact ih code code' hlen hcode h
        | some instr =>
          rw [hg] at h
          cases instr
          case branch cond t e =>
            refine ih (code.set pc (Instr.branch cond thenPc elsePc)) code' ?_ ?_ h
            · rw [List.length_set]; exact hlen
            · intro i hi
              rcases List.mem_or_eq_of_mem_set hi with hm2 | hm2
              · exact hcode i hm2
              · rw [hm2]; exact ⟨hthen, helse⟩
          all_goals exact ih code code' hlen hcode h

theorem patchTry_bound (dl : Nat) (labels : List (String × Nat)) (L : Nat)
    (hlab : ∀ p ∈ labels, p.2 ≤ L) :
    ∀ pend code code', code.length = L → (∀ i ∈ code, instrPcBound i L) →
      patchTry dl labels code pend = .ok code' →
      code'.length = L ∧ ∀ i ∈ code', instrPcBound i L := by
  intro pend
  induction pend with
  | nil => intro code code' hlen hcode h; cases h; exact ⟨hlen, hcode⟩
  | cons pr rest ih =>
    intro code code' hlen hcode h
    obtain ⟨pc, lab⟩ := pr
    unfold patchTry at h
    cases hm : mapGet labels lab with
    | none => rw [hm] at h; exact Except.noConfusion h
    | some handlerPc =>
      rw [hm] at h; simp only [] at h
      have htar : handlerPc ≤ L := mapGet_bound labels lab handlerPc L hm hlab
      cases hg : code.get? pc with
      | none =>
        rw [hg] at h
        exact ih code code' hlen hcode h
      | some instr =>
        rw [hg] at h
        cases instr
        case tryPush t =>
          refine ih (code.set pc (Instr.tryPush handlerPc)) code' ?_ ?_ h
          · rw [List.length_set]; exact hlen
          · intro i hi
            rcases List.mem_or_eq_of_mem_set hi with hm2 | hm2
            · exact hcode i hm2
            · rw [hm2]; simpa [instrPcBound] using htar
        all_goals exact ih code code' hlen hcode h

/-- C5 counterexample: compiling a body whose referenced label is declared
after a trailing explicit `core::exit` succeeds, and the jump is patched to
pc = code.len() (here 2, with the final code `[Jump 2, Exit]` of length 2),
so the patched pc does NOT lie within `[0, code.len())` as the claim
states. -/
theorem label_patch_pc_can_equal_len_counterexample :
    compileRawFunction id exTrailingLabelCalls 0 "main" [] RetShape.any 1
        (ModuleBuilder.new "m") 0 = .ok (exPatchedFn, ModuleBuilder.new "m") ∧
      exPatchedFn.code = [Instr.jump 2, Instr.exit] ∧
      ¬ (2 < exPatchedFn.code.length) :=
  ⟨rfl, rfl, by decide⟩

/-- C5 (amended): for every program that compiles successfully, every pc
operand of a `Jump`, `Branch` or `TryPush` instruction in the final emitted
code — in particular every patched label reference — lies within
`[0, code.len()]` (the upper end is attained when the referenced label is
declared after a trailing explicit `core::exit`). -/
theorem label_patch_pc_bounded (castU32 : Nat → Nat) (calls : List Call)
    (funcId : Nat) (name : String) (args : List String) (retshape : RetShape)
    (retCount : Nat) (builder : ModuleBuilder) (defaultLine : Nat)
    (f : CompiledFunction) (b : ModuleBuilder)
    (h : compileRawFunction castU32 calls funcId name args retshape retCount
        builder defaultLine = .ok (f, b)) :
    ∀ i ∈ f.code, instrPcBound i f.code.length := by
  simp only [compileRawFunction] at h
  cases hlc : lowerCalls castU32 calls { env := SlotEnv.new args retCount, builder := builder, code := [], labels := [], pendingJumps := [], pendingBranches := [], pendingTry := [] } with
  | error e => rw [hlc] at h; exact Except.noConfusion h
  | ok st =>
    rw [hlc] at h; simp only [] at h
    have hinv : LowerInv st.code st.labels :=
      lowerCalls_lowerInv castU32 calls _ st hlc ⟨by simp, by simp⟩
    have hinv1 : LowerInv (if st.code.getLast? = some Instr.exit then st.code else st.code ++ [Instr.exit]) st.labels := by
      by_cases hx : st.code.getLast? = some Instr.exit
      · rw [if_pos hx]; exact hinv
      · rw [if_neg hx]
        exact lowerInv_append st.code st.labels Instr.exit (fun L => by simp [instrPcBound]) hinv
    cases hpj : patchJumps defaultLine st.labels (if st.code.getLast? = some Instr.exit then st.code else st.code ++ [Instr.exit]) st.pendingJumps with
    | error e => rw [hpj] at h; exact Except.noConfusion h
    | ok code2 =>
      rw [hpj] at h; simp only [] at h
      obtain ⟨hlen2, hbound2⟩ :=
        patchJumps_bound defaultLine st.labels _ hinv1.1 st.pendingJumps _ code2 rfl hinv1.2 hpj
      cases hpb : patchBranches defaultLine st.labels code2 st.pendingBranches with
      | error e => rw [hpb] at h; exact Except.noConfusion h
      | ok code3 =>
        rw [hpb] at h; simp only [] at h
        obtain ⟨hlen3, hbound3⟩ :=
          patchBranches_bound defaultLine st.labels _ hinv1.1 st.pendingBranches code2 code3 hlen2 hbound2 hpb
        cases hpt : patchTry defaultLine st.labels code3 st.pendingTry with
        | error e => rw [hpt] at h; exact Except.noConfusion h
        | ok code4 =>
          rw [hpt] at h; simp only [] at h
          obtain ⟨hlen4, hbound4⟩ :=
            patchTry_bound defaultLine st.labels _ hinv1.1 st.pendingTry code3 code4 hlen3 hbound3 hpt
          injection h with h1
          injection h1 with hf hb
          subst hf
          show ∀ i ∈ code4, instrPcBound i code4.length
          rw [hlen4]
          exact hbound4

/-- Witness for C5: the amended bound evaluated on the trailing-label
program, whose compiled code is `[Jump 2, Exit]`, at its patched jump. -/
theorem label_patch_pc_bounded_witness :
    instrPcBound (Instr.jump 2) exPatchedFn.code.length :=
  label_patch_pc_bounded id exTrailingLabelCalls 0 "main" [] RetShape.any 1
    (ModuleBuilder.new "m") 0 exPatchedFn (ModuleBuilder.new "m") rfl
    (Instr.jump 2) (by decide)


/-! ## Codec roundtrip lemmas -/

theorem readU8_writeU8 (v : Nat) (h : v < 256) (rest : List Nat) :
    readU8 (writeU8 v ++ rest) = .ok (v, rest) := by
  simp only [writeU8, List.cons_append, List.nil_append, readU8]
  rw [Nat.mod_eq_of_lt h]

theorem readU16_writeU16 (v : Nat) (h : v < 65536) (rest : List Nat) :
    readU16 (writeU16 v ++ rest) = .ok (v, rest) := by
  simp only [writeU16, List.cons_append, List.nil_append, readU16]
  have hv : v % 256 + 256 * (v / 256 % 256) = v := by omega
  rw [hv]

theorem readU32_writeU32 (v : Nat) (h : v < 4294967296) (rest : List Nat) :
    readU32 (writeU32 v ++ rest) = .ok (v, rest) := by
  simp only [writeU32, List.cons_append, List.nil_append, readU32]
  have hv : v % 256 + 256 * (v / 256 % 256) + 65536 * (v / 65536 % 256) +
      16777216 * (v / 16777216 % 256) = v := by omega
  rw [hv]

theorem readU64_writeU64 (v : Nat) (h : v < 18446744073709551616)
    (rest : List Nat) :
    readU64 (writeU64 v ++ rest) = .ok (v, rest) := by
  simp only [writeU64, List.append_assoc, readU64]
  rw [readU32_writeU32 (v % 4294967296) (by omega)]
  simp only []
  rw [readU32_writeU32 (v / 4294967296) (by omega)]
  simp only []
  have hv : v % 4294967296 + 4294967296 * (v / 4294967296) = v := by omega
  rw [hv]

theorem charUtf8_cons (c : Char) : ∃ b0 bs, charUtf8 c = b0 :: bs := by
  simp only [charUtf8]
  by_cases h1 : c.toNat < 128
  · rw [if_pos h1]; exact ⟨_, _, rfl⟩
  · rw [if_neg h1]
    by_cases h2 : c.toNat < 2048
    · rw [if_pos h2]; exact ⟨_, _, rfl⟩
    · rw [if_neg h2]
      by_cases h3 : c.toNat < 65536
      · rw [if_pos h3]; exact ⟨_, _, rfl⟩
      · rw [if_neg h3]; exact ⟨_, _, rfl⟩

theorem utf8DecodeChar_charUtf8 (c : Char) (rest : List Nat) :
    utf8DecodeChar (charUtf8 c ++ rest) = some (c, rest) := by
  have hv : Nat.isValidChar c.toNat := c.valid
  have hlt : c.toNat < 1114112 := by
    rcases hv with h | ⟨h1, h2⟩
    · omega
    · omega
  simp only [charUtf8]
  by_cases h1 : c.toNat < 128
  · rw [if_pos h1]
    simp only [List.cons_append, List.nil_append, utf8DecodeChar]
    rw [if_pos h1, if_pos hv, Char.ofNat_toNat]
  · rw [if_neg h1]
    by_cases h2 : c.toNat < 2048
    · rw [if_pos h2]
      simp only [List.cons_append, List.nil_append, utf8DecodeChar]
      rw [if_neg (by omega), if_neg (by omega), if_pos (by omega)]
      rw [if_pos ⟨by omega, by omega⟩]
      have hn : (192 + c.toNat / 64 - 192) * 64 + (128 + c.toNat % 64 - 128) =
          c.toNat := by omega
      rw [hn, if_pos hv, Char.ofNat_toNat]
    · rw [if_neg h2]
      by_cases h3 : c.toNat < 65536
      · rw [if_pos h3]
        simp only [List.cons_append, List.nil_append, utf8DecodeChar]
        rw [if_neg (by omega), if_neg (by omega), if_neg (by omega),
          if_pos (by omega)]
        rw [if_pos ⟨⟨by omega, by omega⟩, by omega, by omega⟩]
        have hn : (224 + c.toNat / 4096 - 224) * 4096 +
            (128 + c.toNat / 64 % 64 - 128) * 64 +
            (128 + c.toNat % 64 - 128) = c.toNat := by omega
        rw [hn, if_pos hv, Char.ofNat_toNat]
      · rw [if_neg h3]
        simp only [List.cons_append, List.nil_append, utf8DecodeChar]
        rw [if_neg (by omega), if_neg (by omega), if_neg (by omega),
          if_neg (by omega), if_pos (by omega)]
        rw [if_pos ⟨⟨by omega, by omega⟩, ⟨by omega, by omega⟩, by omega,
          by omega⟩]
        have hn : (240 + c.toNat / 262144 - 240) * 262144 +
            (128 + c.toNat / 4096 % 64 - 128) * 4096 +
            (128 + c.toNat / 64 % 64 - 128) * 64 +
            (128 + c.toNat % 64 - 128) = c.toNat := by omega
        rw [hn, if_pos hv, Char.ofNat_toNat]

theorem utf8DecodeAllAux_charsUtf8 (cs : List Char) :
    ∀ fuel, (charsUtf8 cs).length ≤ fuel →
      utf8DecodeAllAux fuel (charsUtf8 cs) = some cs := by
  induction cs with
  | nil =>
    intro fuel _
    cases fuel with
    | zero => rfl
    | succ f => rfl
  | cons c cs ih =>
    intro fuel hfuel
    obtain ⟨b0, bs, hc⟩ := charUtf8_cons c
    have hlen : 1 ≤ (charUtf8 c).length := by rw [hc]; simp
    cases fuel with
    | zero =>
      exfalso
      simp only [charsUtf8, List.length_append] at hfuel
      omega
    | succ f =>
      have hcons : charsUtf8 (c :: cs) = b0 :: (bs ++ charsUtf8 cs) := by
        simp only [charsUtf8, hc, List.cons_append]
      rw [hcons]
      simp only [utf8DecodeAllAux]
      rw [← List.cons_append, ← hc, utf8DecodeChar_charUtf8]
      simp only []
      rw [ih f (by simp only [charsUtf8, List.length_append] at hfuel ⊢; omega)]

theorem readString_writeString (s : String) (h : validStr s = true) :
    ∃ w, writeString s = .ok w ∧
      ∀ ctx rest, readString (w ++ rest) ctx = .ok (s, rest) := by
  have hlen : (strUtf8 s).length < 4294967296 := by
    simpa [validStr] using h
  refine ⟨writeU32 (strUtf8 s).length ++ strUtf8 s, ?_, ?_⟩
  · simp only [writeString, writeLen]
    rw [if_pos hlen]
  · intro ctx rest
    simp only [readString, readLen, List.append_assoc]
    rw [readU32_writeU32 _ hlen]
    simp only [readExact]
    rw [if_pos (by simp)]
    rw [List.take_left, List.drop_left]
    simp only [strUtf8]
    rw [utf8DecodeAll, utf8DecodeAllAux_charsUtf8 s.data _ (le_refl _)]

theorem readSlot_writeSlot (s : Slot) (h : validSlot s = true)
    (rest : List Nat) : readSlot (writeSlot s ++ rest) = .ok (s, rest) := by
  cases s with
  | loc v =>
    simp only [validSlot, decide_eq_true_eq] at h
    simp only [writeSlot, List.cons_append, readSlot, readU8]
    rw [readU32_writeU32 v h]
  | global v =>
    simp only [validSlot, decide_eq_true_eq] at h
    simp only [writeSlot, List.cons_append, readSlot, readU8]
    rw [readU32_writeU32 v h]
  | arg v =>
    simp only [validSlot, decide_eq_true_eq] at h
    simp only [writeSlot, List.cons_append, readSlot, readU8]
    rw [readU32_writeU32 v h]
  | ret v =>
    simp only [validSlot, decide_eq_true_eq] at h
    simp only [writeSlot, List.cons_append, readSlot, readU8]
    rw [readU32_writeU32 v h]
  | err v =>
    simp only [validSlot, decide_eq_true_eq] at h
    simp only [writeSlot, List.cons_append, readSlot, readU8]
    rw [readU32_writeU32 v h]

theorem readConst_writeConst (c : ConstValue) (h : validConst c = true) :
    ∃ w, writeConst c = .ok w ∧
      ∀ rest, readConst (w ++ rest) = .ok (c, rest) := by
  cases c with
  | null => exact ⟨[0], rfl, fun rest => rfl⟩
  | bool b =>
    refine ⟨[1, if b then 1 else 0], rfl, fun rest => ?_⟩
    cases b with
    | false => rfl
    | true => rfl
  | num v =>
    have hv : v < 18446744073709551616 := by
      simpa [validConst] using h
    refine ⟨2 :: writeU64 v, rfl, fun rest => ?_⟩
    simp only [List.cons_append, readConst, readU8]
    rw [readU64_writeU64 v hv]
  | str s =>
    obtain ⟨w, hw, hr⟩ := readString_writeString s (by simpa [validConst] using h)
    refine ⟨3 :: w, ?_, fun rest => ?_⟩
    · simp only [writeConst]
      rw [hw]
    · simp only [List.cons_append, readConst, readU8]
      rw [hr "const string" rest]


theorem readStringList_writeStringList (values : List String)
    (h : values.all validStr = true) :
    ∃ w, writeRetshape.writeStringList values = .ok w ∧
      ∀ ctx rest, readStringList values.length (w ++ rest) ctx =
        .ok (values, rest) := by
  induction values with
  | nil => exact ⟨[], rfl, fun ctx rest => rfl⟩
  | cons v vs ih =>
    simp only [List.all_cons, Bool.and_eq_true] at h
    obtain ⟨w1, hw1, hr1⟩ := readString_writeString v h.1
    obtain ⟨w2, hw2, hr2⟩ := ih h.2
    refine ⟨w1 ++ w2, ?_, fun ctx rest => ?_⟩
    · simp only [writeRetshape.writeStringList]
      rw [hw1]
      simp only []
      rw [hw2]
    · simp only [List.length_cons, List.append_assoc, readStringList]
      rw [hr1 ctx (w2 ++ rest)]
      simp only []
      rw [hr2 ctx rest]

theorem readRetshape_writeRetshape (r : RetShape) (h : validRetshape r = true) :
    ∃ w, writeRetshape r = .ok w ∧
      ∀ rest, readRetshape (w ++ rest) = .ok (r, rest) := by
  cases r with
  | scalar => exact ⟨[0], rfl, fun rest => rfl⟩
  | any => exact ⟨[3], rfl, fun rest => rfl⟩
  | either values =>
    simp only [validRetshape, Bool.and_eq_true, decide_eq_true_eq] at h
    obtain ⟨w, hw, hr⟩ := readStringList_writeStringList values h.2
    refine ⟨1 :: writeU32 values.length ++ w, ?_, fun rest => ?_⟩
    · simp only [writeRetshape, writeLen]
      rw [if_pos h.1]
      simp only []
      rw [hw]
    · simp only [List.cons_append, List.append_assoc, readRetshape, readU8,
        readLen]
      rw [readU32_writeU32 _ h.1]
      simp only []
      rw [hr "retshape either value" rest]
  | record values =>
    simp only [validRetshape, Bool.and_eq_true, decide_eq_true_eq] at h
    obtain ⟨w, hw, hr⟩ := readStringList_writeStringList values h.2
    refine ⟨2 :: writeU32 values.length ++ w, ?_, fun rest => ?_⟩
    · simp only [writeRetshape, writeLen]
      rw [if_pos h.1]
      simp only []
      rw [hw]
    · simp only [List.cons_append, List.append_assoc, readRetshape, readU8,
        readLen]
      rw [readU32_writeU32 _ h.1]
      simp only []
      rw [hr "retshape record value" rest]

theorem readSlotList_writeSlots (args : List Slot)
    (h : args.all validSlot = true) :
    ∀ rest, readSlotList args.length ((args.map writeSlot).flatten ++ rest) =
      .ok (args, rest) := by
  induction args with
  | nil => intro rest; rfl
  | cons a as ih =>
    simp only [List.all_cons, Bool.and_eq_true] at h
    intro rest
    simp only [List.map_cons, List.flatten_cons, List.length_cons,
      List.append_assoc, readSlotList]
    rw [readSlot_writeSlot a h.1]
    simp only []
    rw [ih h.2 rest]

theorem readInstr_writeInstr (i : Instr) (h : validInstr i = true) :
    ∃ w, writeInstr i = .ok w ∧
      ∀ rest, readInstr (w ++ rest) = .ok (i, rest) := by
  cases i with
  | storeConst slot value =>
    simp only [validInstr, Bool.and_eq_true] at h
    obtain ⟨h1, h2⟩ := h
    obtain ⟨wc, hwc, hrc⟩ := readConst_writeConst value h2
    refine ⟨0 :: writeSlot slot ++ wc, ?_, fun rest => ?_⟩
    · simp only [writeInstr]
      rw [hwc]
    · simp only [List.cons_append, List.append_assoc, readInstr, readU8]
      rw [readSlot_writeSlot slot h1]
      simp only []
      rw [hrc rest]
  | move src dst =>
    simp only [validInstr, Bool.and_eq_true] at h
    obtain ⟨h1, h2⟩ := h
    refine ⟨1 :: writeSlot src ++ writeSlot dst, rfl, fun rest => ?_⟩
    simp only [List.cons_append, List.append_assoc, readInstr, readU8]
    rw [readSlot_writeSlot src h1]
    simp only []
    rw [readSlot_writeSlot dst h2]
  | add a b out =>
    simp only [validInstr, Bool.and_eq_true] at h
    obtain ⟨⟨h1, h2⟩, h3⟩ := h
    refine ⟨2 :: writeSlot a ++ writeSlot b ++ writeSlot out, rfl, fun rest => ?_⟩
    simp only [List.cons_append, List.append_assoc, readInstr, readU8]
    rw [readSlot_writeSlot a h1]
    simp only []
    rw [readSlot_writeSlot b h2]
    simp only []
    rw [readSlot_writeSlot out h3]
  | sub a b out =>
    simp only [validInstr, Bool.and_eq_true] at h
    obtain ⟨⟨h1, h2⟩, h3⟩ := h
    refine ⟨3 :: writeSlot a ++ writeSlot b ++ writeSlot out, rfl, fun rest => ?_⟩
    simp only [List.cons_append, List.append_assoc, readInstr, readU8]
    rw [readSlot_writeSlot a h1]
    simp only []
    rw [readSlot_writeSlot b h2]
    simp only []
    rw [readSlot_writeSlot out h3]
  | mul a b out =>
    simp only [validInstr, Bool.and_eq_true] at h
    obtain ⟨⟨h1, h2⟩, h3⟩ := h
    refine ⟨4 :: writeSlot a ++ writeSlot b ++ writeSlot out, rfl, fun rest => ?_⟩
    simp only [List.cons_append, List.append_assoc, readInstr, readU8]
    rw [readSlot_writeSlot a h1]
    simp only []
    rw [readSlot_writeSlot b h2]
    simp only []
    rw [readSlot_writeSlot out h3]
  | div a b out =>
    simp only [validInstr, Bool.and_eq_true] at h
    obtain ⟨⟨h1, h2⟩, h3⟩ := h
    refine ⟨5 :: writeSlot a ++ writeSlot b ++ writeSlot out, rfl, fun rest => ?_⟩
    simp only [List.cons_append, List.append_assoc, readInstr, readU8]
    rw [readSlot_writeSlot a h1]
    simp only []
    rw [readSlot_writeSlot b h2]
    simp only []
    rw [readSlot_writeSlot out h3]
  | eq a b out =>
    simp only [validInstr, Bool.and_eq_true] at h
    obtain ⟨⟨h1, h2⟩, h3⟩ := h
    refine ⟨6 :: writeSlot a ++ writeSlot b ++ writeSlot out, rfl, fun rest => ?_⟩
    simp only [List.cons_append, List.append_assoc, readInstr, readU8]
    rw [readSlot_writeSlot a h1]
    simp only []
    rw [readSlot_writeSlot b h2]
    simp only []
    rw [readSlot_writeSlot out h3]
  | lt a b out =>
    simp only [validInstr, Bool.and_eq_true] at h
    obtain ⟨⟨h1, h2⟩, h3⟩ := h
    refine ⟨7 :: writeSlot a ++ writeSlot b ++ writeSlot out, rfl, fun rest => ?_⟩
    simp only [List.cons_append, List.append_assoc, readInstr, readU8]
    rw [readSlot_writeSlot a h1]
    simp only []
    rw [readSlot_writeSlot b h2]
    simp only []
    rw [readSlot_writeSlot out h3]
  | jump target =>
    simp only [validInstr, decide_eq_true_eq] at h
    refine ⟨8 :: writeU32 target, ?_, fun rest => ?_⟩
    · simp only [writeInstr, writeLen]
      rw [if_pos h]
    · simp only [List.cons_append, List.append_assoc, readInstr, readU8]
      rw [readU32_writeU32 target h]
  | branch cond thenPc elsePc =>
    simp only [validInstr, Bool.and_eq_true, decide_eq_true_eq] at h
    obtain ⟨⟨h1, h2⟩, h3⟩ := h
    refine ⟨9 :: writeSlot cond ++ writeU32 thenPc ++ writeU32 elsePc, ?_,
      fun rest => ?_⟩
    · simp only [writeInstr, writeLen]
      rw [if_pos h2]
      simp only []
      rw [if_pos h3]
    · simp only [List.cons_append, List.append_assoc, readInstr, readU8]
      rw [readSlot_writeSlot cond h1]
      simp only []
      rw [readU32_writeU32 thenPc h2]
      simp only []
      rw [readU32_writeU32 elsePc h3]
  | invoke fnSlot args out =>
    simp only [validInstr, Bool.and_eq_true, decide_eq_true_eq] at h
    obtain ⟨⟨⟨h1, h2⟩, h3⟩, h4⟩ := h
    refine ⟨10 :: writeSlot fnSlot ++ writeU32 args.length ++
      (args.map writeSlot).flatten ++ writeSlot out, ?_, fun rest => ?_⟩
    · simp only [writeInstr, writeLen]
      rw [if_pos h2]
    · simp only [List.cons_append, List.append_assoc, readInstr, readU8,
        readLen]
      rw [readSlot_writeSlot fnSlot h1]
      simp only []
      rw [readU32_writeU32 args.length h2]
      simp only []
      rw [readSlotList_writeSlots args h3 (writeSlot out ++ rest)]
      simp only []
      rw [readSlot_writeSlot out h4]
  | returnSet slotId value =>
    simp only [validInstr, Bool.and_eq_true, decide_eq_true_eq] at h
    obtain ⟨h1, h2⟩ := h
    refine ⟨11 :: writeU32 slotId ++ writeSlot value, rfl, fun rest => ?_⟩
    simp only [List.cons_append, List.append_assoc, readInstr, readU8]
    rw [readU32_writeU32 slotId h1]
    simp only []
    rw [readSlot_writeSlot value h2]
  | exit => exact ⟨[12], rfl, fun rest => rfl⟩
  | throw code msg =>
    simp only [validInstr, Bool.and_eq_true] at h
    obtain ⟨h1, h2⟩ := h
    obtain ⟨w1, hw1, hr1⟩ := readString_writeString code h1
    obtain ⟨w2, hw2, hr2⟩ := readString_writeString msg h2
    refine ⟨13 :: w1 ++ w2, ?_, fun rest => ?_⟩
    · simp only [writeInstr]
      rw [hw1]
      simp only []
      rw [hw2]
    · simp only [List.cons_append, List.append_assoc, readInstr, readU8]
      rw [hr1 "throw.code" (w2 ++ rest)]
      simp only []
      rw [hr2 "throw.msg" rest]
  | tryPush handlerPc =>
    simp only [validInstr, decide_eq_true_eq] at h
    refine ⟨14 :: writeU32 handlerPc, ?_, fun rest => ?_⟩
    · simp only [writeInstr, writeLen]
      rw [if_pos h]
    · simp only [List.cons_append, List.append_assoc, readInstr, readU8]
      rw [readU32_writeU32 handlerPc h]
  | tryPop => exact ⟨[15], rfl, fun rest => rfl⟩
  | objNew out =>
    simp only [validInstr] at h
    refine ⟨16 :: writeSlot out, rfl, fun rest => ?_⟩
    simp only [List.cons_append, List.append_assoc, readInstr, readU8]
    rw [readSlot_writeSlot out h]
  | objSet obj key value out =>
    simp only [validInstr, Bool.and_eq_true] at h
    obtain ⟨⟨⟨h1, h2⟩, h3⟩, h4⟩ := h
    obtain ⟨wk, hwk, hrk⟩ := readString_writeString key h2
    refine ⟨17 :: writeSlot obj ++ wk ++ writeSlot value ++ writeSlot out, ?_,
      fun rest => ?_⟩
    · simp only [writeInstr]
      rw [hwk]
    · simp only [List.cons_append, List.append_assoc, readInstr, readU8]
      rw [readSlot_writeSlot obj h1]
      simp only []
      rw [hrk "objset.key" (writeSlot value ++ (writeSlot out ++ rest))]
      simp only []
      rw [readSlot_writeSlot value h3]
      simp only []
      rw [readSlot_writeSlot out h4]
  | objGet obj key out =>
    simp only [validInstr, Bool.and_eq_true] at h
    obtain ⟨⟨h1, h2⟩, h3⟩ := h
    refine ⟨18 :: writeSlot obj ++ writeSlot key ++ writeSlot out, rfl, fun rest => ?_⟩
    simp only [List.cons_append, List.append_assoc, readInstr, readU8]
    rw [readSlot_writeSlot obj h1]
    simp only []
    rw [readSlot_writeSlot key h2]
    simp only []
    rw [readSlot_writeSlot out h3]
  | objHas obj key out =>
    simp only [validInstr, Bool.and_eq_true] at h
    obtain ⟨⟨h1, h2⟩, h3⟩ := h
    refine ⟨19 :: writeSlot obj ++ writeSlot key ++ writeSlot out, rfl, fun rest => ?_⟩
    simp only [List.cons_append, List.append_assoc, readInstr, readU8]
    rw [readSlot_writeSlot obj h1]
    simp only []
    rw [readSlot_writeSlot key h2]
    simp only []
    rw [readSlot_writeSlot out h3]
  | strConcat a b out =>
    simp only [validInstr, Bool.and_eq_true] at h
    obtain ⟨⟨h1, h2⟩, h3⟩ := h
    refine ⟨20 :: writeSlot a ++ writeSlot b ++ writeSlot out, rfl, fun rest => ?_⟩
    simp only [List.cons_append, List.append_assoc, readInstr, readU8]
    rw [readSlot_writeSlot a h1]
    simp only []
    rw [readSlot_writeSlot b h2]
    simp only []
    rw [readSlot_writeSlot out h3]
  | strLen value out =>
    simp only [validInstr, Bool.and_eq_true] at h
    obtain ⟨h1, h2⟩ := h
    refine ⟨21 :: writeSlot value ++ writeSlot out, rfl, fun rest => ?_⟩
    simp only [List.cons_append, List.append_assoc, readInstr, readU8]
    rw [readSlot_writeSlot value h1]
    simp only []
    rw [readSlot_writeSlot out h2]
  | hostPrint slot =>
    simp only [validInstr] at h
    refine ⟨22 :: writeSlot slot, rfl, fun rest => ?_⟩
    simp only [List.cons_append, List.append_assoc, readInstr, readU8]
    rw [readSlot_writeSlot slot h]

theorem readInstrList_writeInstrList (code : List Instr)
    (h : code.all validInstr = true) :
    ∃ w, writeInstrList code = .ok w ∧
      ∀ rest, readInstrList code.length (w ++ rest) = .ok (code, rest) := by
  induction code with
  | nil => exact ⟨[], rfl, fun rest => rfl⟩
  | cons i is ih =>
    simp only [List.all_cons, Bool.and_eq_true] at h
    obtain ⟨w1, hw1, hr1⟩ := readInstr_writeInstr i h.1
    obtain ⟨w2, hw2, hr2⟩ := ih h.2
    refine ⟨w1 ++ w2, ?_, fun rest => ?_⟩
    · simp only [writeInstrList]
      rw [hw1]
      simp only []
      rw [hw2]
    · simp only [List.length_cons, List.append_assoc, readInstrList]
      rw [hr1 (w2 ++ rest)]
      simp only []
      rw [hr2 rest]

theorem readFnMeta_writeFnMeta (m : FnMeta) (h : validFnMeta m = true) :
    ∃ w, writeFnMeta m = .ok w ∧
      ∀ rest, readFnMeta (w ++ rest) = .ok (m, rest) := by
  simp only [validFnMeta, Bool.and_eq_true, decide_eq_true_eq] at h
  obtain ⟨⟨⟨h1, h2⟩, h3⟩, h4⟩ := h
  obtain ⟨w1, hw1, hr1⟩ := readString_writeString m.name h1
  obtain ⟨w2, hw2, hr2⟩ := readRetshape_writeRetshape m.retshape h4
  refine ⟨w1 ++ writeU32 m.argCount ++ writeU32 m.retCount ++ w2, ?_,
    fun rest => ?_⟩
  · simp only [writeFnMeta]
    rw [hw1]
    simp only []
    rw [hw2]
  · simp only [List.append_assoc, readFnMeta]
    rw [hr1 "fn meta name" _]
    simp only []
    rw [readU32_writeU32 m.argCount h2]
    simp only []
    rw [readU32_writeU32 m.retCount h3]
    simp only []
    rw [hr2 rest]

theorem readFunction_writeFunction (f : CompiledFunction)
    (h : validFunction f = true) :
    ∃ w, writeFunction f = .ok w ∧
      ∀ rest, readFunction (w ++ rest) = .ok (f, rest) := by
  simp only [validFunction, Bool.and_eq_true, decide_eq_true_eq] at h
  obtain ⟨⟨⟨⟨⟨⟨⟨h1, h2⟩, h3⟩, h4⟩, h5⟩, h6⟩, h7⟩, h8⟩ := h
  obtain ⟨wm, hwm, hrm⟩ := readFnMeta_writeFnMeta f.meta h6
  obtain ⟨wc, hwc, hrc⟩ := readInstrList_writeInstrList f.code h8
  refine ⟨writeU32 f.id ++ writeU32 f.localCount ++ writeU32 f.argCount ++
    writeU32 f.retCount ++ writeU32 f.errCount ++ wm ++
    writeU32 f.code.length ++ wc, ?_, fun rest => ?_⟩
  · simp only [writeFunction, writeLen]
    rw [hwm]
    simp only []
    rw [if_pos h7]
    simp only []
    rw [hwc]
  · simp only [List.append_assoc, readFunction, readLen]
    rw [readU32_writeU32 f.id h1]
    simp only []
    rw [readU32_writeU32 f.localCount h2]
    simp only []
    rw [readU32_writeU32 f.argCount h3]
    simp only []
    rw [readU32_writeU32 f.retCount h4]
    simp only []
    rw [readU32_writeU32 f.errCount h5]
    simp only []
    rw [hrm _]
    simp only []
    rw [readU32_writeU32 f.code.length h7]
    simp only []
    rw [hrc rest]

theorem readFunctionList_writeFunctionList (fs : List CompiledFunction)
    (h : fs.all validFunction = true) :
    ∃ w, writeFunctionList fs = .ok w ∧
      ∀ rest, readFunctionList fs.length (w ++ rest) = .ok (fs, rest) := by
  induction fs with
  | nil => exact ⟨[], rfl, fun rest => rfl⟩
  | cons f fs ih =>
    simp only [List.all_cons, Bool.and_eq_true] at h
    obtain ⟨w1, hw1, hr1⟩ := readFunction_writeFunction f h.1
    obtain ⟨w2, hw2, hr2⟩ := ih h.2
    refine ⟨w1 ++ w2, ?_, fun rest => ?_⟩
    · simp only [writeFunctionList]
      rw [hw1]
      simp only []
      rw [hw2]
    · simp only [List.length_cons, List.append_assoc, readFunctionList]
      rw [hr1 (w2 ++ rest)]
      simp only []
      rw [hr2 rest]

theorem readPairList_writePairList (ps : List (Nat × Nat))
    (h : ps.all (fun p => p.1 < 4294967296 && p.2 < 4294967296) = true) :
    ∀ rest, readPairList ps.length (writePairList ps ++ rest) =
      .ok (ps, rest) := by
  induction ps with
  | nil => intro rest; rfl
  | cons p ps ih =>
    obtain ⟨a, b⟩ := p
    simp only [List.all_cons, Bool.and_eq_true, decide_eq_true_eq] at h
    intro rest
    simp only [writePairList, List.length_cons, List.append_assoc,
      readPairList]
    rw [readU32_writeU32 a h.1.1]
    simp only []
    rw [readU32_writeU32 b h.1.2]
    simp only []
    rw [ih h.2 rest]

theorem readNamedSlotList_writeNamedSlotList (ps : List (String × Nat))
    (h : ps.all (fun p => validStr p.1 && p.2 < 4294967296) = true) :
    ∃ w, writeNamedSlotList ps = .ok w ∧
      ∀ ctx rest, readNamedSlotList ps.length (w ++ rest) ctx =
        .ok (ps, rest) := by
  induction ps with
  | nil => exact ⟨[], rfl, fun ctx rest => rfl⟩
  | cons p ps ih =>
    obtain ⟨name, slot⟩ := p
    simp only [List.all_cons, Bool.and_eq_true, decide_eq_true_eq] at h
    obtain ⟨w1, hw1, hr1⟩ := readString_writeString name h.1.1
    obtain ⟨w2, hw2, hr2⟩ := ih h.2
    refine ⟨w1 ++ writeU32 slot ++ w2, ?_, fun ctx rest => ?_⟩
    · simp only [writeNamedSlotList]
      rw [hw1]
      simp only []
      rw [hw2]
    · simp only [List.length_cons, List.append_assoc, readNamedSlotList]
      rw [hr1 ctx _]
      simp only []
      rw [readU32_writeU32 slot h.1.2]
      simp only []
      rw [hr2 ctx rest]


theorem writeU32_length (v : Nat) : (writeU32 v).length = 4 := rfl

mutual

theorem writeModule_roundtrip (M : CompiledModule) (h : validModule M = true) :
    ∃ w, writeModule M = .ok w ∧ moduleDepth M ≤ w.length ∧
      ∀ fuel, moduleDepth M ≤ fuel →
        ∀ rest, readModule fuel (w ++ rest) = .ok (M, rest) := by
  cases M with
  | mk name initFunc functions functionGlobals exports imports globalCount =>
    simp only [validModule, Bool.and_eq_true, decide_eq_true_eq] at h
    obtain ⟨⟨⟨⟨⟨⟨⟨⟨⟨⟨h1, h2⟩, h3⟩, h4⟩, h5⟩, h6⟩, h7⟩, h8⟩, h9⟩, h10⟩, h11⟩ := h
    obtain ⟨w1, hw1, hr1⟩ := readString_writeString name h1
    obtain ⟨wf, hwf, hrf⟩ := readFunctionList_writeFunctionList functions h4
    obtain ⟨we, hwe, hre⟩ := readNamedSlotList_writeNamedSlotList exports h8
    obtain ⟨wi, hwi, hid, hri⟩ := writeImportList_roundtrip imports h10
    refine ⟨w1 ++ writeU32 initFunc ++ writeU32 functions.length ++ wf ++
      writeU32 functionGlobals.length ++ writePairList functionGlobals ++
      writeU32 exports.length ++ we ++ writeU32 imports.length ++ wi ++
      writeU32 globalCount, ?_, ?_, ?_⟩
    · simp only [writeModule, writeLen]
      rw [hw1]
      simp only []
      rw [if_pos h3]
      simp only []
      rw [hwf]
      simp only []
      rw [if_pos h5]
      simp only []
      rw [if_pos h7]
      simp only []
      rw [hwe]
      simp only []
      rw [if_pos h9]
      simp only []
      rw [hwi]
    · simp only [moduleDepth, List.length_append, writeU32_length]
      omega
    · intro fuel hfuel rest
      cases fuel with
      | zero =>
        exfalso
        simp only [moduleDepth] at hfuel
        omega
      | succ f =>
        simp only [readModule, readLen, List.append_assoc]
        rw [hr1 "module.name" _]
        simp only []
        rw [readU32_writeU32 initFunc h2]
        simp only []
        rw [readU32_writeU32 functions.length h3]
        simp only []
        rw [hrf _]
        simp only []
        rw [readU32_writeU32 functionGlobals.length h5]
        simp only []
        rw [readPairList_writePairList functionGlobals h6 _]
        simp only []
        rw [readU32_writeU32 exports.length h7]
        simp only []
        rw [hre "export name" _]
        simp only []
        rw [readU32_writeU32 imports.length h9]
        simp only []
        rw [hri f (by simp only [moduleDepth] at hfuel; omega) _]
        simp only []
        rw [readU32_writeU32 globalCount h11]

theorem writeImportList_roundtrip (bs : List ImportBinding)
    (h : validImportList bs = true) :
    ∃ w, writeImportList bs = .ok w ∧ importListDepth bs ≤ w.length ∧
      ∀ fuel, importListDepth bs ≤ fuel →
        ∀ rest, readImportList fuel bs.length (w ++ rest) = .ok (bs, rest) := by
  cases bs with
  | nil =>
    exact ⟨[], rfl, by simp [importListDepth],
      fun fuel _ rest => by simp [readImportList]⟩
  | cons b rest2 =>
    simp only [validImportList, Bool.and_eq_true] at h
    obtain ⟨w1, hw1, hd1, hr1⟩ := writeImport_roundtrip b h.1
    obtain ⟨w2, hw2, hd2, hr2⟩ := writeImportList_roundtrip rest2 h.2
    refine ⟨w1 ++ w2, ?_, ?_, ?_⟩
    · simp only [writeImportList]
      rw [hw1]
      simp only []
      rw [hw2]
    · simp only [importListDepth, List.length_append]
      omega
    · intro fuel hfuel rest
      simp only [importListDepth, max_le_iff] at hfuel
      simp only [List.length_cons, List.append_assoc, readImportList]
      rw [hr1 fuel hfuel.1 _]
      simp only []
      rw [hr2 fuel hfuel.2 rest]

theorem writeImport_roundtrip (b : ImportBinding) (h : validImport b = true) :
    ∃ w, writeImport b = .ok w ∧ importDepth b ≤ w.length ∧
      ∀ fuel, importDepth b ≤ fuel →
        ∀ rest, readImport fuel (w ++ rest) = .ok (b, rest) := by
  cases b with
  | mk path aliasName module exportToGlobal =>
    simp only [validImport, Bool.and_eq_true, decide_eq_true_eq] at h
    obtain ⟨⟨⟨⟨hp, ha⟩, hl⟩, hpairs⟩, hm⟩ := h
    obtain ⟨w1, hw1, hr1⟩ := readString_writeString path hp
    obtain ⟨w2, hw2, hr2⟩ := readString_writeString aliasName ha
    obtain ⟨w3, hw3, hr3⟩ :=
      readNamedSlotList_writeNamedSlotList exportToGlobal hpairs
    obtain ⟨w4, hw4, hd4, hr4⟩ := writeModule_roundtrip module hm
    refine ⟨w1 ++ w2 ++ writeU32 exportToGlobal.length ++ w3 ++ w4, ?_, ?_,
      ?_⟩
    · simp only [writeImport, writeLen]
      rw [hw1]
      simp only []
      rw [hw2]
      simp only []
      rw [if_pos hl]
      simp only []
      rw [hw3]
      simp only []
      rw [hw4]
    · simp only [importDepth, List.length_append]
      omega
    · intro fuel hfuel rest
      simp only [importDepth] at hfuel
      simp only [readImport, readLen, List.append_assoc]
      rw [hr1 "import.path" _]
      simp only []
      rw [hr2 "import.alias" _]
      simp only []
      rw [readU32_writeU32 exportToGlobal.length hl]
      simp only []
      rw [hr3 "import export name" _]
      simp only []
      rw [hr4 fuel hfuel rest]

end


/-- C2: for every valid compiled module (imports included), encoding
succeeds, decoding the encoded bytes yields the module back (full
structural equality: name, init function, functions with their ids,
counts, meta and code, function globals, exports, imports, global count),
and any trailing bytes after the declared module make decoding fail with
the trailing-bytes error. -/
theorem decode_encode_roundtrip (M : CompiledModule)
    (h : validModule M = true) :
    ∃ bytes, encodeModule M = .ok bytes ∧ decodeModule bytes = .ok M ∧
      ∀ extra, extra ≠ [] →
        decodeModule (bytes ++ extra) =
          .error (.invalidTag "trailing-bytes" 0) := by
  obtain ⟨w, hw, hd, hr⟩ := writeModule_roundtrip M h
  have h16 : writeU16 1 = [1, 0] := rfl
  refine ⟨[73, 77, 80, 67] ++ writeU16 1 ++ w, ?_, ?_, ?_⟩
  · simp only [encodeModule]
    rw [hw]
  · simp only [decodeModule, h16, List.cons_append, List.nil_append,
      List.append_assoc, readFixed4]
    rw [if_neg (by decide)]
    simp only [readU16]
    rw [if_neg (by decide)]
    rw [← List.append_nil w]
    rw [hr ((73 :: 77 :: 80 :: 67 :: 1 :: 0 :: (w ++ [])).length + 1)
      (by simp only [List.length_cons, List.length_append, List.length_nil]
          omega) []]
    rfl
  · intro extra hne
    simp only [decodeModule, h16, List.cons_append, List.nil_append,
      List.append_assoc, readFixed4]
    rw [if_neg (by decide)]
    simp only [readU16]
    rw [if_neg (by decide)]
    rw [hr ((73 :: 77 :: 80 :: 67 :: 1 :: 0 :: (w ++ extra)).length + 1)
      (by simp only [List.length_cons, List.length_append]
          omega) extra]
    cases extra with
    | nil => exact absurd rfl hne
    | cons a as => rfl

/-- Witness for C2 on the concrete one-function module `exAddModule`. -/
theorem decode_encode_roundtrip_witness :
    validModule exAddModule = true ∧
      (∃ bytes, encodeModule exAddModule = .ok bytes ∧
        decodeModule bytes = .ok exAddModule ∧
        ∀ extra, extra ≠ [] →
          decodeModule (bytes ++ extra) =
            .error (.invalidTag "trailing-bytes" 0)) :=
  ⟨rfl, decode_encode_roundtrip exAddModule rfl⟩


theorem alookup_mem {κ α : Type} [BEq κ] {l : List (κ × α)} {k : κ} {a : α}
    (h : alookup l k = some a) : ∃ p ∈ l, (p.1 == k) = true ∧ p.2 = a := by
  unfold alookup at h
  cases hf : l.find? (fun p => p.1 == k) with
  | none => rw [hf] at h; exact Option.noConfusion h
  | some p =>
    rw [hf] at h
    have hpk : (p.1 == k) = true := by
      have h2 := List.find?_some hf
      simpa using h2
    exact ⟨p, List.mem_of_find?_eq_some hf, hpk, by simpa using h⟩

theorem function_id {M : CompiledModule} {fid : Nat} {f : CompiledFunction}
    (h : M.function fid = some f) : f.id = fid := by
  unfold CompiledModule.function at h
  simpa using List.find?_some h

/-- C1 counterexample: a main module importing two structurally different
modules that share the name `dep` (their inits store `1.0` resp. `2.0`).
The interpreter returns the second module's value `2.0`; the pre-decoded
dispatch, whose step cache is keyed by `(module_name, func_id)`, reuses the
first module's steps for the second and returns `1.0`. -/
theorem interp_jit_collision_counterexample :
    (runMain unitArith 20 (Vm.new ⟨false, false⟩) exCollision).2 =
      .ok ⟨[.num f64Two], []⟩ ∧
    (runMain unitArith 20 (Vm.new ⟨false, true⟩) exCollision).2 =
      .ok ⟨[.num f64One], []⟩ ∧
    ((.ok ⟨[.num f64Two], []⟩ : VRes RunResult) ≠
      .ok ⟨[.num f64One], []⟩) := by
  refine ⟨rfl, rfl, fun h => ?_⟩
  injection h with h1
  injection h1 with hret hexp
  injection hret with hv ht
  injection hv with hb
  exact absurd hb (by decide)


theorem linkExportPairs_sim (mods : List CompiledModule) :
    ∀ (prs : List (String × Nat)) (v1 v2 : Vm) (m : CompiledModule)
      (globals : List Value) (exports : List (String × Value)),
      VmRel mods v1 v2 → m ∈ mods →
      ∃ x1 x2 g2, linkExportPairs v1 m globals exports prs = (x1, g2) ∧
        linkExportPairs v2 m globals exports prs = (x2, g2) ∧
        VmRel mods x1 x2 := by
  intro prs
  induction prs with
  | nil =>
    intro v1 v2 m globals exports hrel _
    exact ⟨v1, v2, globals, rfl, rfl, hrel⟩
  | cons pr rest ih =>
    intro v1 v2 m globals exports hrel hm
    obtain ⟨name, destination⟩ := pr
    simp only [linkExportPairs]
    by_cases hd : destination ≥ globals.length
    · rw [if_pos hd, if_pos hd]
      exact ih v1 v2 m globals exports hrel hm
    · rw [if_neg hd, if_neg hd]
      cases ho : objGet? name exports with
      | none => exact ih v1 v2 m globals exports hrel hm
      | some value =>
        cases value with
        | func fid =>
          simp only [Vm.linkImportedValue, Vm.registerForeignFunc]
          rw [hrel.nextId, hrel.foreign]
          have hrel2 : VmRel mods { v1 with foreignFuncs := (v2.nextForeignFuncId, ⟨m, fid⟩) :: v2.foreignFuncs, nextForeignFuncId := min (v2.nextForeignFuncId + 1) (2 ^ 32 - 1) } { v2 with foreignFuncs := (v2.nextForeignFuncId, ⟨m, fid⟩) :: v2.foreignFuncs, nextForeignFuncId := min (v2.nextForeignFuncId + 1) (2 ^ 32 - 1) } :=
            { hostPrint := hrel.hostPrint, jit1 := hrel.jit1, jit2 := hrel.jit2, active := hrel.active, foreign := rfl, nextId := rfl, foreignOk := fun p hp => (List.mem_cons.mp hp).elim (fun he => by rw [he]; exact hm) (fun hp2 => hrel.foreignOk p hp2), cacheOk := hrel.cacheOk }
          exact ih _ _ m _ exports hrel2 hm
        | null =>
          simp only [Vm.linkImportedValue]
          exact ih v1 v2 m _ exports hrel hm
        | bool b2 =>
          simp only [Vm.linkImportedValue]
          exact ih v1 v2 m _ exports hrel hm
        | num n2 =>
          simp only [Vm.linkImportedValue]
          exact ih v1 v2 m _ exports hrel hm
        | str s2 =>
          simp only [Vm.linkImportedValue]
          exact ih v1 v2 m _ exports hrel hm
        | obj o2 =>
          simp only [Vm.linkImportedValue]
          exact ih v1 v2 m _ exports hrel hm
        | error ec2 em2 =>
          simp only [Vm.linkImportedValue]
          exact ih v1 v2 m _ exports hrel hm

theorem vmSim (fa : FloatArith) (Mods : List CompiledModule)
    (hIC : ImportsClosed Mods) (hNC : NoNameCollision Mods) : ∀ n : Nat,
    (∀ v1 v2 module funcId args globals, VmRel Mods v1 v2 → module ∈ Mods →
      SimOut Mods (executeFunction fa n v1 module funcId args globals)
        (executeFunction fa n v2 module funcId args globals)) ∧
    (∀ v1 v2 module frame globals pc2, VmRel Mods v1 v2 → module ∈ Mods →
      SimOut Mods (interpLoop fa n v1 module frame globals)
        (jitLoop fa n v2 module { frame with pc := pc2 } globals
          ⟨frame.code.map JitStep.fromInstr⟩ frame.pc)) ∧
    (∀ v1 v2 globals imports, VmRel Mods v1 v2 →
      (∀ b ∈ imports, b.module ∈ Mods) →
      SimOutG Mods (linkImports fa n v1 globals imports)
        (linkImports fa n v2 globals imports)) ∧
    (∀ v1 v2 module, VmRel Mods v1 v2 → module ∈ Mods →
      SimOutG Mods (buildModuleGlobals fa n v1 module)
        (buildModuleGlobals fa n v2 module)) ∧
    (∀ v1 v2 module, VmRel Mods v1 v2 → module ∈ Mods →
      SimOutR Mods (runMain fa n v1 module) (runMain fa n v2 module)) := by
  intro n
  induction n with
  | zero =>
    refine ⟨?_, ?_, ?_, ?_, ?_⟩
    · intro v1 v2 module funcId args globals hrel _
      simp only [executeFunction]
      exact ⟨hrel, rfl, rfl⟩
    · intro v1 v2 module frame globals pc2 hrel _
      simp only [interpLoop, jitLoop]
      exact ⟨hrel, rfl, rfl⟩
    · intro v1 v2 globals imports hrel _
      simp only [linkImports]
      exact ⟨hrel, rfl⟩
    · intro v1 v2 module hrel _
      simp only [buildModuleGlobals]
      exact ⟨hrel, rfl⟩
    · intro v1 v2 module hrel _
      simp only [runMain]
      exact ⟨hrel, rfl⟩
  | succ n ih =>
    obtain ⟨ihA, ihB, ihC, ihD, ihE⟩ := ih
    refine ⟨?_, ?_, ?_, ?_, ?_⟩
    · intro v1 v2 module funcId args globals hrel hmem
      rw [executeFunction, executeFunction]
      cases hfn : module.function funcId with
      | none =>
        simp only []
        rw [hrel.foreign]
        cases hff : alookup v2.foreignFuncs funcId with
        | none => exact ⟨hrel, rfl, rfl⟩
        | some foreign =>
          simp only []
          have hfm : foreign.module ∈ Mods := by
            obtain ⟨p, hp, _, hpa⟩ := alookup_mem hff
            exact hpa ▸ hrel.foreignOk p hp
          rcases hb1 : buildModuleGlobals fa n v1 foreign.module with ⟨w1, b1⟩
          rcases hb2 : buildModuleGlobals fa n v2 foreign.module with ⟨w2, b2⟩
          have hsim := ihD v1 v2 foreign.module hrel hfm
          rw [hb1, hb2] at hsim
          obtain ⟨hrel2, hbeq⟩ := hsim
          simp only [] at hbeq
          subst hbeq
          cases b1 with
          | ok fg =>
            simp only []
            rcases hx1 : executeFunction fa n w1 foreign.module
              foreign.funcId args fg with ⟨u1, gg1, r1⟩
            rcases hx2 : executeFunction fa n w2 foreign.module
              foreign.funcId args fg with ⟨u2, gg2, r2⟩
            have hsim2 := ihA w1 w2 foreign.module foreign.funcId args fg
              hrel2 hfm
            rw [hx1, hx2] at hsim2
            obtain ⟨hrel3, hgeq, hreq⟩ := hsim2
            simp only [] at hgeq hreq
            subst hreq
            exact ⟨hrel3, rfl, rfl⟩
          | err e => exact ⟨hrel2, rfl, rfl⟩
          | timeout => exact ⟨hrel2, rfl, rfl⟩
          | abort m => exact ⟨hrel2, rfl, rfl⟩
      | some function =>
        simp only []
        rw [hrel.jit1, hrel.jit2]
        rw [if_neg Bool.false_ne_true, if_pos rfl]
        simp only [Vm.getOrCompileJit]
        cases hc : alookup v2.jitCache (module.name, function.id) with
        | some cached =>
          simp only []
          have hcc : cached = JitFunction.compile function := by
            obtain ⟨p, hp, hpk, hpa⟩ := alookup_mem hc
            obtain ⟨m, hmM, hmn, f, hmf, hjf⟩ := hrel.cacheOk p hp
            have hpe : p.1 = (module.name, function.id) := eq_of_beq hpk
            rw [hpe] at hmn hmf
            have hmm : m = module := hNC m hmM module hmem hmn
            subst hmm
            rw [function_id hfn, hfn] at hmf
            injection hmf with hf2
            rw [← hpa, hjf, hf2]
          rw [hcc]
          exact ihB v1 v2 module (Frame.new function args) globals 0 hrel hmem
        | none =>
          simp only []
          have hrel2 : VmRel Mods v1 { v2 with jitCache := ((module.name, function.id), JitFunction.compile function) :: v2.jitCache } :=
            { hostPrint := hrel.hostPrint, jit1 := hrel.jit1, jit2 := hrel.jit2, active := hrel.active, foreign := hrel.foreign, nextId := hrel.nextId, foreignOk := hrel.foreignOk, cacheOk := fun p hp => (List.mem_cons.mp hp).elim (fun he => by rw [he]; exact ⟨module, hmem, rfl, function, by rw [function_id hfn]; exact hfn, rfl⟩) (fun hp2 => hrel.cacheOk p hp2) }
          exact ihB v1 _ module (Frame.new function args) globals 0 hrel2 hmem
    · intro v1 v2 module frame globals pc2 hrel hmem
      obtain ⟨fcode, fpc, floc, farg, fret, ferr, ftry, fmeta⟩ := frame
      rw [interpLoop, jitLoop]
      simp only []
      rw [List.get?_map]
      cases hi : fcode.get? fpc with
      | none =>
        simp only [Option.map_none']
        exact ⟨hrel, rfl, rfl⟩
      | some instr =>
        simp only [Option.map_some']
        cases instr with
    | storeConst slot value =>
      simp only [JitStep.fromInstr]
      cases slot <;> (simp only [Frame.set]; exact ihB v1 v2 module _ _ _ hrel hmem)
    | move src dst =>
      simp only [JitStep.fromInstr]
      cases hv : Frame.get ⟨fcode, fpc, floc, farg, fret, ferr, ftry, fmeta⟩ src globals with
      | error e => exact ⟨hrel, rfl, rfl⟩
      | ok value => cases dst <;> (simp only [Frame.set]; exact ihB v1 v2 module _ _ _ hrel hmem)
    | add a b out =>
      simp only [JitStep.fromInstr]
      cases hx : (Frame.get ⟨fcode, fpc, floc, farg, fret, ferr, ftry, fmeta⟩ a globals).bind Value.asNum with
      | error e => exact ⟨hrel, rfl, rfl⟩
      | ok x =>
        cases hy : (Frame.get ⟨fcode, fpc, floc, farg, fret, ferr, ftry, fmeta⟩ b globals).bind Value.asNum with
        | error e => exact ⟨hrel, rfl, rfl⟩
        | ok y => cases out <;> (simp only [Frame.set]; exact ihB v1 v2 module _ _ _ hrel hmem)
    | sub a b out =>
      simp only [JitStep.fromInstr]
      cases hx : (Frame.get ⟨fcode, fpc, floc, farg, fret, ferr, ftry, fmeta⟩ a globals).bind Value.asNum with
      | error e => exact ⟨hrel, rfl, rfl⟩
      | ok x =>
        cases hy : (Frame.get ⟨fcode, fpc, floc, farg, fret, ferr, ftry, fmeta⟩ b globals).bind Value.asNum with
        | error e => exact ⟨hrel, rfl, rfl⟩
        | ok y => cases out <;> (simp only [Frame.set]; exact ihB v1 v2 module _ _ _ hrel hmem)
    | mul a b out =>
      simp only [JitStep.fromInstr]
      cases hx : (Frame.get ⟨fcode, fpc, floc, farg, fret, ferr, ftry, fmeta⟩ a globals).bind Value.asNum with
      | error e => exact ⟨hrel, rfl, rfl⟩
      | ok x =>
        cases hy : (Frame.get ⟨fcode, fpc, floc, farg, fret, ferr, ftry, fmeta⟩ b globals).bind Value.asNum with
        | error e => exact ⟨hrel, rfl, rfl⟩
        | ok y => cases out <;> (simp only [Frame.set]; exact ihB v1 v2 module _ _ _ hrel hmem)
    | div a b out =>
      simp only [JitStep.fromInstr]
      cases hy : (Frame.get ⟨fcode, fpc, floc, farg, fret, ferr, ftry, fmeta⟩ b globals).bind Value.asNum with
      | error e => exact ⟨hrel, rfl, rfl⟩
      | ok divisor =>
        simp only []
        by_cases hz : f64Eq divisor f64PosZero = true
        · rw [if_pos hz, if_pos hz]
          simp only [Frame.handleThrow]
          cases ftry with
          | nil => exact ⟨hrel, rfl, rfl⟩
          | cons hd tl =>
            simp only [Frame.set]
            exact ihB v1 v2 module _ _ _ hrel hmem
        · rw [if_neg hz, if_neg hz]
          cases hx : (Frame.get ⟨fcode, fpc, floc, farg, fret, ferr, ftry, fmeta⟩ a globals).bind Value.asNum with
          | error e => exact ⟨hrel, rfl, rfl⟩
          | ok x => cases out <;> (simp only [Frame.set]; exact ihB v1 v2 module _ _ _ hrel hmem)
    | eq a b out =>
      simp only [JitStep.fromInstr]
      cases hx : Frame.get ⟨fcode, fpc, floc, farg, fret, ferr, ftry, fmeta⟩ a globals with
      | error e => exact ⟨hrel, rfl, rfl⟩
      | ok va =>
        cases hy : Frame.get ⟨fcode, fpc, floc, farg, fret, ferr, ftry, fmeta⟩ b globals with
        | error e => exact ⟨hrel, rfl, rfl⟩
        | ok vb => cases out <;> (simp only [Frame.set]; exact ihB v1 v2 module _ _ _ hrel hmem)
    | lt a b out =>
      simp only [JitStep.fromInstr]
      cases hx : (Frame.get ⟨fcode, fpc, floc, farg, fret, ferr, ftry, fmeta⟩ a globals).bind Value.asNum with
      | error e => exact ⟨hrel, rfl, rfl⟩
      | ok x =>
        cases hy : (Frame.get ⟨fcode, fpc, floc, farg, fret, ferr, ftry, fmeta⟩ b globals).bind Value.asNum with
        | error e => exact ⟨hrel, rfl, rfl⟩
        | ok y => cases out <;> (simp only [Frame.set]; exact ihB v1 v2 module _ _ _ hrel hmem)
    | jump target =>
      simp only [JitStep.fromInstr]
      exact ihB v1 v2 module _ _ _ hrel hmem
    | branch cond thenPc elsePc =>
      simp only [JitStep.fromInstr]
      cases hc2 : Frame.get ⟨fcode, fpc, floc, farg, fret, ferr, ftry, fmeta⟩ cond globals with
      | error e => exact ⟨hrel, rfl, rfl⟩
      | ok condition => exact ihB v1 v2 module _ _ _ hrel hmem
    | invoke fnSlot argsI out =>
      simp only [JitStep.fromInstr]
      cases hf : Frame.get ⟨fcode, fpc, floc, farg, fret, ferr, ftry, fmeta⟩ fnSlot globals with
      | error e => exact ⟨hrel, rfl, rfl⟩
      | ok target =>
        simp only []
        cases hm2 : Frame.getMany ⟨fcode, fpc, floc, farg, fret, ferr, ftry, fmeta⟩ argsI globals with
        | error e => exact ⟨hrel, rfl, rfl⟩
        | ok values =>
          simp only []
          cases target with
          | func targetFunc =>
            simp only []
            rcases hx1 : executeFunction fa n v1 module targetFunc values
              globals with ⟨w1, g1, r1⟩
            rcases hx2 : executeFunction fa n v2 module targetFunc values
              globals with ⟨w2, g2, r2⟩
            have hsim := ihA v1 v2 module targetFunc values globals hrel hmem
            rw [hx1, hx2] at hsim
            obtain ⟨hrel2, hgeq, hreq⟩ := hsim
            simp only [] at hgeq hreq
            subst hgeq
            subst hreq
            cases r1 with
            | ok returnValues => cases out <;> (simp only [Frame.set]; exact ihB w1 w2 module _ _ _ hrel2 hmem)
            | err e =>
              cases e with
              | runtime msg => exact ⟨hrel2, rfl, rfl⟩
              | thrown c2 m2 =>
                simp only [Frame.handleThrow]
                cases ftry with
                | nil => exact ⟨hrel2, rfl, rfl⟩
                | cons hd tl =>
                  simp only [Frame.set]
                  exact ihB w1 w2 module _ _ _ hrel2 hmem
            | timeout => exact ⟨hrel2, rfl, rfl⟩
            | abort m2 => exact ⟨hrel2, rfl, rfl⟩
          | null => exact ⟨hrel, rfl, rfl⟩
          | bool b2 => exact ⟨hrel, rfl, rfl⟩
          | num n2 => exact ⟨hrel, rfl, rfl⟩
          | str s2 => exact ⟨hrel, rfl, rfl⟩
          | obj o2 => exact ⟨hrel, rfl, rfl⟩
          | error ec2 em2 => exact ⟨hrel, rfl, rfl⟩
    | returnSet slotId value =>
      simp only [JitStep.fromInstr]
      cases hv : Frame.get ⟨fcode, fpc, floc, farg, fret, ferr, ftry, fmeta⟩ value globals with
      | error e => exact ⟨hrel, rfl, rfl⟩
      | ok v =>
        simp only [Frame.setRet]
        exact ihB v1 v2 module _ _ _ hrel hmem
    | exit =>
      simp only [JitStep.fromInstr]
      cases hv : validateRetshape fmeta fret with
      | error e => exact ⟨hrel, rfl, rfl⟩
      | ok u => exact ⟨hrel, rfl, rfl⟩
    | throw code msg =>
      simp only [JitStep.fromInstr, Frame.handleThrow]
      cases ftry with
      | nil => exact ⟨hrel, rfl, rfl⟩
      | cons hd tl =>
        simp only [Frame.set]
        exact ihB v1 v2 module _ _ _ hrel hmem
    | tryPush handlerPc =>
      simp only [JitStep.fromInstr]
      exact ihB v1 v2 module _ _ _ hrel hmem
    | tryPop =>
      simp only [JitStep.fromInstr]
      exact ihB v1 v2 module _ _ _ hrel hmem
    | objNew out =>
      simp only [JitStep.fromInstr]
      cases out <;> (simp only [Frame.set]; exact ihB v1 v2 module _ _ _ hrel hmem)
    | objSet obj key value out =>
      simp only [JitStep.fromInstr]
      cases ho : Frame.get ⟨fcode, fpc, floc, farg, fret, ferr, ftry, fmeta⟩ obj globals with
      | error e => exact ⟨hrel, rfl, rfl⟩
      | ok v =>
        cases v with
        | obj map =>
          cases hv2 : Frame.get ⟨fcode, fpc, floc, farg, fret, ferr, ftry, fmeta⟩ value globals with
          | error e => exact ⟨hrel, rfl, rfl⟩
          | ok vv => cases out <;> (simp only [Frame.set]; exact ihB v1 v2 module _ _ _ hrel hmem)
        | null => exact ⟨hrel, rfl, rfl⟩
        | bool b2 => exact ⟨hrel, rfl, rfl⟩
        | num n2 => exact ⟨hrel, rfl, rfl⟩
        | str s2 => exact ⟨hrel, rfl, rfl⟩
        | func f2 => exact ⟨hrel, rfl, rfl⟩
        | error ec2 em2 => exact ⟨hrel, rfl, rfl⟩
    | objGet obj key out =>
      simp only [JitStep.fromInstr]
      cases ho : Frame.get ⟨fcode, fpc, floc, farg, fret, ferr, ftry, fmeta⟩ obj globals with
      | error e => exact ⟨hrel, rfl, rfl⟩
      | ok object =>
        simp only []
        cases hk : (Frame.get ⟨fcode, fpc, floc, farg, fret, ferr, ftry, fmeta⟩ key globals).bind (valueToText fa) with
        | error e => exact ⟨hrel, rfl, rfl⟩
        | ok keyText =>
          simp only []
          cases hl : objectLookup object keyText with
          | error e => exact ⟨hrel, rfl, rfl⟩
          | ok value => cases out <;> (simp only [Frame.set]; exact ihB v1 v2 module _ _ _ hrel hmem)
    | objHas obj key out =>
      simp only [JitStep.fromInstr]
      cases ho : Frame.get ⟨fcode, fpc, floc, farg, fret, ferr, ftry, fmeta⟩ obj globals with
      | error e => exact ⟨hrel, rfl, rfl⟩
      | ok object =>
        simp only []
        cases hk : (Frame.get ⟨fcode, fpc, floc, farg, fret, ferr, ftry, fmeta⟩ key globals).bind (valueToText fa) with
        | error e => exact ⟨hrel, rfl, rfl⟩
        | ok keyText =>
          simp only []
          cases hl : objectLookup object keyText with
          | error e => exact ⟨hrel, rfl, rfl⟩
          | ok value => cases out <;> (simp only [Frame.set]; exact ihB v1 v2 module _ _ _ hrel hmem)
    | strConcat a b out =>
      simp only [JitStep.fromInstr]
      cases ha : (Frame.get ⟨fcode, fpc, floc, farg, fret, ferr, ftry, fmeta⟩ a globals).bind (valueToText fa) with
      | error e => exact ⟨hrel, rfl, rfl⟩
      | ok av =>
        cases hb2 : (Frame.get ⟨fcode, fpc, floc, farg, fret, ferr, ftry, fmeta⟩ b globals).bind (valueToText fa) with
        | error e => exact ⟨hrel, rfl, rfl⟩
        | ok bv => cases out <;> (simp only [Frame.set]; exact ihB v1 v2 module _ _ _ hrel hmem)
    | strLen value out =>
      simp only [JitStep.fromInstr]
      cases hv : (Frame.get ⟨fcode, fpc, floc, farg, fret, ferr, ftry, fmeta⟩ value globals).bind (valueToText fa) with
      | error e => exact ⟨hrel, rfl, rfl⟩
      | ok text => cases out <;> (simp only [Frame.set]; exact ihB v1 v2 module _ _ _ hrel hmem)
    | hostPrint slot =>
      simp only [JitStep.fromInstr]
      rw [hrel.hostPrint]
      by_cases hhp : v2.cfg.enableHostPrint = true
      · rw [if_pos hhp, if_pos hhp]
        cases hv : Frame.get ⟨fcode, fpc, floc, farg, fret, ferr, ftry, fmeta⟩ slot globals with
        | error e => exact ⟨hrel, rfl, rfl⟩
        | ok u => exact ihB v1 v2 module _ _ _ hrel hmem
      · rw [if_neg hhp, if_neg hhp]
        exact ihB v1 v2 module _ _ _ hrel hmem
    · intro v1 v2 globals imports hrel hmods
      rw [linkImports.eq_def, linkImports.eq_def]
      simp only []
      cases imports with
      | nil => exact ⟨hrel, rfl⟩
      | cons imp rest =>
        simp only []
        have himp : imp.module ∈ Mods := hmods imp (List.mem_cons_self imp rest)
        rcases hr1 : runMain fa n v1 imp.module with ⟨w1, r1⟩
        rcases hr2 : runMain fa n v2 imp.module with ⟨w2, r2⟩
        have hsim := ihE v1 v2 imp.module hrel himp
        rw [hr1, hr2] at hsim
        obtain ⟨hrel2, hreq⟩ := hsim
        simp only [] at hreq
        subst hreq
        cases r1 with
        | ok imported =>
          simp only []
          obtain ⟨x1, x2, g2, hl1, hl2, hrel3⟩ := linkExportPairs_sim Mods
            imp.exportToGlobal w1 w2 imp.module globals imported.exports
            hrel2 himp
          rw [hl1, hl2]
          simp only []
          exact ihC x1 x2 g2 rest hrel3
            (fun b hb => hmods b (List.mem_cons_of_mem imp hb))
        | err e => exact ⟨hrel2, rfl⟩
        | timeout => exact ⟨hrel2, rfl⟩
        | abort m => exact ⟨hrel2, rfl⟩
    · intro v1 v2 module hrel hmem
      rw [buildModuleGlobals, buildModuleGlobals]
      cases hseat : seatFunctionGlobals
          (List.replicate module.globalCount Value.null)
          module.functionGlobals with
      | none => exact ⟨hrel, rfl⟩
      | some globals =>
        simp only []
        exact ihC v1 v2 globals module.imports hrel
          (fun b hb => hIC module hmem b hb)
    · intro v1 v2 module hrel hmem
      rw [runMain, runMain]
      simp only []
      have hrelA : VmRel Mods { v1 with activeModule := some module } { v2 with activeModule := some module } :=
        { hostPrint := hrel.hostPrint, jit1 := hrel.jit1, jit2 := hrel.jit2, active := rfl, foreign := hrel.foreign, nextId := hrel.nextId, foreignOk := hrel.foreignOk, cacheOk := hrel.cacheOk }
      rcases hb1 : buildModuleGlobals fa n { v1 with activeModule := some module } module with ⟨w1, b1⟩
      rcases hb2 : buildModuleGlobals fa n { v2 with activeModule := some module } module with ⟨w2, b2⟩
      have hsim := ihD _ _ module hrelA hmem
      rw [hb1, hb2] at hsim
      obtain ⟨hrel2, hbeq⟩ := hsim
      simp only [] at hbeq
      subst hbeq
      cases b1 with
      | ok globals =>
        simp only []
        rcases hx1 : executeFunction fa n w1 module module.initFunc []
          globals with ⟨u1, g1, r1⟩
        rcases hx2 : executeFunction fa n w2 module module.initFunc []
          globals with ⟨u2, g2, r2⟩
        have hsim2 := ihA w1 w2 module module.initFunc [] globals hrel2 hmem
        rw [hx1, hx2] at hsim2
        obtain ⟨hrel3, hgeq, hreq⟩ := hsim2
        simp only [] at hgeq hreq
        subst hgeq
        subst hreq
        cases r1 with
        | ok returns =>
          simp only []
          cases hs : snapshotExports g1 module.exports [] with
          | some exports =>
            exact ⟨{ hostPrint := hrel3.hostPrint, jit1 := hrel3.jit1, jit2 := hrel3.jit2, active := rfl, foreign := hrel3.foreign, nextId := hrel3.nextId, foreignOk := hrel3.foreignOk, cacheOk := hrel3.cacheOk }, rfl⟩
          | none => exact ⟨hrel3, rfl⟩
        | err e => exact ⟨hrel3, rfl⟩
        | timeout => exact ⟨hrel3, rfl⟩
        | abort m => exact ⟨hrel3, rfl⟩
      | err e => exact ⟨hrel2, rfl⟩
      | timeout => exact ⟨hrel2, rfl⟩
      | abort m => exact ⟨hrel2, rfl⟩


/-- C1 (amended): for any module set that is closed under imports and in
which a module name determines the module (no two distinct reachable
modules share a name), running `run_main` on a member module with the
direct interpreter (`enable_jit = false`) and with the pre-decoded step
dispatch (`enable_jit = true`) from a fresh VM produces identical results,
in particular identical `returns` vectors and identical `exports` maps.
Without the no-collision side condition the claim fails, because the step
cache is keyed by `(module_name, func_id)`: see the counterexample. -/
theorem interp_jit_equiv_modulo_names (fa : FloatArith)
    (Mods : List CompiledModule) (hIC : ImportsClosed Mods)
    (hNC : NoNameCollision Mods) (module : CompiledModule)
    (hm : module ∈ Mods) (hp : Bool) (n : Nat) :
    (runMain fa n (Vm.new ⟨hp, false⟩) module).2 =
      (runMain fa n (Vm.new ⟨hp, true⟩) module).2 := by
  have hrel : VmRel Mods (Vm.new ⟨hp, false⟩) (Vm.new ⟨hp, true⟩) :=
    { hostPrint := rfl, jit1 := rfl, jit2 := rfl, active := rfl, foreign := rfl, nextId := rfl, foreignOk := fun p hp2 => absurd hp2 (List.not_mem_nil p), cacheOk := fun p hp2 => absurd hp2 (List.not_mem_nil p) }
  exact ((vmSim fa Mods hIC hNC n).2.2.2.2 (Vm.new ⟨hp, false⟩)
    (Vm.new ⟨hp, true⟩) module hrel hm).2

/-- Witness for the amended C1 on the concrete one-module set
`[exAddModule]`. -/
theorem interp_jit_equiv_modulo_names_witness :
    (runMain unitArith 10 (Vm.new ⟨false, false⟩) exAddModule).2 =
      (runMain unitArith 10 (Vm.new ⟨false, true⟩) exAddModule).2 :=
  interp_jit_equiv_modulo_names unitArith [exAddModule]
    (fun m hm b hb => absurd hb
      (by rw [List.mem_singleton.mp hm]
          simp [exAddModule, CompiledModule.imports]))
    (fun m1 h1 m2 h2 _ => by
      rw [List.mem_singleton.mp h1, List.mem_singleton.mp h2])
    exAddModule (List.mem_singleton.mpr rfl) false 10

end Imp
